import Mathlib

/-!
# Schema-validated I2C service stubs

A shallow embedding of `fw/defs/i2c/strict_i2c_service.go`: the typed client proxy
(`_Client`), the server dispatcher (`_Server`) and the schema patch-up of
`initValidators`.

The libraries the file imports (`ourjson`, `ucl`, `schema`, `encoding/json`, the
transport behind `Instance` and the implementation behind `Service`) are not part
of the file.  They enter the embedding as parameters: the record `Deps` holds the
codec and the parser, `_validators` holds the nine compiled validators, `Instance`
the transport and `Service` the implementation.  Every call to one of them is
recorded, in program order, in the trace of the run, so that "is never invoked"
is a statement about the trace.
-/

set_option autoImplicit false
set_option linter.dupNamespace false

namespace I2C

/-! ## Data model -/

/-- Byte slices (`[]byte`) are modelled as strings. -/
abbrev Bytes := String

/-- Go `error` values as this file builds them: an error handed over by a collaborator,
an `mgrpc.ErrorResponse`, and the two wrappers `errors.Trace` and `errors.Annotatef`. -/
inductive Error where
  | external (msg : String)
  | ErrorResponse (Status : Int) (Msg : String)
  | Trace (err : Error)
  | Annotatef (err : Error) (msg : String)
  deriving DecidableEq, Repr

structure ReadArgs where
  Addr : Option Int
  Len : Option Int
  deriving DecidableEq, Repr

structure ReadResult where
  Data_hex : Option String
  deriving DecidableEq, Repr

structure ReadRegBArgs where
  Addr : Option Int
  Reg : Option Int
  deriving DecidableEq, Repr

structure ReadRegBResult where
  Value : Option Int
  deriving DecidableEq, Repr

structure ReadRegWArgs where
  Addr : Option Int
  Reg : Option Int
  deriving DecidableEq, Repr

structure ReadRegWResult where
  Value : Option Int
  deriving DecidableEq, Repr

structure WriteArgs where
  Addr : Option Int
  Data_hex : Option String
  deriving DecidableEq, Repr

structure WriteRegBArgs where
  Addr : Option Int
  Reg : Option Int
  Value : Option Int
  deriving DecidableEq, Repr

/-- The static Go types of the values this file hands to the JSON codec. -/
inductive GoType where
  | ReadArgs | ReadResult | ReadRegBArgs | ReadRegBResult | ReadRegWArgs | ReadRegWResult
  | WriteArgs | WriteRegBArgs
  | Int64Slice
  | Ptr (t : GoType)
  deriving DecidableEq, Repr

/-- The values of a Go type.  A pointer is `none` when nil; a slice is `none` when nil. -/
def GoType.denote : GoType → Type
  | .ReadArgs => I2C.ReadArgs
  | .ReadResult => I2C.ReadResult
  | .ReadRegBArgs => I2C.ReadRegBArgs
  | .ReadRegBResult => I2C.ReadRegBResult
  | .ReadRegWArgs => I2C.ReadRegWArgs
  | .ReadRegWResult => I2C.ReadRegWResult
  | .WriteArgs => I2C.WriteArgs
  | .WriteRegBArgs => I2C.WriteRegBArgs
  | .Int64Slice => Option (List Int)
  | .Ptr t => Option t.denote

/-- A Go `interface{}` holding a value: its dynamic type and the value. -/
abbrev Iface := Sigma GoType.denote

/-- Go `string`. -/
abbrev GoString := String

/-- Go `bool`. -/
abbrev GoBool := Bool

/-- Keys of a `ucl.Object` (`ucl.Key`). -/
structure Key where
  Value : String
  deriving DecidableEq, Repr

/-- The document tree of `ucl` (`ucl.Value`).  `Nil` is the nil interface value, which
`Find` returns for a key that is not there.  The map of an object is an association
list. -/
inductive UclValue where
  | Nil
  | Null
  | Bool (Value : GoBool)
  | Number (Value : Int)
  | String (Value : GoString)
  | Array (Value : List UclValue)
  | Object (Value : List (Key × UclValue))

/-- The envelope sent to the transport (`frame.Command`); only the two fields this file
sets or reads.  `Raw` is the type `ourjson.RawMessage`; its `default` is the zero value,
which a command that received no `Args` carries. -/
structure Command (Raw : Type) where
  Cmd : String
  Args : Raw

/-- The envelope the transport answers with (`frame.Response`). -/
structure Response (Raw : Type) where
  Status : Int
  StatusMsg : String
  Response : Raw

/-- The `context.Context` of a call, a token handed through unchanged. -/
structure Context where
  id : Nat
  deriving DecidableEq, Repr

/-- A compiled validator (`schema.Validator`): `Validate` answers `none` (nil) when the
value conforms and the violation otherwise. -/
structure Validator where
  Validate : UclValue → Option Error

/-- The validator set (`_validators`). -/
structure _validators where
  ReadArgs : Validator
  ReadResult : Validator
  ReadRegBArgs : Validator
  ReadRegBResult : Validator
  ReadRegWArgs : Validator
  ReadRegWResult : Validator
  ScanResult : Validator
  WriteArgs : Validator
  WriteRegBArgs : Validator

/-- Names of the fields of `_validators`, to record which validator a run consulted. -/
inductive ValidatorName where
  | ReadArgs | ReadResult | ReadRegBArgs | ReadRegBResult | ReadRegWArgs | ReadRegWResult
  | ScanResult | WriteArgs | WriteRegBArgs
  deriving DecidableEq, Repr

/-- The codec and the parser the stubs call: `ourjson.DelayMarshaling`, the methods
`MarshalJSON`, `UnmarshalInto` and `len` of an `ourjson.RawMessage`, `json.Marshal` and
`ucl.Parse`.  A Go pair `(value, err)` is an `Except`: the stubs never read the value
next to a non-nil error.  `UnmarshalInto` is given the type of its target, which the
stubs always hand over holding its zero value. -/
structure Deps (Raw : Type) where
  DelayMarshaling : (t : GoType) → t.denote → Raw
  MarshalJSON : Raw → Except Error Bytes
  UnmarshalInto : Raw → (t : GoType) → Except Error t.denote
  len : Raw → Nat
  Marshal : (t : GoType) → t.denote → Except Error Bytes
  Parse : Bytes → Except Error UclValue

/-- The transport (`Instance`): `Call` answers the Go pair `(*frame.Response, error)`. -/
structure Instance (Raw : Type) where
  Call : Context → String → Command Raw → Option (Response Raw) × Option Error

/-- The service contract (`Service`), here the implementation behind the dispatcher.
A Go pair `(result, err)` is a pair of options. -/
structure Service where
  Read : Context → Option ReadArgs → Option ReadResult × Option Error
  ReadRegB : Context → Option ReadRegBArgs → Option ReadRegBResult × Option Error
  ReadRegW : Context → Option ReadRegWArgs → Option ReadRegWResult × Option Error
  Scan : Context → Option (List Int) × Option Error
  Write : Context → Option WriteArgs → Option Error
  WriteRegB : Context → Option WriteRegBArgs → Option Error

/-- One call to a collaborator, as recorded in the trace of a run. -/
inductive Event (Raw : Type) where
  | MarshalJSON (m : Raw)
  | UnmarshalInto (m : Raw) (t : GoType)
  | Marshal (v : Iface)
  | Parse (b : Bytes)
  | Validate (which : ValidatorName) (v : UclValue)
  | Call (ctx : Context) (addr : String) (cmd : Command Raw)
  | Impl (method : String) (ctx : Context) (args : Option Iface)
  | Errorf (format : String)
  | Warningf (format : String)

/-- Whether the event is a call to the transport. -/
def Event.isCall {Raw : Type} : Event Raw → Bool
  | .Call _ _ _ => true
  | _ => false

/-- Whether the event consults a validator. -/
def Event.isValidate {Raw : Type} : Event Raw → Bool
  | .Validate _ _ => true
  | _ => false

/-- Whether the event decodes a payload into a typed value. -/
def Event.isUnmarshalInto {Raw : Type} : Event Raw → Bool
  | .UnmarshalInto _ _ => true
  | _ => false

/-- Whether the event encodes a raw message to bytes. -/
def Event.isMarshalJSON {Raw : Type} : Event Raw → Bool
  | .MarshalJSON _ => true
  | _ => false

/-- Whether the event is a call to the implementation. -/
def Event.isImpl {Raw : Type} : Event Raw → Bool
  | .Impl _ _ _ => true
  | _ => false

/-- How a run ends: the function returns, or it panics (a nil dereference). -/
inductive Outcome (α : Type) where
  | returned (a : α)
  | panicked

/-- A run of a stub: the calls it made to its collaborators, in order, and how it ended. -/
structure Run (Raw α : Type) where
  trace : List (Event Raw)
  out : Outcome α

/-- The client proxy (`_Client`). -/
structure _Client (Raw : Type) where
  i : Instance Raw
  addr : String

/-! ## Client proxy -/

/-- The method `(*_Client).Read`. -/
def _Client.Read {Raw : Type} (D : Deps Raw) (validators : _validators) (c : _Client Raw)
    (ctx : Context) (args : Option ReadArgs) : Run Raw (Option ReadResult × Option Error) :=
  let cmd : Command Raw := { Cmd := "I2C.Read", Args := D.DelayMarshaling (.Ptr .ReadArgs) args }
  let pre : List (Event Raw) × Option Error :=
    match D.MarshalJSON cmd.Args with
    | .error _ => ([.MarshalJSON cmd.Args, .Errorf "Failed to marshal args as JSON: %+v"], none)
    | .ok b =>
      match D.Parse b with
      | .error _ =>
        ([.MarshalJSON cmd.Args, .Parse b,
          .Errorf "Failed to parse just serialized JSON value %q: %+v"], none)
      | .ok v =>
        match validators.ReadArgs.Validate v with
        | some err =>
          ([.MarshalJSON cmd.Args, .Parse b, .Validate .ReadArgs v,
            .Warningf "Sending invalid args for Read: %+v"],
           some (.Annotatef err "invalid args for Read"))
        | none => ([.MarshalJSON cmd.Args, .Parse b, .Validate .ReadArgs v], none)
  match pre.2 with
  | some err => ⟨pre.1, .returned (none, some err)⟩
  | none =>
    match c.i.Call ctx c.addr cmd with
    | (_, some err) => ⟨pre.1 ++ [.Call ctx c.addr cmd], .returned (none, some (.Trace err))⟩
    | (none, none) => ⟨pre.1 ++ [.Call ctx c.addr cmd], .panicked⟩
    | (some resp, none) =>
      if resp.Status ≠ 0 then
        ⟨pre.1 ++ [.Call ctx c.addr cmd],
         .returned (none, some (.Trace (.ErrorResponse resp.Status resp.StatusMsg)))⟩
      else
        let post : List (Event Raw) × Option Error :=
          match D.MarshalJSON resp.Response with
          | .error _ =>
            ([.MarshalJSON resp.Response, .Errorf "Failed to marshal result as JSON: %+v"], none)
          | .ok bb =>
            match D.Parse bb with
            | .error _ => ([.MarshalJSON resp.Response, .Parse bb], none)
            | .ok rv =>
              match validators.ReadResult.Validate rv with
              | some err =>
                ([.MarshalJSON resp.Response, .Parse bb, .Validate .ReadResult rv,
                  .Warningf "Got invalid result for Read: %+v"],
                 some (.Annotatef err "invalid response for Read"))
              | none => ([.MarshalJSON resp.Response, .Parse bb, .Validate .ReadResult rv], none)
        match post.2 with
        | some err => ⟨pre.1 ++ [.Call ctx c.addr cmd] ++ post.1, .returned (none, some err)⟩
        | none =>
          match D.UnmarshalInto resp.Response (.Ptr .ReadResult) with
          | .error err =>
            ⟨pre.1 ++ [.Call ctx c.addr cmd] ++ post.1 ++
               [.UnmarshalInto resp.Response (.Ptr .ReadResult)],
             .returned (none, some (.Annotatef err "unmarshaling response"))⟩
          | .ok r =>
            ⟨pre.1 ++ [.Call ctx c.addr cmd] ++ post.1 ++
               [.UnmarshalInto resp.Response (.Ptr .ReadResult)],
             .returned (r, none)⟩

/-- The method `(*_Client).ReadRegB`. -/
def _Client.ReadRegB {Raw : Type} (D : Deps Raw) (validators : _validators) (c : _Client Raw)
    (ctx : Context) (args : Option ReadRegBArgs) : Run Raw (Option ReadRegBResult × Option Error) :=
  let cmd : Command Raw := { Cmd := "I2C.ReadRegB", Args := D.DelayMarshaling (.Ptr .ReadRegBArgs) args }
  let pre : List (Event Raw) × Option Error :=
    match D.MarshalJSON cmd.Args with
    | .error _ => ([.MarshalJSON cmd.Args, .Errorf "Failed to marshal args as JSON: %+v"], none)
    | .ok b =>
      match D.Parse b with
      | .error _ =>
        ([.MarshalJSON cmd.Args, .Parse b,
          .Errorf "Failed to parse just serialized JSON value %q: %+v"], none)
      | .ok v =>
        match validators.ReadRegBArgs.Validate v with
        | some err =>
          ([.MarshalJSON cmd.Args, .Parse b, .Validate .ReadRegBArgs v,
            .Warningf "Sending invalid args for ReadRegB: %+v"],
           some (.Annotatef err "invalid args for ReadRegB"))
        | none => ([.MarshalJSON cmd.Args, .Parse b, .Validate .ReadRegBArgs v], none)
  match pre.2 with
  | some err => ⟨pre.1, .returned (none, some err)⟩
  | none =>
    match c.i.Call ctx c.addr cmd with
    | (_, some err) => ⟨pre.1 ++ [.Call ctx c.addr cmd], .returned (none, some (.Trace err))⟩
    | (none, none) => ⟨pre.1 ++ [.Call ctx c.addr cmd], .panicked⟩
    | (some resp, none) =>
      if resp.Status ≠ 0 then
        ⟨pre.1 ++ [.Call ctx c.addr cmd],
         .returned (none, some (.Trace (.ErrorResponse resp.Status resp.StatusMsg)))⟩
      else
        let post : List (Event Raw) × Option Error :=
          match D.MarshalJSON resp.Response with
          | .error _ =>
            ([.MarshalJSON resp.Response, .Errorf "Failed to marshal result as JSON: %+v"], none)
          | .ok bb =>
            match D.Parse bb with
            | .error _ => ([.MarshalJSON resp.Response, .Parse bb], none)
            | .ok rv =>
              match validators.ReadRegBResult.Validate rv with
              | some err =>
                ([.MarshalJSON resp.Response, .Parse bb, .Validate .ReadRegBResult rv,
                  .Warningf "Got invalid result for ReadRegB: %+v"],
                 some (.Annotatef err "invalid response for ReadRegB"))
              | none => ([.MarshalJSON resp.Response, .Parse bb, .Validate .ReadRegBResult rv], none)
        match post.2 with
        | some err => ⟨pre.1 ++ [.Call ctx c.addr cmd] ++ post.1, .returned (none, some err)⟩
        | none =>
          match D.UnmarshalInto resp.Response (.Ptr .ReadRegBResult) with
          | .error err =>
            ⟨pre.1 ++ [.Call ctx c.addr cmd] ++ post.1 ++
               [.UnmarshalInto resp.Response (.Ptr .ReadRegBResult)],
             .returned (none, some (.Annotatef err "unmarshaling response"))⟩
          | .ok r =>
            ⟨pre.1 ++ [.Call ctx c.addr cmd] ++ post.1 ++
               [.UnmarshalInto resp.Response (.Ptr .ReadRegBResult)],
             .returned (r, none)⟩

/-- The method `(*_Client).ReadRegW`. -/
def _Client.ReadRegW {Raw : Type} (D : Deps Raw) (validators : _validators) (c : _Client Raw)
    (ctx : Context) (args : Option ReadRegWArgs) : Run Raw (Option ReadRegWResult × Option Error) :=
  let cmd : Command Raw := { Cmd := "I2C.ReadRegW", Args := D.DelayMarshaling (.Ptr .ReadRegWArgs) args }
  let pre : List (Event Raw) × Option Error :=
    match D.MarshalJSON cmd.Args with
    | .error _ => ([.MarshalJSON cmd.Args, .Errorf "Failed to marshal args as JSON: %+v"], none)
    | .ok b =>
      match D.Parse b with
      | .error _ =>
        ([.MarshalJSON cmd.Args, .Parse b,
          .Errorf "Failed to parse just serialized JSON value %q: %+v"], none)
      | .ok v =>
        match validators.ReadRegWArgs.Validate v with
        | some err =>
          ([.MarshalJSON cmd.Args, .Parse b, .Validate .ReadRegWArgs v,
            .Warningf "Sending invalid args for ReadRegW: %+v"],
           some (.Annotatef err "invalid args for ReadRegW"))
        | none => ([.MarshalJSON cmd.Args, .Parse b, .Validate .ReadRegWArgs v], none)
  match pre.2 with
  | some err => ⟨pre.1, .returned (none, some err)⟩
  | none =>
    match c.i.Call ctx c.addr cmd with
    | (_, some err) => ⟨pre.1 ++ [.Call ctx c.addr cmd], .returned (none, some (.Trace err))⟩
    | (none, none) => ⟨pre.1 ++ [.Call ctx c.addr cmd], .panicked⟩
    | (some resp, none) =>
      if resp.Status ≠ 0 then
        ⟨pre.1 ++ [.Call ctx c.addr cmd],
         .returned (none, some (.Trace (.ErrorResponse resp.Status resp.StatusMsg)))⟩
      else
        let post : List (Event Raw) × Option Error :=
          match D.MarshalJSON resp.Response with
          | .error _ =>
            ([.MarshalJSON resp.Response, .Errorf "Failed to marshal result as JSON: %+v"], none)
          | .ok bb =>
            match D.Parse bb with
            | .error _ => ([.MarshalJSON resp.Response, .Parse bb], none)
            | .ok rv =>
              match validators.ReadRegWResult.Validate rv with
              | some err =>
                ([.MarshalJSON resp.Response, .Parse bb, .Validate .ReadRegWResult rv,
                  .Warningf "Got invalid result for ReadRegW: %+v"],
                 some (.Annotatef err "invalid response for ReadRegW"))
              | none => ([.MarshalJSON resp.Response, .Parse bb, .Validate .ReadRegWResult rv], none)
        match post.2 with
        | some err => ⟨pre.1 ++ [.Call ctx c.addr cmd] ++ post.1, .returned (none, some err)⟩
        | none =>
          match D.UnmarshalInto resp.Response (.Ptr .ReadRegWResult) with
          | .error err =>
            ⟨pre.1 ++ [.Call ctx c.addr cmd] ++ post.1 ++
               [.UnmarshalInto resp.Response (.Ptr .ReadRegWResult)],
             .returned (none, some (.Annotatef err "unmarshaling response"))⟩
          | .ok r =>
            ⟨pre.1 ++ [.Call ctx c.addr cmd] ++ post.1 ++
               [.UnmarshalInto resp.Response (.Ptr .ReadRegWResult)],
             .returned (r, none)⟩

/-- The method `(*_Client).Scan`. -/
def _Client.Scan {Raw : Type} [Inhabited Raw] (D : Deps Raw) (validators : _validators)
    (c : _Client Raw) (ctx : Context) : Run Raw (Option (List Int) × Option Error) :=
  let cmd : Command Raw := { Cmd := "I2C.Scan", Args := default }
  match c.i.Call ctx c.addr cmd with
  | (_, some err) => ⟨[.Call ctx c.addr cmd], .returned (none, some (.Trace err))⟩
  | (none, none) => ⟨[.Call ctx c.addr cmd], .panicked⟩
  | (some resp, none) =>
    if resp.Status ≠ 0 then
      ⟨[.Call ctx c.addr cmd],
       .returned (none, some (.Trace (.ErrorResponse resp.Status resp.StatusMsg)))⟩
    else
      let post : List (Event Raw) × Option Error :=
        match D.MarshalJSON resp.Response with
        | .error _ =>
          ([.MarshalJSON resp.Response, .Errorf "Failed to marshal result as JSON: %+v"], none)
        | .ok bb =>
          match D.Parse bb with
          | .error _ => ([.MarshalJSON resp.Response, .Parse bb], none)
          | .ok rv =>
            match validators.ScanResult.Validate rv with
            | some err =>
              ([.MarshalJSON resp.Response, .Parse bb, .Validate .ScanResult rv,
                .Warningf "Got invalid result for Scan: %+v"],
               some (.Annotatef err "invalid response for Scan"))
            | none => ([.MarshalJSON resp.Response, .Parse bb, .Validate .ScanResult rv], none)
      match post.2 with
      | some err => ⟨[.Call ctx c.addr cmd] ++ post.1, .returned (none, some err)⟩
      | none =>
        match D.UnmarshalInto resp.Response .Int64Slice with
        | .error err =>
          ⟨[.Call ctx c.addr cmd] ++ post.1 ++ [.UnmarshalInto resp.Response .Int64Slice],
           .returned (none, some (.Annotatef err "unmarshaling response"))⟩
        | .ok r =>
          ⟨[.Call ctx c.addr cmd] ++ post.1 ++ [.UnmarshalInto resp.Response .Int64Slice],
           .returned (r, none)⟩

/-- The method `(*_Client).Write`. -/
def _Client.Write {Raw : Type} (D : Deps Raw) (validators : _validators) (c : _Client Raw)
    (ctx : Context) (args : Option WriteArgs) : Run Raw (Option Error) :=
  let cmd : Command Raw := { Cmd := "I2C.Write", Args := D.DelayMarshaling (.Ptr .WriteArgs) args }
  let pre : List (Event Raw) × Option Error :=
    match D.MarshalJSON cmd.Args with
    | .error _ => ([.MarshalJSON cmd.Args, .Errorf "Failed to marshal args as JSON: %+v"], none)
    | .ok b =>
      match D.Parse b with
      | .error _ =>
        ([.MarshalJSON cmd.Args, .Parse b,
          .Errorf "Failed to parse just serialized JSON value %q: %+v"], none)
      | .ok v =>
        match validators.WriteArgs.Validate v with
        | some err =>
          ([.MarshalJSON cmd.Args, .Parse b, .Validate .WriteArgs v,
            .Warningf "Sending invalid args for Write: %+v"],
           some (.Annotatef err "invalid args for Write"))
        | none => ([.MarshalJSON cmd.Args, .Parse b, .Validate .WriteArgs v], none)
  match pre.2 with
  | some err => ⟨pre.1, .returned (some err)⟩
  | none =>
    match c.i.Call ctx c.addr cmd with
    | (_, some err) => ⟨pre.1 ++ [.Call ctx c.addr cmd], .returned (some (.Trace err))⟩
    | (none, none) => ⟨pre.1 ++ [.Call ctx c.addr cmd], .panicked⟩
    | (some resp, none) =>
      if resp.Status ≠ 0 then
        ⟨pre.1 ++ [.Call ctx c.addr cmd],
         .returned (some (.Trace (.ErrorResponse resp.Status resp.StatusMsg)))⟩
      else
        ⟨pre.1 ++ [.Call ctx c.addr cmd], .returned none⟩

/-- The method `(*_Client).WriteRegB`. -/
def _Client.WriteRegB {Raw : Type} (D : Deps Raw) (validators : _validators) (c : _Client Raw)
    (ctx : Context) (args : Option WriteRegBArgs) : Run Raw (Option Error) :=
  let cmd : Command Raw := { Cmd := "I2C.WriteRegB", Args := D.DelayMarshaling (.Ptr .WriteRegBArgs) args }
  let pre : List (Event Raw) × Option Error :=
    match D.MarshalJSON cmd.Args with
    | .error _ => ([.MarshalJSON cmd.Args, .Errorf "Failed to marshal args as JSON: %+v"], none)
    | .ok b =>
      match D.Parse b with
      | .error _ =>
        ([.MarshalJSON cmd.Args, .Parse b,
          .Errorf "Failed to parse just serialized JSON value %q: %+v"], none)
      | .ok v =>
        match validators.WriteRegBArgs.Validate v with
        | some err =>
          ([.MarshalJSON cmd.Args, .Parse b, .Validate .WriteRegBArgs v,
            .Warningf "Sending invalid args for WriteRegB: %+v"],
           some (.Annotatef err "invalid args for WriteRegB"))
        | none => ([.MarshalJSON cmd.Args, .Parse b, .Validate .WriteRegBArgs v], none)
  match pre.2 with
  | some err => ⟨pre.1, .returned (some err)⟩
  | none =>
    match c.i.Call ctx c.addr cmd with
    | (_, some err) => ⟨pre.1 ++ [.Call ctx c.addr cmd], .returned (some (.Trace err))⟩
    | (none, none) => ⟨pre.1 ++ [.Call ctx c.addr cmd], .panicked⟩
    | (some resp, none) =>
      if resp.Status ≠ 0 then
        ⟨pre.1 ++ [.Call ctx c.addr cmd],
         .returned (some (.Trace (.ErrorResponse resp.Status resp.StatusMsg)))⟩
      else
        ⟨pre.1 ++ [.Call ctx c.addr cmd], .returned none⟩

/-! ## Server dispatcher -/

/-- The dispatcher (`_Server`). -/
structure _Server where
  impl : Service

/-- The method `(*_Server).Read`. -/
def _Server.Read {Raw : Type} (D : Deps Raw) (validators : _validators) (s : _Server)
    (ctx : Context) (_src : String) (cmd : Command Raw) : Run Raw (Option Iface × Option Error) :=
  let pre : List (Event Raw) × Option Error :=
    match D.MarshalJSON cmd.Args with
    | .error _ => ([.MarshalJSON cmd.Args, .Errorf "Failed to marshal args as JSON: %+v"], none)
    | .ok b =>
      match D.Parse b with
      | .error _ =>
        ([.MarshalJSON cmd.Args, .Parse b, .Errorf "Failed to parse valid JSON value %q: %+v"],
         none)
      | .ok v =>
        match validators.ReadArgs.Validate v with
        | some err =>
          ([.MarshalJSON cmd.Args, .Parse b, .Validate .ReadArgs v,
            .Warningf "Got invalid args for Read: %+v"],
           some (.Annotatef err "invalid args for Read"))
        | none => ([.MarshalJSON cmd.Args, .Parse b, .Validate .ReadArgs v], none)
  match pre.2 with
  | some err => ⟨pre.1, .returned (none, some err)⟩
  | none =>
    let dec : List (Event Raw) × Except Error ReadArgs :=
      if D.len cmd.Args > 0 then
        ([.UnmarshalInto cmd.Args .ReadArgs], D.UnmarshalInto cmd.Args .ReadArgs)
      else ([], .ok { Addr := none, Len := none })
    match dec.2 with
    | .error err =>
      ⟨pre.1 ++ dec.1, .returned (none, some (.Annotatef err "unmarshaling args"))⟩
    | .ok args =>
      match s.impl.Read ctx (some args) with
      | (_, some err) =>
        ⟨pre.1 ++ dec.1 ++ [.Impl "Read" ctx (some ⟨.Ptr .ReadArgs, some args⟩)],
         .returned (none, some (.Trace err))⟩
      | (r, none) =>
        let post : List (Event Raw) × Option Error :=
          match D.Marshal (.Ptr .ReadResult) r with
          | .error _ => ([.Marshal ⟨.Ptr .ReadResult, r⟩], none)
          | .ok bb =>
            match D.Parse bb with
            | .error _ =>
              ([.Marshal ⟨.Ptr .ReadResult, r⟩, .Parse bb,
                .Errorf "Failed to parse just serialized JSON value %q: %+v"], none)
            | .ok v =>
              match validators.ReadResult.Validate v with
              | some err =>
                ([.Marshal ⟨.Ptr .ReadResult, r⟩, .Parse bb, .Validate .ReadResult v,
                  .Warningf "Returned invalid response for Read: %+v"],
                 some (.Annotatef err "server generated invalid responce for Read"))
              | none =>
                ([.Marshal ⟨.Ptr .ReadResult, r⟩, .Parse bb, .Validate .ReadResult v], none)
        match post.2 with
        | some err =>
          ⟨pre.1 ++ dec.1 ++ [.Impl "Read" ctx (some ⟨.Ptr .ReadArgs, some args⟩)] ++ post.1,
           .returned (none, some err)⟩
        | none =>
          ⟨pre.1 ++ dec.1 ++ [.Impl "Read" ctx (some ⟨.Ptr .ReadArgs, some args⟩)] ++ post.1,
           .returned (some ⟨.Ptr .ReadResult, r⟩, none)⟩

/-- The method `(*_Server).ReadRegB`. -/
def _Server.ReadRegB {Raw : Type} (D : Deps Raw) (validators : _validators) (s : _Server)
    (ctx : Context) (_src : String) (cmd : Command Raw) : Run Raw (Option Iface × Option Error) :=
  let pre : List (Event Raw) × Option Error :=
    match D.MarshalJSON cmd.Args with
    | .error _ => ([.MarshalJSON cmd.Args, .Errorf "Failed to marshal args as JSON: %+v"], none)
    | .ok b =>
      match D.Parse b with
      | .error _ =>
        ([.MarshalJSON cmd.Args, .Parse b, .Errorf "Failed to parse valid JSON value %q: %+v"],
         none)
      | .ok v =>
        match validators.ReadRegBArgs.Validate v with
        | some err =>
          ([.MarshalJSON cmd.Args, .Parse b, .Validate .ReadRegBArgs v,
            .Warningf "Got invalid args for ReadRegB: %+v"],
           some (.Annotatef err "invalid args for ReadRegB"))
        | none => ([.MarshalJSON cmd.Args, .Parse b, .Validate .ReadRegBArgs v], none)
  match pre.2 with
  | some err => ⟨pre.1, .returned (none, some err)⟩
  | none =>
    let dec : List (Event Raw) × Except Error ReadRegBArgs :=
      if D.len cmd.Args > 0 then
        ([.UnmarshalInto cmd.Args .ReadRegBArgs], D.UnmarshalInto cmd.Args .ReadRegBArgs)
      else ([], .ok { Addr := none, Reg := none })
    match dec.2 with
    | .error err =>
      ⟨pre.1 ++ dec.1, .returned (none, some (.Annotatef err "unmarshaling args"))⟩
    | .ok args =>
      match s.impl.ReadRegB ctx (some args) with
      | (_, some err) =>
        ⟨pre.1 ++ dec.1 ++ [.Impl "ReadRegB" ctx (some ⟨.Ptr .ReadRegBArgs, some args⟩)],
         .returned (none, some (.Trace err))⟩
      | (r, none) =>
        let post : List (Event Raw) × Option Error :=
          match D.Marshal (.Ptr .ReadRegBResult) r with
          | .error _ => ([.Marshal ⟨.Ptr .ReadRegBResult, r⟩], none)
          | .ok bb =>
            match D.Parse bb with
            | .error _ =>
              ([.Marshal ⟨.Ptr .ReadRegBResult, r⟩, .Parse bb,
                .Errorf "Failed to parse just serialized JSON value %q: %+v"], none)
            | .ok v =>
              match validators.ReadRegBResult.Validate v with
              | some err =>
                ([.Marshal ⟨.Ptr .ReadRegBResult, r⟩, .Parse bb, .Validate .ReadRegBResult v,
                  .Warningf "Returned invalid response for ReadRegB: %+v"],
                 some (.Annotatef err "server generated invalid responce for ReadRegB"))
              | none =>
                ([.Marshal ⟨.Ptr .ReadRegBResult, r⟩, .Parse bb, .Validate .ReadRegBResult v], none)
        match post.2 with
        | some err =>
          ⟨pre.1 ++ dec.1 ++ [.Impl "ReadRegB" ctx (some ⟨.Ptr .ReadRegBArgs, some args⟩)] ++ post.1,
           .returned (none, some err)⟩
        | none =>
          ⟨pre.1 ++ dec.1 ++ [.Impl "ReadRegB" ctx (some ⟨.Ptr .ReadRegBArgs, some args⟩)] ++ post.1,
           .returned (some ⟨.Ptr .ReadRegBResult, r⟩, none)⟩

/-- The method `(*_Server).ReadRegW`. -/
def _Server.ReadRegW {Raw : Type} (D : Deps Raw) (validators : _validators) (s : _Server)
    (ctx : Context) (_src : String) (cmd : Command Raw) : Run Raw (Option Iface × Option Error) :=
  let pre : List (Event Raw) × Option Error :=
    match D.MarshalJSON cmd.Args with
    | .error _ => ([.MarshalJSON cmd.Args, .Errorf "Failed to marshal args as JSON: %+v"], none)
    | .ok b =>
      match D.Parse b with
      | .error _ =>
        ([.MarshalJSON cmd.Args, .Parse b, .Errorf "Failed to parse valid JSON value %q: %+v"],
         none)
      | .ok v =>
        match validators.ReadRegWArgs.Validate v with
        | some err =>
          ([.MarshalJSON cmd.Args, .Parse b, .Validate .ReadRegWArgs v,
            .Warningf "Got invalid args for ReadRegW: %+v"],
           some (.Annotatef err "invalid args for ReadRegW"))
        | none => ([.MarshalJSON cmd.Args, .Parse b, .Validate .ReadRegWArgs v], none)
  match pre.2 with
  | some err => ⟨pre.1, .returned (none, some err)⟩
  | none =>
    let dec : List (Event Raw) × Except Error ReadRegWArgs :=
      if D.len cmd.Args > 0 then
        ([.UnmarshalInto cmd.Args .ReadRegWArgs], D.UnmarshalInto cmd.Args .ReadRegWArgs)
      else ([], .ok { Addr := none, Reg := none })
    match dec.2 with
    | .error err =>
      ⟨pre.1 ++ dec.1, .returned (none, some (.Annotatef err "unmarshaling args"))⟩
    | .ok args =>
      match s.impl.ReadRegW ctx (some args) with
      | (_, some err) =>
        ⟨pre.1 ++ dec.1 ++ [.Impl "ReadRegW" ctx (some ⟨.Ptr .ReadRegWArgs, some args⟩)],
         .returned (none, some (.Trace err))⟩
      | (r, none) =>
        let post : List (Event Raw) × Option Error :=
          match D.Marshal (.Ptr .ReadRegWResult) r with
          | .error _ => ([.Marshal ⟨.Ptr .ReadRegWResult, r⟩], none)
          | .ok bb =>
            match D.Parse bb with
            | .error _ =>
              ([.Marshal ⟨.Ptr .ReadRegWResult, r⟩, .Parse bb,
                .Errorf "Failed to parse just serialized JSON value %q: %+v"], none)
            | .ok v =>
              match validators.ReadRegWResult.Validate v with
              | some err =>
                ([.Marshal ⟨.Ptr .ReadRegWResult, r⟩, .Parse bb, .Validate .ReadRegWResult v,
                  .Warningf "Returned invalid response for ReadRegW: %+v"],
                 some (.Annotatef err "server generated invalid responce for ReadRegW"))
              | none =>
                ([.Marshal ⟨.Ptr .ReadRegWResult, r⟩, .Parse bb, .Validate .ReadRegWResult v], none)
        match post.2 with
        | some err =>
          ⟨pre.1 ++ dec.1 ++ [.Impl "ReadRegW" ctx (some ⟨.Ptr .ReadRegWArgs, some args⟩)] ++ post.1,
           .returned (none, some err)⟩
        | none =>
          ⟨pre.1 ++ dec.1 ++ [.Impl "ReadRegW" ctx (some ⟨.Ptr .ReadRegWArgs, some args⟩)] ++ post.1,
           .returned (some ⟨.Ptr .ReadRegWResult, r⟩, none)⟩

/-- The method `(*_Server).Scan`. -/
def _Server.Scan {Raw : Type} (D : Deps Raw) (validators : _validators) (s : _Server)
    (ctx : Context) (_src : String) (_cmd : Command Raw) :
    Run Raw (Option Iface × Option Error) :=
  match s.impl.Scan ctx with
  | (_, some err) => ⟨[.Impl "Scan" ctx none], .returned (none, some (.Trace err))⟩
  | (r, none) =>
    let post : List (Event Raw) × Option Error :=
      match D.Marshal .Int64Slice r with
      | .error _ => ([.Marshal ⟨.Int64Slice, r⟩], none)
      | .ok bb =>
        match D.Parse bb with
        | .error _ =>
          ([.Marshal ⟨.Int64Slice, r⟩, .Parse bb,
            .Errorf "Failed to parse just serialized JSON value %q: %+v"], none)
        | .ok v =>
          match validators.ScanResult.Validate v with
          | some err =>
            ([.Marshal ⟨.Int64Slice, r⟩, .Parse bb, .Validate .ScanResult v,
              .Warningf "Returned invalid response for Scan: %+v"],
             some (.Annotatef err "server generated invalid responce for Scan"))
          | none => ([.Marshal ⟨.Int64Slice, r⟩, .Parse bb, .Validate .ScanResult v], none)
    match post.2 with
    | some err => ⟨[.Impl "Scan" ctx none] ++ post.1, .returned (none, some err)⟩
    | none => ⟨[.Impl "Scan" ctx none] ++ post.1, .returned (some ⟨.Int64Slice, r⟩, none)⟩

/-- The method `(*_Server).Write`. -/
def _Server.Write {Raw : Type} (D : Deps Raw) (validators : _validators) (s : _Server)
    (ctx : Context) (_src : String) (cmd : Command Raw) : Run Raw (Option Iface × Option Error) :=
  let pre : List (Event Raw) × Option Error :=
    match D.MarshalJSON cmd.Args with
    | .error _ => ([.MarshalJSON cmd.Args, .Errorf "Failed to marshal args as JSON: %+v"], none)
    | .ok b =>
      match D.Parse b with
      | .error _ =>
        ([.MarshalJSON cmd.Args, .Parse b, .Errorf "Failed to parse valid JSON value %q: %+v"],
         none)
      | .ok v =>
        match validators.WriteArgs.Validate v with
        | some err =>
          ([.MarshalJSON cmd.Args, .Parse b, .Validate .WriteArgs v,
            .Warningf "Got invalid args for Write: %+v"],
           some (.Annotatef err "invalid args for Write"))
        | none => ([.MarshalJSON cmd.Args, .Parse b, .Validate .WriteArgs v], none)
  match pre.2 with
  | some err => ⟨pre.1, .returned (none, some err)⟩
  | none =>
    let dec : List (Event Raw) × Except Error WriteArgs :=
      if D.len cmd.Args > 0 then
        ([.UnmarshalInto cmd.Args .WriteArgs], D.UnmarshalInto cmd.Args .WriteArgs)
      else ([], .ok { Addr := none, Data_hex := none })
    match dec.2 with
    | .error err =>
      ⟨pre.1 ++ dec.1, .returned (none, some (.Annotatef err "unmarshaling args"))⟩
    | .ok args =>
      ⟨pre.1 ++ dec.1 ++ [.Impl "Write" ctx (some ⟨.Ptr .WriteArgs, some args⟩)],
       .returned (none, s.impl.Write ctx (some args))⟩

/-- The method `(*_Server).WriteRegB`. -/
def _Server.WriteRegB {Raw : Type} (D : Deps Raw) (validators : _validators) (s : _Server)
    (ctx : Context) (_src : String) (cmd : Command Raw) : Run Raw (Option Iface × Option Error) :=
  let pre : List (Event Raw) × Option Error :=
    match D.MarshalJSON cmd.Args with
    | .error _ => ([.MarshalJSON cmd.Args, .Errorf "Failed to marshal args as JSON: %+v"], none)
    | .ok b =>
      match D.Parse b with
      | .error _ =>
        ([.MarshalJSON cmd.Args, .Parse b, .Errorf "Failed to parse valid JSON value %q: %+v"],
         none)
      | .ok v =>
        match validators.WriteRegBArgs.Validate v with
        | some err =>
          ([.MarshalJSON cmd.Args, .Parse b, .Validate .WriteRegBArgs v,
            .Warningf "Got invalid args for WriteRegB: %+v"],
           some (.Annotatef err "invalid args for WriteRegB"))
        | none => ([.MarshalJSON cmd.Args, .Parse b, .Validate .WriteRegBArgs v], none)
  match pre.2 with
  | some err => ⟨pre.1, .returned (none, some err)⟩
  | none =>
    let dec : List (Event Raw) × Except Error WriteRegBArgs :=
      if D.len cmd.Args > 0 then
        ([.UnmarshalInto cmd.Args .WriteRegBArgs], D.UnmarshalInto cmd.Args .WriteRegBArgs)
      else ([], .ok { Addr := none, Reg := none, Value := none })
    match dec.2 with
    | .error err =>
      ⟨pre.1 ++ dec.1, .returned (none, some (.Annotatef err "unmarshaling args"))⟩
    | .ok args =>
      ⟨pre.1 ++ dec.1 ++ [.Impl "WriteRegB" ctx (some ⟨.Ptr .WriteRegBArgs, some args⟩)],
       .returned (none, s.impl.WriteRegB ctx (some args))⟩

/-! ## Validator set construction (`initValidators`)

The map of a `ucl.Object` is an association list; `Find` and `Lookup` answer with the
entry under the first key of the given name.  The source mutates the tree in place, the
embedding rebuilds it; a type assertion that panics is `none`. -/

/-- The method `(*ucl.Object).Lookup`: the value under the key named `key`, and whether
there is one. -/
def Lookup : List (Key × UclValue) → String → UclValue × Bool
  | [], _ => (.Nil, false)
  | (k, v) :: rest, key => if k.Value = key then (v, true) else Lookup rest key

/-- The method `(*ucl.Object).Find`: the value under the key named `key`, nil when there
is none. -/
def Find (o : List (Key × UclValue)) (key : String) : UclValue := (Lookup o key).1

/-- A write through the pointer that `Find` returned: the value under the first key named
`key` is replaced. -/
def update : List (Key × UclValue) → String → UclValue → List (Key × UclValue)
  | [], _, _ => []
  | (k, v) :: rest, key, w =>
    if k.Value = key then (k, w) :: rest else (k, v) :: update rest key w

/-- The first half of the body of the patch-up loop (lines 122 to 132), on the map `mv` of
one method: a `result` that is a string becomes `type: <string>`, under every key named
`result`. -/
def patchResult (mv : List (Key × UclValue)) : List (Key × UclValue) :=
  match Find mv "result" with
  | .String s =>
    mv.map fun kv =>
      if kv.1.Value = "result" then (kv.1, .Object [(⟨"type"⟩, .String s)]) else kv
  | _ => mv

/-- The inner loop of the patch-up (lines 137 to 145), on the map of the `args` of one
method: every entry that is a string becomes `type: <string>`. -/
def patchArgs (args : List (Key × UclValue)) : List (Key × UclValue) :=
  args.map fun kv =>
    match kv.2 with
    | .String s => (kv.1, .Object [(⟨"type"⟩, .String s)])
    | _ => kv

/-- The body of the patch-up loop for one method `v` (lines 122 to 145): the result is
patched, then, unless the method has no `args`, the entries of `args`. -/
def patchMethod (v : UclValue) : Option UclValue :=
  match v with
  | .Object mv =>
    match Find (patchResult mv) "args" with
    | .Nil => some (.Object (patchResult mv))
    | .Object args => some (.Object (update (patchResult mv) "args" (.Object (patchArgs args))))
    | _ => none
  | _ => none

/-- The patch-up loop over the methods (lines 121 to 146). -/
def patchMethods : List (Key × UclValue) → Option (List (Key × UclValue))
  | [] => some []
  | (k, v) :: rest =>
    match patchMethod v, patchMethods rest with
    | some v1, some rest1 => some ((k, v1) :: rest1)
    | _, _ => none

/-- The patch-up of the parsed service definition (lines 120 to 146). -/
def patchUp (service : UclValue) : Option UclValue :=
  match service with
  | .Object sv =>
    match Find sv "methods" with
    | .Object methods =>
      match patchMethods methods with
      | some methods1 => some (.Object (update sv "methods" (.Object methods1)))
      | none => none
    | _ => none
  | _ => none

/-- The method descriptor `service.Find("methods").Find(name)`, as an object. -/
def methodOf (service : UclValue) (name : String) : Option (List (Key × UclValue)) :=
  match service with
  | .Object sv =>
    match Find sv "methods" with
    | .Object methods =>
      match Find methods name with
      | .Object m => some m
      | _ => none
    | _ => none
  | _ => none

/-- The args schema `s` that `initValidators` hands to `schema.NewValidator` for the
method `name` (lines 149 to 157, and the same lines for the other methods). -/
def argsSchema (service : UclValue) (name : String) : Option UclValue :=
  match methodOf service name with
  | some m =>
    let s : List (Key × UclValue) :=
      [(⟨"properties"⟩, Find m "args"), (⟨"type"⟩, .String "object")]
    match Lookup m "required_args" with
    | (req, true) => some (.Object (s ++ [(⟨"required"⟩, req)]))
    | (_, false) => some (.Object s)
  | none => none

/-- The result schema that `initValidators` hands to `schema.NewValidator` for the method
`name` (line 162, and the same line for the other methods). -/
def resultSchema (service : UclValue) (name : String) : Option UclValue :=
  match methodOf service name with
  | some m => some (Find m "result")
  | none => none

/-- One call `schema.NewValidator(s, loader)` followed by `if err != nil panic(err)`, on a
schema whose construction may itself have panicked. -/
def mustValidator (NewValidator : UclValue → Except Error Validator)
    (schema : Option UclValue) : Option Validator :=
  match schema with
  | some s =>
    match NewValidator s with
    | .ok v => some v
    | .error _ => none
  | none => none

/-- The function `initValidators`, given the outcome of `ucl.Parse(_ServiceDefinition)` and
the constructor `schema.NewValidator`; `none` when it panics. -/
def initValidators (parsed : Except Error UclValue)
    (NewValidator : UclValue → Except Error Validator) : Option _validators :=
  match parsed with
  | .error _ => none
  | .ok service0 =>
    match patchUp service0 with
    | none => none
    | some service =>
      (mustValidator NewValidator (argsSchema service "Read")).bind fun ReadArgs =>
      (mustValidator NewValidator (resultSchema service "Read")).bind fun ReadResult =>
      (mustValidator NewValidator (argsSchema service "ReadRegB")).bind fun ReadRegBArgs =>
      (mustValidator NewValidator (resultSchema service "ReadRegB")).bind fun ReadRegBResult =>
      (mustValidator NewValidator (argsSchema service "ReadRegW")).bind fun ReadRegWArgs =>
      (mustValidator NewValidator (resultSchema service "ReadRegW")).bind fun ReadRegWResult =>
      (mustValidator NewValidator (resultSchema service "Scan")).bind fun ScanResult =>
      (mustValidator NewValidator (argsSchema service "Write")).bind fun WriteArgs =>
      (mustValidator NewValidator (argsSchema service "WriteRegB")).bind fun WriteRegBArgs =>
      some {
        ReadArgs := ReadArgs, ReadResult := ReadResult, ReadRegBArgs := ReadRegBArgs,
        ReadRegBResult := ReadRegBResult, ReadRegWArgs := ReadRegWArgs,
        ReadRegWResult := ReadRegWResult, ScanResult := ScanResult, WriteArgs := WriteArgs,
        WriteRegBArgs := WriteRegBArgs }

/-- Follows the words of the specification: a bare type shorthand `s` is wrapped as
`type: s`, any other descriptor is left as it is. -/
def wrapShorthand : UclValue → UclValue
  | .String s => .Object [(⟨"type"⟩, .String s)]
  | v => v

/-- Whether a descriptor is a bare type shorthand. -/
def isShorthand : UclValue → Bool
  | .String _ => true
  | _ => false

/-- The methods of a small service definition with shorthands: `Get` has a shorthand
result and no args, `Put` has args with one shorthand entry and the list of its required
args. -/
def demoMethods : List (Key × UclValue) :=
  [(⟨"Get"⟩, .Object [(⟨"doc"⟩, .String "get"), (⟨"result"⟩, .String "integer")]),
   (⟨"Put"⟩, .Object [
     (⟨"args"⟩, .Object [
       (⟨"key"⟩, .String "string"),
       (⟨"value"⟩, .Object [(⟨"type"⟩, .String "integer")])]),
     (⟨"required_args"⟩, .Array [.String "key"])])]

/-- The top level of the small service definition. -/
def demoDefinition : List (Key × UclValue) :=
  [(⟨"name"⟩, .String "Demo"), (⟨"methods"⟩, .Object demoMethods)]

/-! ## Vocabulary of the statements -/

/-- Encoding the message and re-parsing the encoded bytes both succeed, and the validator
rejects the parsed value with the violation `e`. -/
def Rejects {Raw : Type} (D : Deps Raw) (val : Validator) (m : Raw) (e : Error) : Prop :=
  ∃ b v, D.MarshalJSON m = .ok b ∧ D.Parse b = .ok v ∧ val.Validate v = some e

/-- Encoding the message fails, or re-parsing the encoded bytes fails. -/
def EncodingFails {Raw : Type} (D : Deps Raw) (m : Raw) : Prop :=
  (∃ e, D.MarshalJSON m = .error e) ∨ ∃ b e, D.MarshalJSON m = .ok b ∧ D.Parse b = .error e

/-- Encoding the typed result and re-parsing the encoded bytes both succeed, and the
validator rejects the parsed value with the violation `e`. -/
def RejectsResult {Raw : Type} (D : Deps Raw) (val : Validator) (t : GoType) (r : t.denote)
    (e : Error) : Prop :=
  ∃ b v, D.Marshal t r = .ok b ∧ D.Parse b = .ok v ∧ val.Validate v = some e

/-- Two answers of the transport that differ at most in the payload of the response. -/
def SameUpToPayload {Raw : Type} (a b : Option (Response Raw) × Option Error) : Prop :=
  a.2 = b.2 ∧
    a.1.map (fun r => (r.Status, r.StatusMsg)) = b.1.map (fun r => (r.Status, r.StatusMsg))

/-- The dispatcher decodes the args of a command to `args`: the message is empty and
`args` is the zero value `zero`, or the message is not empty and `UnmarshalInto` gives
`args`. -/
def DecodesTo {Raw : Type} (D : Deps Raw) (m : Raw) (t : GoType) (zero args : t.denote) :
    Prop :=
  (D.len m = 0 ∧ args = zero) ∨ (0 < D.len m ∧ D.UnmarshalInto m t = .ok args)

/-! ## The shape the generated methods share

The generator writes the same few blocks into every method.  They are stated once here,
with the validator, the types and the string literals of a method as parameters; each
method above is shown equal to its instance below. -/

/-- The block that validates the args of a call: encode, re-parse, validate.  Its second
component is the error the method returns at once, if any. -/
def argsCheck {Raw : Type} (D : Deps Raw) (val : Validator) (which : ValidatorName) (m : Raw)
    (parseFmt warnFmt msg : String) : List (Event Raw) × Option Error :=
  match D.MarshalJSON m with
  | .error _ => ([.MarshalJSON m, .Errorf "Failed to marshal args as JSON: %+v"], none)
  | .ok b =>
    match D.Parse b with
    | .error _ => ([.MarshalJSON m, .Parse b, .Errorf parseFmt], none)
    | .ok v =>
      match val.Validate v with
      | some err =>
        ([.MarshalJSON m, .Parse b, .Validate which v, .Warningf warnFmt],
         some (.Annotatef err msg))
      | none => ([.MarshalJSON m, .Parse b, .Validate which v], none)

/-- The block of the client that validates the payload of a response. -/
def responseCheck {Raw : Type} (D : Deps Raw) (val : Validator) (which : ValidatorName)
    (warnFmt msg : String) (m : Raw) : List (Event Raw) × Option Error :=
  match D.MarshalJSON m with
  | .error _ => ([.MarshalJSON m, .Errorf "Failed to marshal result as JSON: %+v"], none)
  | .ok bb =>
    match D.Parse bb with
    | .error _ => ([.MarshalJSON m, .Parse bb], none)
    | .ok rv =>
      match val.Validate rv with
      | some err =>
        ([.MarshalJSON m, .Parse bb, .Validate which rv, .Warningf warnFmt],
         some (.Annotatef err msg))
      | none => ([.MarshalJSON m, .Parse bb, .Validate which rv], none)

/-- The block of the dispatcher that validates the result of the implementation. -/
def resultCheck {Raw : Type} (D : Deps Raw) (val : Validator) (which : ValidatorName)
    (warnFmt msg : String) (t : GoType) (r : t.denote) : List (Event Raw) × Option Error :=
  match D.Marshal t r with
  | .error _ => ([.Marshal ⟨t, r⟩], none)
  | .ok bb =>
    match D.Parse bb with
    | .error _ =>
      ([.Marshal ⟨t, r⟩, .Parse bb,
        .Errorf "Failed to parse just serialized JSON value %q: %+v"], none)
    | .ok v =>
      match val.Validate v with
      | some err =>
        ([.Marshal ⟨t, r⟩, .Parse bb, .Validate which v, .Warningf warnFmt],
         some (.Annotatef err msg))
      | none => ([.Marshal ⟨t, r⟩, .Parse bb, .Validate which v], none)

/-- The block of the dispatcher that decodes the args, when there are any. -/
def argsDecode {Raw : Type} (D : Deps Raw) (m : Raw) (t : GoType) (zero : t.denote) :
    List (Event Raw) × Except Error t.denote :=
  if D.len m > 0 then ([.UnmarshalInto m t], D.UnmarshalInto m t) else ([], .ok zero)

/-- A client method with a result, after the validation of its args. -/
def clientResult {Raw ρ : Type} (c : _Client Raw) (ctx : Context) (cmd : Command Raw)
    (pre : List (Event Raw) × Option Error) (check : Raw → List (Event Raw) × Option Error)
    (t : GoType) (decode : Raw → Except Error (Option ρ)) : Run Raw (Option ρ × Option Error) :=
  match pre.2 with
  | some err => ⟨pre.1, .returned (none, some err)⟩
  | none =>
    match c.i.Call ctx c.addr cmd with
    | (_, some err) => ⟨pre.1 ++ [.Call ctx c.addr cmd], .returned (none, some (.Trace err))⟩
    | (none, none) => ⟨pre.1 ++ [.Call ctx c.addr cmd], .panicked⟩
    | (some resp, none) =>
      if resp.Status ≠ 0 then
        ⟨pre.1 ++ [.Call ctx c.addr cmd],
         .returned (none, some (.Trace (.ErrorResponse resp.Status resp.StatusMsg)))⟩
      else
        match (check resp.Response).2 with
        | some err =>
          ⟨pre.1 ++ [.Call ctx c.addr cmd] ++ (check resp.Response).1,
           .returned (none, some err)⟩
        | none =>
          match decode resp.Response with
          | .error err =>
            ⟨pre.1 ++ [.Call ctx c.addr cmd] ++ (check resp.Response).1 ++
               [.UnmarshalInto resp.Response t],
             .returned (none, some (.Annotatef err "unmarshaling response"))⟩
          | .ok r =>
            ⟨pre.1 ++ [.Call ctx c.addr cmd] ++ (check resp.Response).1 ++
               [.UnmarshalInto resp.Response t],
             .returned (r, none)⟩

/-- A client method without a result, after the validation of its args. -/
def clientNoResult {Raw : Type} (c : _Client Raw) (ctx : Context) (cmd : Command Raw)
    (pre : List (Event Raw) × Option Error) : Run Raw (Option Error) :=
  match pre.2 with
  | some err => ⟨pre.1, .returned (some err)⟩
  | none =>
    match c.i.Call ctx c.addr cmd with
    | (_, some err) => ⟨pre.1 ++ [.Call ctx c.addr cmd], .returned (some (.Trace err))⟩
    | (none, none) => ⟨pre.1 ++ [.Call ctx c.addr cmd], .panicked⟩
    | (some resp, none) =>
      if resp.Status ≠ 0 then
        ⟨pre.1 ++ [.Call ctx c.addr cmd],
         .returned (some (.Trace (.ErrorResponse resp.Status resp.StatusMsg)))⟩
      else
        ⟨pre.1 ++ [.Call ctx c.addr cmd], .returned none⟩

/-- A dispatcher method with a result, after the validation of its args. -/
def serverResult {Raw α ρ : Type} (pre : List (Event Raw) × Option Error)
    (dec : List (Event Raw) × Except Error α) (impl : α → ρ × Option Error)
    (implEvent : α → Event Raw) (check : ρ → List (Event Raw) × Option Error)
    (box : ρ → Iface) : Run Raw (Option Iface × Option Error) :=
  match pre.2 with
  | some err => ⟨pre.1, .returned (none, some err)⟩
  | none =>
    match dec.2 with
    | .error err =>
      ⟨pre.1 ++ dec.1, .returned (none, some (.Annotatef err "unmarshaling args"))⟩
    | .ok args =>
      match impl args with
      | (_, some err) =>
        ⟨pre.1 ++ dec.1 ++ [implEvent args], .returned (none, some (.Trace err))⟩
      | (r, none) =>
        match (check r).2 with
        | some err =>
          ⟨pre.1 ++ dec.1 ++ [implEvent args] ++ (check r).1, .returned (none, some err)⟩
        | none =>
          ⟨pre.1 ++ dec.1 ++ [implEvent args] ++ (check r).1, .returned (some (box r), none)⟩

/-- A dispatcher method without a result, after the validation of its args. -/
def serverNoResult {Raw α : Type} (pre : List (Event Raw) × Option Error)
    (dec : List (Event Raw) × Except Error α) (impl : α → Option Error)
    (implEvent : α → Event Raw) : Run Raw (Option Iface × Option Error) :=
  match pre.2 with
  | some err => ⟨pre.1, .returned (none, some err)⟩
  | none =>
    match dec.2 with
    | .error err =>
      ⟨pre.1 ++ dec.1, .returned (none, some (.Annotatef err "unmarshaling args"))⟩
    | .ok args => ⟨pre.1 ++ dec.1 ++ [implEvent args], .returned (none, impl args)⟩

/-! ## A small concrete environment

A table-driven stand-in for the collaborators, enough to run the stubs on the scenarios
of the specification.  A raw message is its JSON text. -/

/-- The JSON text of the args `addr: 80, reg: 1, value: 255`. -/
def demoWriteRegBText : String := "\x7b\"addr\":80,\"reg\":1,\"value\":255\x7d"

/-- A stand-in encoder: a nil pointer or slice is `null`, the args of the WriteRegB
scenario are spelled out, any other struct is the empty object and any other slice the
empty array. -/
def demoEncode : (t : GoType) → t.denote → String
  | .Ptr .WriteRegBArgs, some ⟨some 80, some 1, some 255⟩ => demoWriteRegBText
  | .Ptr _, none => "null"
  | .Int64Slice, none => "null"
  | .Int64Slice, some _ => "[]"
  | _, _ => "\x7b\x7d"

/-- A stand-in decoder: it knows the array `[80,96]`, leaves every pointer nil and every
struct at its zero value, and fails on any other array text. -/
def demoDecode (m : String) : (t : GoType) → Except Error t.denote
  | .Int64Slice =>
    if m = "[80,96]" then .ok (some [80, 96])
    else if m = "null" then .ok none
    else .error (.external "cannot unmarshal into []int64")
  | .Ptr _ => .ok none
  | .ReadArgs => .ok ⟨none, none⟩
  | .ReadResult => .ok ⟨none⟩
  | .ReadRegBArgs => .ok ⟨none, none⟩
  | .ReadRegBResult => .ok ⟨none⟩
  | .ReadRegWArgs => .ok ⟨none, none⟩
  | .ReadRegWResult => .ok ⟨none⟩
  | .WriteArgs => .ok ⟨none, none⟩
  | .WriteRegBArgs => .ok ⟨none, none, none⟩

/-- A stand-in parser that knows a handful of JSON texts. -/
def demoParse (b : Bytes) : Except Error UclValue :=
  if b = "null" then .ok .Null
  else if b = "\x7b\x7d" then .ok (.Object [])
  else if b = "[]" then .ok (.Array [])
  else if b = "[80,96]" then .ok (.Array [.Number 80, .Number 96])
  else if b = "\"not-an-array\"" then .ok (.String "not-an-array")
  else if b = demoWriteRegBText then
    .ok (.Object [(⟨"addr"⟩, .Number 80), (⟨"reg"⟩, .Number 1), (⟨"value"⟩, .Number 255)])
  else .error (.external "parse error")

/-- The stand-in codec and parser.  The empty message encodes as `null`; a message that
is the text `!` cannot be encoded. -/
def demoDeps : Deps String where
  DelayMarshaling := demoEncode
  MarshalJSON := fun m =>
    if m = "" then .ok "null"
    else if m = "!" then .error (.external "cannot marshal")
    else .ok m
  UnmarshalInto := demoDecode
  len := String.length
  Marshal := fun t v => .ok (demoEncode t v)
  Parse := demoParse

/-- A validator of the schema `type: object`. -/
def demoObjectValidator : Validator where
  Validate
    | .Object _ => none
    | _ => some (.external "not an object")

/-- A validator of the schema `type: array`. -/
def demoArrayValidator : Validator where
  Validate
    | .Array _ => none
    | _ => some (.external "not an array")

/-- The stand-in validator set: args and struct results are objects, the result of Scan
is an array. -/
def demoValidators : _validators where
  ReadArgs := demoObjectValidator
  ReadResult := demoObjectValidator
  ReadRegBArgs := demoObjectValidator
  ReadRegBResult := demoObjectValidator
  ReadRegWArgs := demoObjectValidator
  ReadRegWResult := demoObjectValidator
  ScanResult := demoArrayValidator
  WriteArgs := demoObjectValidator
  WriteRegBArgs := demoObjectValidator

/-- A transport that answers every command with the given response. -/
def demoInstance (resp : Response String) : Instance String where
  Call := fun _ _ _ => (some resp, none)

/-- A client over the transport that answers every command with the given response. -/
def demoClient (resp : Response String) : _Client String where
  i := demoInstance resp
  addr := "device"

/-- A context. -/
def demoCtx : Context := ⟨0⟩

/-- An implementation that returns nil results and no error, whatever it is asked. -/
def demoService : Service where
  Read := fun _ _ => (none, none)
  ReadRegB := fun _ _ => (none, none)
  ReadRegW := fun _ _ => (none, none)
  Scan := fun _ => (none, none)
  Write := fun _ _ => none
  WriteRegB := fun _ _ => none

/-- A dispatcher over the implementation that returns nil results. -/
def demoServer : _Server where
  impl := demoService

/-- The stand-in codec with an encoder of raw messages that always fails. -/
def demoBrokenDeps : Deps String where
  DelayMarshaling := demoEncode
  MarshalJSON := fun _ => .error (.external "cannot marshal")
  UnmarshalInto := demoDecode
  len := String.length
  Marshal := fun t v => .ok (demoEncode t v)
  Parse := demoParse

/-! ## The typed structs, the service contract and the embedded definition -/

/-- The element types of the fields of the typed structs. -/
inductive ElemType where
  | int64
  | string
  deriving DecidableEq, Repr

/-- One field of a typed struct as the source declares it: its name, whether its type is
a pointer, the type pointed to, and its `json` tag (the name, and whether the tag says
`omitempty`). -/
structure StructField where
  Name : String
  pointer : Bool
  elem : ElemType
  json : String
  omitempty : Bool
  deriving DecidableEq, Repr

/-- The declaration of `ReadArgs` (lines 34 to 37). -/
def ReadArgs.decl : List StructField :=
  [⟨"Addr", true, .int64, "addr", true⟩, ⟨"Len", true, .int64, "len", true⟩]

/-- The declaration of `ReadResult` (lines 39 to 41). -/
def ReadResult.decl : List StructField :=
  [⟨"Data_hex", true, .string, "data_hex", true⟩]

/-- The declaration of `ReadRegBArgs` (lines 43 to 46). -/
def ReadRegBArgs.decl : List StructField :=
  [⟨"Addr", true, .int64, "addr", true⟩, ⟨"Reg", true, .int64, "reg", true⟩]

/-- The declaration of `ReadRegBResult` (lines 48 to 50). -/
def ReadRegBResult.decl : List StructField :=
  [⟨"Value", true, .int64, "value", true⟩]

/-- The declaration of `ReadRegWArgs` (lines 52 to 55). -/
def ReadRegWArgs.decl : List StructField :=
  [⟨"Addr", true, .int64, "addr", true⟩, ⟨"Reg", true, .int64, "reg", true⟩]

/-- The declaration of `ReadRegWResult` (lines 57 to 59). -/
def ReadRegWResult.decl : List StructField :=
  [⟨"Value", true, .int64, "value", true⟩]

/-- The declaration of `WriteArgs` (lines 61 to 64). -/
def WriteArgs.decl : List StructField :=
  [⟨"Addr", true, .int64, "addr", true⟩, ⟨"Data_hex", true, .string, "data_hex", true⟩]

/-- The declaration of `WriteRegBArgs` (lines 66 to 70). -/
def WriteRegBArgs.decl : List StructField :=
  [⟨"Addr", true, .int64, "addr", true⟩, ⟨"Reg", true, .int64, "reg", true⟩,
   ⟨"Value", true, .int64, "value", true⟩]

/-- What a method of the interface `Service` returns next to its `error`: a pointer to a
typed struct, the slice `[]int64`, or nothing. -/
inductive ResultDecl where
  | struct (fields : List StructField)
  | int64Slice
  | absent
  deriving DecidableEq, Repr

/-- The signature of one method of the interface `Service`: its name, the typed struct of
its args if it takes any, and what it returns. -/
structure MethodSig where
  name : String
  args : Option (List StructField)
  result : ResultDecl
  deriving DecidableEq, Repr

/-- The methods of the interface `Service` (lines 72 to 79). -/
def serviceMethods : List MethodSig :=
  [⟨"Read", some ReadArgs.decl, .struct ReadResult.decl⟩,
   ⟨"ReadRegB", some ReadRegBArgs.decl, .struct ReadRegBResult.decl⟩,
   ⟨"ReadRegW", some ReadRegWArgs.decl, .struct ReadRegWResult.decl⟩,
   ⟨"Scan", none, .int64Slice⟩,
   ⟨"Write", some WriteArgs.decl, .absent⟩,
   ⟨"WriteRegB", some WriteRegBArgs.decl, .absent⟩]

/-- The document `_ServiceDefinition` (lines 678 to 788), as the tree that its JSON text
denotes. -/
def _ServiceDefinition : UclValue :=
  .Object [
    (⟨"methods"⟩, .Object [
    (⟨"Read"⟩, .Object [
      (⟨"args"⟩, .Object [
        (⟨"addr"⟩, .Object [
          (⟨"doc"⟩, .String "Address of the device, 7 or 10 bits (not including the r/w bit)."),
          (⟨"type"⟩, .String "integer")]),
        (⟨"len"⟩, .Object [
          (⟨"doc"⟩, .String "Number of bytes to read."),
          (⟨"type"⟩, .String "integer")])]),
      (⟨"doc"⟩, .String "Read specified number of bytes from the specified device."),
      (⟨"result"⟩, .Object [
        (⟨"properties"⟩, .Object [
          (⟨"data_hex"⟩, .Object [
            (⟨"doc"⟩, .String "Hex-encoded data."),
            (⟨"type"⟩, .String "string")])]),
        (⟨"type"⟩, .String "object")])]),
    (⟨"ReadRegB"⟩, .Object [
      (⟨"args"⟩, .Object [
        (⟨"addr"⟩, .Object [
          (⟨"doc"⟩, .String "Address of the device, 7 or 10 bits (not including the r/w bit)."),
          (⟨"type"⟩, .String "integer")]),
        (⟨"reg"⟩, .Object [
          (⟨"doc"⟩, .String "Register number."),
          (⟨"type"⟩, .String "integer")])]),
      (⟨"doc"⟩, .String "Read value of a byte-sized (8-bit) register."),
      (⟨"result"⟩, .Object [
        (⟨"properties"⟩, .Object [
          (⟨"value"⟩, .Object [
            (⟨"doc"⟩, .String "Register value read from the device."),
            (⟨"type"⟩, .String "integer")])]),
        (⟨"type"⟩, .String "object")])]),
    (⟨"ReadRegW"⟩, .Object [
      (⟨"args"⟩, .Object [
        (⟨"addr"⟩, .Object [
          (⟨"doc"⟩, .String "Address of the device, 7 or 10 bits (not including the r/w bit)."),
          (⟨"type"⟩, .String "integer")]),
        (⟨"reg"⟩, .Object [
          (⟨"doc"⟩, .String "Register number."),
          (⟨"type"⟩, .String "integer")])]),
      (⟨"doc"⟩, .String "Read value of a word-sized (16-bit) register."),
      (⟨"result"⟩, .Object [
        (⟨"properties"⟩, .Object [
          (⟨"value"⟩, .Object [
            (⟨"doc"⟩, .String "Register value read from the device."),
            (⟨"type"⟩, .String "integer")])]),
        (⟨"type"⟩, .String "object")])]),
    (⟨"Scan"⟩, .Object [
      (⟨"doc"⟩, .String "Scan the I2C bus, returning addresses of devices that responded."),
      (⟨"result"⟩, .Object [
        (⟨"items"⟩, .Object [
          (⟨"doc"⟩, .String "List of device addresses for which an ACK was received."),
          (⟨"type"⟩, .String "integer")]),
        (⟨"type"⟩, .String "array")])]),
    (⟨"Write"⟩, .Object [
      (⟨"args"⟩, .Object [
        (⟨"addr"⟩, .Object [
          (⟨"doc"⟩, .String "Address of the device, 7 or 10 bits (not including the r/w bit)."),
          (⟨"type"⟩, .String "integer")]),
        (⟨"data_hex"⟩, .Object [
          (⟨"doc"⟩, .String "Hex-encoded data to write."),
          (⟨"type"⟩, .String "string")])]),
      (⟨"doc"⟩, .String "Write the specified data to the device with the specified address.")]),
    (⟨"WriteRegB"⟩, .Object [
      (⟨"args"⟩, .Object [
        (⟨"addr"⟩, .Object [
          (⟨"doc"⟩, .String "Address of the device, 7 or 10 bits (not including the r/w bit)."),
          (⟨"type"⟩, .String "integer")]),
        (⟨"reg"⟩, .Object [
          (⟨"doc"⟩, .String "Register number."),
          (⟨"type"⟩, .String "integer")]),
        (⟨"value"⟩, .Object [
          (⟨"doc"⟩, .String "Register value to write."),
          (⟨"type"⟩, .String "integer")])]),
      (⟨"doc"⟩, .String "Write value of a word-sized (16-bit) register.")])]),
    (⟨"name"⟩, .String "I2C"),
    (⟨"namespace"⟩, .String "http://mongoose-iot.com/fw")]

/-- The function `NewClient`, for the call in which `validatorsOnce.Do` runs
`initValidators`: a panic of `initValidators` leaves `NewClient` through `Do`; otherwise
the call returns the client, and the validator set is the one left in `validators`. -/
def NewClient {Raw : Type} (parsed : Except Error UclValue)
    (NewValidator : UclValue → Except Error Validator) (i : Instance Raw) (addr : String) :
    Outcome (_validators × _Client Raw) :=
  match initValidators parsed NewValidator with
  | none => .panicked
  | some validators => .returned (validators, { i := i, addr := addr })

/-- The names of the properties of a schema map. -/
def propertyNames : UclValue → List String
  | .Object kvs => kvs.map fun kv => kv.1.Value
  | _ => []

/-- The schema under the name `name` in a schema map, nil when there is none. -/
def property (props : UclValue) (name : String) : UclValue :=
  match props with
  | .Object kvs => Find kvs name
  | _ => .Nil

/-- The `type` a schema declares, if it declares one. -/
def declaredType (schema : UclValue) : Option String :=
  match property schema "type" with
  | .String s => some s
  | _ => none

/-- The schema type that goes with an element type: "integer" with `int64`, "string"
with `string`. -/
def ElemType.schemaType : ElemType → String
  | .int64 => "integer"
  | .string => "string"

/-- The fields of a typed struct agree with a schema map: the `json` names of the fields
are the names of the properties, every field is a pointer tagged `omitempty`, and the
element type of every field goes with the type its property declares. -/
def FieldsAgree (fields : List StructField) (props : UclValue) : Prop :=
  (∀ n, n ∈ fields.map (fun f => f.json) ↔ n ∈ propertyNames props) ∧
    ∀ f ∈ fields, f.pointer = true ∧ f.omitempty = true ∧
      declaredType (property props f.json) = some f.elem.schemaType

/-- The args of a signature agree with the descriptor `m` of the method: the fields of
the args struct agree with the `args` map, or there is neither. -/
def ArgsAgree (m : List (Key × UclValue)) : Option (List StructField) → Prop
  | some fields => FieldsAgree fields (Find m "args")
  | none => (Lookup m "args").2 = false

/-- The result of a signature agrees with the descriptor `m` of the method: the fields of
the result struct agree with the properties of the `result`, an object; or the result is
`[]int64` and the `result` is an array of integer; or there is neither. -/
def ResultAgrees (m : List (Key × UclValue)) : ResultDecl → Prop
  | .struct fields =>
    declaredType (Find m "result") = some "object" ∧
      FieldsAgree fields (property (Find m "result") "properties")
  | .int64Slice =>
    declaredType (Find m "result") = some "array" ∧
      declaredType (property (Find m "result") "items") = some "integer"
  | .absent => (Lookup m "result").2 = false

/-- The schemas of the nine validators, in the order in which `initValidators` builds
them. -/
def validatorSchemas (service : UclValue) : List (Option UclValue) :=
  [argsSchema service "Read", resultSchema service "Read",
   argsSchema service "ReadRegB", resultSchema service "ReadRegB",
   argsSchema service "ReadRegW", resultSchema service "ReadRegW",
   resultSchema service "Scan", argsSchema service "Write", argsSchema service "WriteRegB"]

/-- A stand-in for `schema.NewValidator`: a schema of type "array" gives the array
validator, a schema of another type the object validator, a schema without a type
fails. -/
def demoNewValidator (schema : UclValue) : Except Error Validator :=
  match declaredType schema with
  | some t => if t = "array" then .ok demoArrayValidator else .ok demoObjectValidator
  | none => .error (.external "schema declares no type")

/-! ## Each method is an instance of the shared shape -/

theorem client_Read_eq {Raw : Type} (D : Deps Raw) (V : _validators) (c : _Client Raw)
    (ctx : Context) (args : Option ReadArgs) :
    _Client.Read D V c ctx args =
      clientResult c ctx { Cmd := "I2C.Read", Args := D.DelayMarshaling (.Ptr .ReadArgs) args }
        (argsCheck D V.ReadArgs .ReadArgs (D.DelayMarshaling (.Ptr .ReadArgs) args)
          "Failed to parse just serialized JSON value %q: %+v"
          "Sending invalid args for Read: %+v" "invalid args for Read")
        (responseCheck D V.ReadResult .ReadResult "Got invalid result for Read: %+v"
          "invalid response for Read")
        (.Ptr .ReadResult) (fun m => D.UnmarshalInto m (.Ptr .ReadResult)) := by
  simp only [_Client.Read, clientResult, argsCheck, responseCheck]
  split
  · rfl
  · split
    · rfl
    · rfl
    · split
      · rfl
      · split
        · rfl
        · split <;> simp [*]

theorem client_ReadRegB_eq {Raw : Type} (D : Deps Raw) (V : _validators) (c : _Client Raw)
    (ctx : Context) (args : Option ReadRegBArgs) :
    _Client.ReadRegB D V c ctx args =
      clientResult c ctx { Cmd := "I2C.ReadRegB", Args := D.DelayMarshaling (.Ptr .ReadRegBArgs) args }
        (argsCheck D V.ReadRegBArgs .ReadRegBArgs (D.DelayMarshaling (.Ptr .ReadRegBArgs) args)
          "Failed to parse just serialized JSON value %q: %+v"
          "Sending invalid args for ReadRegB: %+v" "invalid args for ReadRegB")
        (responseCheck D V.ReadRegBResult .ReadRegBResult "Got invalid result for ReadRegB: %+v"
          "invalid response for ReadRegB")
        (.Ptr .ReadRegBResult) (fun m => D.UnmarshalInto m (.Ptr .ReadRegBResult)) := by
  simp only [_Client.ReadRegB, clientResult, argsCheck, responseCheck]
  split
  · rfl
  · split
    · rfl
    · rfl
    · split
      · rfl
      · split
        · rfl
        · split <;> simp [*]

theorem client_ReadRegW_eq {Raw : Type} (D : Deps Raw) (V : _validators) (c : _Client Raw)
    (ctx : Context) (args : Option ReadRegWArgs) :
    _Client.ReadRegW D V c ctx args =
      clientResult c ctx { Cmd := "I2C.ReadRegW", Args := D.DelayMarshaling (.Ptr .ReadRegWArgs) args }
        (argsCheck D V.ReadRegWArgs .ReadRegWArgs (D.DelayMarshaling (.Ptr .ReadRegWArgs) args)
          "Failed to parse just serialized JSON value %q: %+v"
          "Sending invalid args for ReadRegW: %+v" "invalid args for ReadRegW")
        (responseCheck D V.ReadRegWResult .ReadRegWResult "Got invalid result for ReadRegW: %+v"
          "invalid response for ReadRegW")
        (.Ptr .ReadRegWResult) (fun m => D.UnmarshalInto m (.Ptr .ReadRegWResult)) := by
  simp only [_Client.ReadRegW, clientResult, argsCheck, responseCheck]
  split
  · rfl
  · split
    · rfl
    · rfl
    · split
      · rfl
      · split
        · rfl
        · split <;> simp [*]

theorem client_Scan_eq {Raw : Type} [Inhabited Raw] (D : Deps Raw) (V : _validators)
    (c : _Client Raw) (ctx : Context) :
    _Client.Scan D V c ctx =
      clientResult c ctx { Cmd := "I2C.Scan", Args := default } ([], none)
        (responseCheck D V.ScanResult .ScanResult "Got invalid result for Scan: %+v"
          "invalid response for Scan")
        .Int64Slice (fun m => D.UnmarshalInto m .Int64Slice) := by
  simp only [_Client.Scan, clientResult, responseCheck]
  split
  · rfl
  · rfl
  · split
    · rfl
    · split
      · rfl
      · split <;> simp [*]

theorem client_Write_eq {Raw : Type} (D : Deps Raw) (V : _validators) (c : _Client Raw)
    (ctx : Context) (args : Option WriteArgs) :
    _Client.Write D V c ctx args =
      clientNoResult c ctx
        { Cmd := "I2C.Write", Args := D.DelayMarshaling (.Ptr .WriteArgs) args }
        (argsCheck D V.WriteArgs .WriteArgs (D.DelayMarshaling (.Ptr .WriteArgs) args)
          "Failed to parse just serialized JSON value %q: %+v"
          "Sending invalid args for Write: %+v" "invalid args for Write") := rfl

theorem client_WriteRegB_eq {Raw : Type} (D : Deps Raw) (V : _validators) (c : _Client Raw)
    (ctx : Context) (args : Option WriteRegBArgs) :
    _Client.WriteRegB D V c ctx args =
      clientNoResult c ctx
        { Cmd := "I2C.WriteRegB", Args := D.DelayMarshaling (.Ptr .WriteRegBArgs) args }
        (argsCheck D V.WriteRegBArgs .WriteRegBArgs (D.DelayMarshaling (.Ptr .WriteRegBArgs) args)
          "Failed to parse just serialized JSON value %q: %+v"
          "Sending invalid args for WriteRegB: %+v" "invalid args for WriteRegB") := rfl

theorem server_Read_eq {Raw : Type} (D : Deps Raw) (V : _validators) (s : _Server)
    (ctx : Context) (src : String) (cmd : Command Raw) :
    _Server.Read D V s ctx src cmd =
      serverResult
        (argsCheck D V.ReadArgs .ReadArgs cmd.Args "Failed to parse valid JSON value %q: %+v"
          "Got invalid args for Read: %+v" "invalid args for Read")
        (argsDecode D cmd.Args .ReadArgs { Addr := none, Len := none })
        (fun args => s.impl.Read ctx (some args))
        (fun args => .Impl "Read" ctx (some ⟨.Ptr .ReadArgs, some args⟩))
        (resultCheck D V.ReadResult .ReadResult "Returned invalid response for Read: %+v"
          "server generated invalid responce for Read" (.Ptr .ReadResult))
        (fun r => ⟨.Ptr .ReadResult, r⟩) := by
  simp only [_Server.Read, serverResult, argsCheck, argsDecode, resultCheck]
  split
  · rfl
  · split
    · simp [*]
    · simp only [*]
      split
      · simp [*]
      · simp only [*]

theorem server_ReadRegB_eq {Raw : Type} (D : Deps Raw) (V : _validators) (s : _Server)
    (ctx : Context) (src : String) (cmd : Command Raw) :
    _Server.ReadRegB D V s ctx src cmd =
      serverResult
        (argsCheck D V.ReadRegBArgs .ReadRegBArgs cmd.Args "Failed to parse valid JSON value %q: %+v"
          "Got invalid args for ReadRegB: %+v" "invalid args for ReadRegB")
        (argsDecode D cmd.Args .ReadRegBArgs { Addr := none, Reg := none })
        (fun args => s.impl.ReadRegB ctx (some args))
        (fun args => .Impl "ReadRegB" ctx (some ⟨.Ptr .ReadRegBArgs, some args⟩))
        (resultCheck D V.ReadRegBResult .ReadRegBResult "Returned invalid response for ReadRegB: %+v"
          "server generated invalid responce for ReadRegB" (.Ptr .ReadRegBResult))
        (fun r => ⟨.Ptr .ReadRegBResult, r⟩) := by
  simp only [_Server.ReadRegB, serverResult, argsCheck, argsDecode, resultCheck]
  split
  · rfl
  · split
    · simp [*]
    · simp only [*]
      split
      · simp [*]
      · simp only [*]

theorem server_ReadRegW_eq {Raw : Type} (D : Deps Raw) (V : _validators) (s : _Server)
    (ctx : Context) (src : String) (cmd : Command Raw) :
    _Server.ReadRegW D V s ctx src cmd =
      serverResult
        (argsCheck D V.ReadRegWArgs .ReadRegWArgs cmd.Args "Failed to parse valid JSON value %q: %+v"
          "Got invalid args for ReadRegW: %+v" "invalid args for ReadRegW")
        (argsDecode D cmd.Args .ReadRegWArgs { Addr := none, Reg := none })
        (fun args => s.impl.ReadRegW ctx (some args))
        (fun args => .Impl "ReadRegW" ctx (some ⟨.Ptr .ReadRegWArgs, some args⟩))
        (resultCheck D V.ReadRegWResult .ReadRegWResult "Returned invalid response for ReadRegW: %+v"
          "server generated invalid responce for ReadRegW" (.Ptr .ReadRegWResult))
        (fun r => ⟨.Ptr .ReadRegWResult, r⟩) := by
  simp only [_Server.ReadRegW, serverResult, argsCheck, argsDecode, resultCheck]
  split
  · rfl
  · split
    · simp [*]
    · simp only [*]
      split
      · simp [*]
      · simp only [*]

theorem server_Scan_eq {Raw : Type} (D : Deps Raw) (V : _validators) (s : _Server)
    (ctx : Context) (src : String) (cmd : Command Raw) :
    _Server.Scan D V s ctx src cmd =
      serverResult ([], none) ([], .ok ()) (fun _ => s.impl.Scan ctx)
        (fun _ => .Impl "Scan" ctx none)
        (resultCheck D V.ScanResult .ScanResult "Returned invalid response for Scan: %+v"
          "server generated invalid responce for Scan" .Int64Slice)
        (fun r => ⟨.Int64Slice, r⟩) := by
  simp only [_Server.Scan, serverResult, resultCheck]
  split
  · simp [*]
  · simp only [*]
    split <;> simp [*]

theorem server_Write_eq {Raw : Type} (D : Deps Raw) (V : _validators) (s : _Server)
    (ctx : Context) (src : String) (cmd : Command Raw) :
    _Server.Write D V s ctx src cmd =
      serverNoResult
        (argsCheck D V.WriteArgs .WriteArgs cmd.Args "Failed to parse valid JSON value %q: %+v"
          "Got invalid args for Write: %+v" "invalid args for Write")
        (argsDecode D cmd.Args .WriteArgs { Addr := none, Data_hex := none })
        (fun args => s.impl.Write ctx (some args))
        (fun args => .Impl "Write" ctx (some ⟨.Ptr .WriteArgs, some args⟩)) := by
  simp only [_Server.Write, serverNoResult, argsCheck, argsDecode]
  split
  · rfl
  · split <;> simp [*]

theorem server_WriteRegB_eq {Raw : Type} (D : Deps Raw) (V : _validators) (s : _Server)
    (ctx : Context) (src : String) (cmd : Command Raw) :
    _Server.WriteRegB D V s ctx src cmd =
      serverNoResult
        (argsCheck D V.WriteRegBArgs .WriteRegBArgs cmd.Args "Failed to parse valid JSON value %q: %+v"
          "Got invalid args for WriteRegB: %+v" "invalid args for WriteRegB")
        (argsDecode D cmd.Args .WriteRegBArgs { Addr := none, Reg := none, Value := none })
        (fun args => s.impl.WriteRegB ctx (some args))
        (fun args => .Impl "WriteRegB" ctx (some ⟨.Ptr .WriteRegBArgs, some args⟩)) := by
  simp only [_Server.WriteRegB, serverNoResult, argsCheck, argsDecode]
  split
  · rfl
  · split <;> simp [*]

/-! ## Facts about the shared blocks -/

theorem argsCheck_snd_eq_some {Raw : Type} (D : Deps Raw) (val : Validator)
    (which : ValidatorName) (m : Raw) (parseFmt warnFmt msg : String) (err : Error) :
    (argsCheck D val which m parseFmt warnFmt msg).2 = some err ↔
      ∃ e, Rejects D val m e ∧ err = .Annotatef e msg := by
  unfold argsCheck
  rcases h1 : D.MarshalJSON m with e1 | b
  · simp [Rejects, h1]
  · rcases h2 : D.Parse b with e2 | v
    · simp [Rejects, h1, h2]
    · rcases h3 : val.Validate v with _ | e3
      · simp [Rejects, h1, h2, h3]
      · simp only [Rejects, h1, h2, h3, Option.some.injEq, Except.ok.injEq]
        constructor
        · rintro rfl
          exact ⟨e3, ⟨b, v, rfl, h2, h3⟩, rfl⟩
        · rintro ⟨e, ⟨b2, v2, hb, hv, he⟩, rfl⟩
          subst hb
          rw [h2] at hv
          cases hv
          rw [h3] at he
          cases he
          rfl

theorem argsCheck_of_rejects {Raw : Type} (D : Deps Raw) (val : Validator)
    (which : ValidatorName) (m : Raw) (parseFmt warnFmt msg : String) (e : Error)
    (h : Rejects D val m e) :
    (argsCheck D val which m parseFmt warnFmt msg).2 = some (.Annotatef e msg) :=
  (argsCheck_snd_eq_some D val which m parseFmt warnFmt msg _).2 ⟨e, h, rfl⟩

theorem argsCheck_snd_eq_none {Raw : Type} (D : Deps Raw) (val : Validator)
    (which : ValidatorName) (m : Raw) (parseFmt warnFmt msg : String) :
    (argsCheck D val which m parseFmt warnFmt msg).2 = none ↔ ¬ ∃ e, Rejects D val m e := by
  rw [← Option.not_isSome_iff_eq_none, Option.isSome_iff_exists]
  constructor
  · rintro h ⟨e, he⟩
    exact h ⟨_, argsCheck_of_rejects D val which m parseFmt warnFmt msg e he⟩
  · rintro h ⟨err, herr⟩
    obtain ⟨e, he, -⟩ := (argsCheck_snd_eq_some D val which m parseFmt warnFmt msg err).1 herr
    exact h ⟨e, he⟩

theorem argsCheck_trace {Raw : Type} (D : Deps Raw) (val : Validator)
    (which : ValidatorName) (m : Raw) (parseFmt warnFmt msg : String) :
    ∀ ev ∈ (argsCheck D val which m parseFmt warnFmt msg).1,
      ev.isCall = false ∧ ev.isUnmarshalInto = false ∧ ev.isImpl = false := by
  unfold argsCheck
  rcases h1 : D.MarshalJSON m with e1 | b
  · simp [Event.isCall, Event.isUnmarshalInto, Event.isImpl]
  · rcases h2 : D.Parse b with e2 | v
    · simp [h2, Event.isCall, Event.isUnmarshalInto, Event.isImpl]
    · rcases h3 : val.Validate v with _ | e3 <;>
        simp [h2, h3, Event.isCall, Event.isUnmarshalInto, Event.isImpl]

theorem argsCheck_of_encodingFails {Raw : Type} (D : Deps Raw) (val : Validator)
    (which : ValidatorName) (m : Raw) (parseFmt warnFmt msg : String)
    (h : EncodingFails D m) :
    (argsCheck D val which m parseFmt warnFmt msg).2 = none ∧
      ∀ ev ∈ (argsCheck D val which m parseFmt warnFmt msg).1, ev.isValidate = false := by
  unfold argsCheck
  rcases h with ⟨e, h1⟩ | ⟨b, e, h1, h2⟩
  · simp [h1, Event.isValidate]
  · simp [h1, h2, Event.isValidate]

theorem clientResult_of_pre_some {Raw ρ : Type} (c : _Client Raw) (ctx : Context)
    (cmd : Command Raw) (pre : List (Event Raw) × Option Error)
    (check : Raw → List (Event Raw) × Option Error) (t : GoType)
    (decode : Raw → Except Error (Option ρ)) (err : Error) (h : pre.2 = some err) :
    clientResult c ctx cmd pre check t decode = ⟨pre.1, .returned (none, some err)⟩ := by
  simp [clientResult, h]

theorem clientNoResult_of_pre_some {Raw : Type} (c : _Client Raw) (ctx : Context)
    (cmd : Command Raw) (pre : List (Event Raw) × Option Error) (err : Error)
    (h : pre.2 = some err) :
    clientNoResult c ctx cmd pre = ⟨pre.1, .returned (some err)⟩ := by
  simp [clientNoResult, h]

theorem responseCheck_snd_eq_some {Raw : Type} (D : Deps Raw) (val : Validator)
    (which : ValidatorName) (warnFmt msg : String) (m : Raw) (err : Error) :
    (responseCheck D val which warnFmt msg m).2 = some err ↔
      ∃ e, Rejects D val m e ∧ err = .Annotatef e msg := by
  unfold responseCheck
  rcases h1 : D.MarshalJSON m with e1 | b
  · simp [Rejects, h1]
  · rcases h2 : D.Parse b with e2 | v
    · simp [Rejects, h1, h2]
    · rcases h3 : val.Validate v with _ | e3
      · simp [Rejects, h1, h2, h3]
      · simp only [Rejects, h1, h2, h3, Option.some.injEq, Except.ok.injEq]
        constructor
        · rintro rfl
          exact ⟨e3, ⟨b, v, rfl, h2, h3⟩, rfl⟩
        · rintro ⟨e, ⟨b2, v2, hb, hv, he⟩, rfl⟩
          subst hb
          rw [h2] at hv
          cases hv
          rw [h3] at he
          cases he
          rfl

theorem responseCheck_snd_eq_none {Raw : Type} (D : Deps Raw) (val : Validator)
    (which : ValidatorName) (warnFmt msg : String) (m : Raw) :
    (responseCheck D val which warnFmt msg m).2 = none ↔ ¬ ∃ e, Rejects D val m e := by
  rw [← Option.not_isSome_iff_eq_none, Option.isSome_iff_exists]
  constructor
  · rintro h ⟨e, he⟩
    exact h ⟨_, (responseCheck_snd_eq_some D val which warnFmt msg m _).2 ⟨e, he, rfl⟩⟩
  · rintro h ⟨err, herr⟩
    obtain ⟨e, he, -⟩ := (responseCheck_snd_eq_some D val which warnFmt msg m err).1 herr
    exact h ⟨e, he⟩

theorem responseCheck_trace {Raw : Type} (D : Deps Raw) (val : Validator)
    (which : ValidatorName) (warnFmt msg : String) (m : Raw) :
    ∀ ev ∈ (responseCheck D val which warnFmt msg m).1,
      ev.isCall = false ∧ ev.isUnmarshalInto = false ∧ ev.isImpl = false := by
  unfold responseCheck
  rcases h1 : D.MarshalJSON m with e1 | b
  · simp [Event.isCall, Event.isUnmarshalInto, Event.isImpl]
  · rcases h2 : D.Parse b with e2 | v
    · simp [h2, Event.isCall, Event.isUnmarshalInto, Event.isImpl]
    · rcases h3 : val.Validate v with _ | e3 <;>
        simp [h2, h3, Event.isCall, Event.isUnmarshalInto, Event.isImpl]

theorem resultCheck_snd_eq_some {Raw : Type} (D : Deps Raw) (val : Validator)
    (which : ValidatorName) (warnFmt msg : String) (t : GoType) (r : t.denote) (err : Error) :
    (resultCheck D val which warnFmt msg t r : List (Event Raw) × Option Error).2 = some err ↔
      ∃ e, RejectsResult D val t r e ∧ err = .Annotatef e msg := by
  unfold resultCheck
  rcases h1 : D.Marshal t r with e1 | b
  · simp [RejectsResult, h1]
  · rcases h2 : D.Parse b with e2 | v
    · simp [RejectsResult, h1, h2]
    · rcases h3 : val.Validate v with _ | e3
      · simp [RejectsResult, h1, h2, h3]
      · simp only [RejectsResult, h1, h2, h3, Option.some.injEq, Except.ok.injEq]
        constructor
        · rintro rfl
          exact ⟨e3, ⟨b, v, rfl, h2, h3⟩, rfl⟩
        · rintro ⟨e, ⟨b2, v2, hb, hv, he⟩, rfl⟩
          subst hb
          rw [h2] at hv
          cases hv
          rw [h3] at he
          cases he
          rfl

theorem resultCheck_snd_eq_none {Raw : Type} (D : Deps Raw) (val : Validator)
    (which : ValidatorName) (warnFmt msg : String) (t : GoType) (r : t.denote) :
    (resultCheck D val which warnFmt msg t r : List (Event Raw) × Option Error).2 = none ↔
      ¬ ∃ e, RejectsResult D val t r e := by
  rw [← Option.not_isSome_iff_eq_none, Option.isSome_iff_exists]
  constructor
  · rintro h ⟨e, he⟩
    exact h ⟨_, (resultCheck_snd_eq_some D val which warnFmt msg t r _).2 ⟨e, he, rfl⟩⟩
  · rintro h ⟨err, herr⟩
    obtain ⟨e, he, -⟩ := (resultCheck_snd_eq_some D val which warnFmt msg t r err).1 herr
    exact h ⟨e, he⟩

theorem resultCheck_trace {Raw : Type} (D : Deps Raw) (val : Validator)
    (which : ValidatorName) (warnFmt msg : String) (t : GoType) (r : t.denote) :
    ∀ ev ∈ (resultCheck D val which warnFmt msg t r : List (Event Raw) × Option Error).1,
      ev.isCall = false ∧ ev.isUnmarshalInto = false ∧ ev.isImpl = false ∧
        ev.isMarshalJSON = false := by
  unfold resultCheck
  rcases h1 : D.Marshal t r with e1 | b
  · simp [Event.isCall, Event.isUnmarshalInto, Event.isImpl, Event.isMarshalJSON]
  · rcases h2 : D.Parse b with e2 | v
    · simp [h2, Event.isCall, Event.isUnmarshalInto, Event.isImpl, Event.isMarshalJSON]
    · rcases h3 : val.Validate v with _ | e3 <;>
        simp [h2, h3, Event.isCall, Event.isUnmarshalInto, Event.isImpl, Event.isMarshalJSON]

theorem argsDecode_trace {Raw : Type} (D : Deps Raw) (m : Raw) (t : GoType) (zero : t.denote) :
    ∀ ev ∈ (argsDecode D m t zero).1, ev.isImpl = false := by
  unfold argsDecode
  split <;> simp [Event.isImpl]

theorem serverResult_of_pre_some {Raw α ρ : Type} (pre : List (Event Raw) × Option Error)
    (dec : List (Event Raw) × Except Error α) (impl : α → ρ × Option Error)
    (implEvent : α → Event Raw) (check : ρ → List (Event Raw) × Option Error)
    (box : ρ → Iface) (err : Error) (h : pre.2 = some err) :
    serverResult pre dec impl implEvent check box = ⟨pre.1, .returned (none, some err)⟩ := by
  simp [serverResult, h]

theorem serverNoResult_of_pre_some {Raw α : Type} (pre : List (Event Raw) × Option Error)
    (dec : List (Event Raw) × Except Error α) (impl : α → Option Error)
    (implEvent : α → Event Raw) (err : Error) (h : pre.2 = some err) :
    serverNoResult pre dec impl implEvent = ⟨pre.1, .returned (none, some err)⟩ := by
  simp [serverNoResult, h]

theorem clientResult_of_status {Raw ρ : Type} (c : _Client Raw) (ctx : Context)
    (cmd : Command Raw) (pre : List (Event Raw) × Option Error)
    (check : Raw → List (Event Raw) × Option Error) (t : GoType)
    (decode : Raw → Except Error (Option ρ)) (resp : Response Raw) (hp : pre.2 = none)
    (hc : c.i.Call ctx c.addr cmd = (some resp, none)) (hs : resp.Status ≠ 0) :
    clientResult c ctx cmd pre check t decode =
      ⟨pre.1 ++ [.Call ctx c.addr cmd],
       .returned (none, some (.Trace (.ErrorResponse resp.Status resp.StatusMsg)))⟩ := by
  simp [clientResult, hp, hc, hs]

theorem clientNoResult_of_status {Raw : Type} (c : _Client Raw) (ctx : Context)
    (cmd : Command Raw) (pre : List (Event Raw) × Option Error) (resp : Response Raw)
    (hp : pre.2 = none) (hc : c.i.Call ctx c.addr cmd = (some resp, none))
    (hs : resp.Status ≠ 0) :
    clientNoResult c ctx cmd pre =
      ⟨pre.1 ++ [.Call ctx c.addr cmd],
       .returned (some (.Trace (.ErrorResponse resp.Status resp.StatusMsg)))⟩ := by
  simp [clientNoResult, hp, hc, hs]

theorem clientResult_of_response_rejected {Raw ρ : Type} (c : _Client Raw) (ctx : Context)
    (cmd : Command Raw) (pre : List (Event Raw) × Option Error)
    (check : Raw → List (Event Raw) × Option Error) (t : GoType)
    (decode : Raw → Except Error (Option ρ)) (resp : Response Raw) (err : Error)
    (hp : pre.2 = none) (hc : c.i.Call ctx c.addr cmd = (some resp, none))
    (hs : resp.Status = 0) (hr : (check resp.Response).2 = some err) :
    clientResult c ctx cmd pre check t decode =
      ⟨pre.1 ++ [.Call ctx c.addr cmd] ++ (check resp.Response).1,
       .returned (none, some err)⟩ := by
  simp [clientResult, hp, hc, hs, hr]

theorem argsCheck_validate {Raw : Type} (D : Deps Raw) (val : Validator)
    (which : ValidatorName) (m : Raw) (parseFmt warnFmt msg : String) (w : ValidatorName)
    (v : UclValue) (h : Event.Validate w v ∈ (argsCheck D val which m parseFmt warnFmt msg).1) :
    w = which := by
  unfold argsCheck at h
  rcases h1 : D.MarshalJSON m with e1 | b
  · simp [h1] at h
  · rcases h2 : D.Parse b with e2 | v2
    · simp [h1, h2] at h
    · rcases h3 : val.Validate v2 with _ | e3 <;> simp [h1, h2, h3] at h <;> exact h.1

theorem clientResult_remote_error {Raw ρ : Type} (D : Deps Raw) (val : Validator)
    (which : ValidatorName) (m : Raw) (parseFmt warnFmt msg : String) (c : _Client Raw)
    (ctx : Context) (cmd : Command Raw) (check : Raw → List (Event Raw) × Option Error)
    (t : GoType) (decode : Raw → Except Error (Option ρ)) (resp : Response Raw)
    (other : ValidatorName) (hne : other ≠ which) (hn : ¬ ∃ e, Rejects D val m e)
    (hc : c.i.Call ctx c.addr cmd = (some resp, none)) (hs : resp.Status ≠ 0) :
    (clientResult c ctx cmd (argsCheck D val which m parseFmt warnFmt msg)
        check t decode).out =
        .returned (none, some (.Trace (.ErrorResponse resp.Status resp.StatusMsg))) ∧
      Event.Call ctx c.addr cmd ∈ (clientResult c ctx cmd
        (argsCheck D val which m parseFmt warnFmt msg) check t decode).trace ∧
      (clientResult c ctx cmd (argsCheck D val which m parseFmt warnFmt msg)
        check t decode).trace.getLast? = some (.Call ctx c.addr cmd) ∧
      (∀ ev ∈ (clientResult c ctx cmd (argsCheck D val which m parseFmt warnFmt msg)
        check t decode).trace, ev.isUnmarshalInto = false) ∧
      ∀ v, Event.Validate other v ∉ (clientResult c ctx cmd
        (argsCheck D val which m parseFmt warnFmt msg) check t decode).trace := by
  have hp := (argsCheck_snd_eq_none D val which m parseFmt warnFmt msg).2 hn
  rw [clientResult_of_status c ctx cmd _ check t decode resp hp hc hs]
  refine ⟨rfl, by simp, by simp, ?_, ?_⟩
  · intro ev hev
    rcases List.mem_append.1 hev with hev | hev
    · exact (argsCheck_trace D val which m parseFmt warnFmt msg ev hev).2.1
    · rw [List.mem_singleton.1 hev]
      rfl
  · intro v hv
    rcases List.mem_append.1 hv with hv | hv
    · exact hne (argsCheck_validate D val which m parseFmt warnFmt msg other v hv)
    · cases List.mem_singleton.1 hv

theorem clientNoResult_remote_error {Raw : Type} (D : Deps Raw) (val : Validator)
    (which : ValidatorName) (m : Raw) (parseFmt warnFmt msg : String) (c : _Client Raw)
    (ctx : Context) (cmd : Command Raw) (resp : Response Raw)
    (hn : ¬ ∃ e, Rejects D val m e)
    (hc : c.i.Call ctx c.addr cmd = (some resp, none)) (hs : resp.Status ≠ 0) :
    (clientNoResult c ctx cmd (argsCheck D val which m parseFmt warnFmt msg)).out =
        .returned (some (.Trace (.ErrorResponse resp.Status resp.StatusMsg))) ∧
      Event.Call ctx c.addr cmd ∈
        (clientNoResult c ctx cmd (argsCheck D val which m parseFmt warnFmt msg)).trace ∧
      (clientNoResult c ctx cmd (argsCheck D val which m parseFmt warnFmt msg)).trace.getLast? =
        some (.Call ctx c.addr cmd) ∧
      (∀ ev ∈ (clientNoResult c ctx cmd (argsCheck D val which m parseFmt warnFmt msg)).trace,
        ev.isUnmarshalInto = false) ∧
      ∀ w v, Event.Validate w v ∈ (clientNoResult c ctx cmd
        (argsCheck D val which m parseFmt warnFmt msg)).trace → w = which := by
  have hp := (argsCheck_snd_eq_none D val which m parseFmt warnFmt msg).2 hn
  rw [clientNoResult_of_status c ctx cmd _ resp hp hc hs]
  refine ⟨rfl, by simp, by simp, ?_, ?_⟩
  · intro ev hev
    rcases List.mem_append.1 hev with hev | hev
    · exact (argsCheck_trace D val which m parseFmt warnFmt msg ev hev).2.1
    · rw [List.mem_singleton.1 hev]
      rfl
  · intro w v hv
    rcases List.mem_append.1 hv with hv | hv
    · exact argsCheck_validate D val which m parseFmt warnFmt msg w v hv
    · cases List.mem_singleton.1 hv

theorem clientResult_invalid_response {Raw ρ : Type} (D : Deps Raw) (val : Validator)
    (which : ValidatorName) (m : Raw) (parseFmt warnFmt msg : String) (c : _Client Raw)
    (ctx : Context) (cmd : Command Raw) (rval : Validator) (rwhich : ValidatorName)
    (rwarnFmt rmsg : String) (t : GoType) (decode : Raw → Except Error (Option ρ))
    (resp : Response Raw) (e : Error) (hn : ¬ ∃ e2, Rejects D val m e2)
    (hc : c.i.Call ctx c.addr cmd = (some resp, none)) (hs : resp.Status = 0)
    (hr : Rejects D rval resp.Response e) :
    (clientResult c ctx cmd (argsCheck D val which m parseFmt warnFmt msg)
        (responseCheck D rval rwhich rwarnFmt rmsg) t decode).out =
        .returned (none, some (.Annotatef e rmsg)) ∧
      Event.Call ctx c.addr cmd ∈ (clientResult c ctx cmd
        (argsCheck D val which m parseFmt warnFmt msg)
        (responseCheck D rval rwhich rwarnFmt rmsg) t decode).trace ∧
      ∀ ev ∈ (clientResult c ctx cmd (argsCheck D val which m parseFmt warnFmt msg)
        (responseCheck D rval rwhich rwarnFmt rmsg) t decode).trace,
        ev.isUnmarshalInto = false := by
  have hp := (argsCheck_snd_eq_none D val which m parseFmt warnFmt msg).2 hn
  rw [clientResult_of_response_rejected c ctx cmd _ _ t decode resp _ hp hc hs
    ((responseCheck_snd_eq_some D rval rwhich rwarnFmt rmsg resp.Response _).2 ⟨e, hr, rfl⟩)]
  refine ⟨rfl, by simp, ?_⟩
  intro ev hev
  rcases List.mem_append.1 hev with hev | hev
  · rcases List.mem_append.1 hev with hev | hev
    · exact (argsCheck_trace D val which m parseFmt warnFmt msg ev hev).2.1
    · rw [List.mem_singleton.1 hev]
      rfl
  · exact (responseCheck_trace D rval rwhich rwarnFmt rmsg resp.Response ev hev).2.1

theorem argsDecode_of_decodesTo {Raw : Type} (D : Deps Raw) (m : Raw) (t : GoType)
    (zero args : t.denote) (h : DecodesTo D m t zero args) :
    (argsDecode D m t zero).2 = .ok args := by
  unfold argsDecode
  rcases h with ⟨h0, rfl⟩ | ⟨hpos, hd⟩
  · have : ¬ D.len m > 0 := by omega
    simp [this]
  · simp [hpos, hd]

theorem serverResult_impl_mem {Raw α ρ : Type}
    (pre : List (Event Raw) × Option Error) (dec : List (Event Raw) × Except Error α)
    (impl : α → ρ × Option Error) (implEvent : α → Event Raw)
    (check : ρ → List (Event Raw) × Option Error) (box : ρ → Iface) (a : α)
    (hp : pre.2 = none) (hd : dec.2 = .ok a) :
    implEvent a ∈ (serverResult pre dec impl implEvent check box).trace := by
  unfold serverResult
  rcases hi : impl a with ⟨r, _ | ierr⟩
  · rcases hr : (check r).2 with _ | rerr <;> simp [hp, hd, hi, hr]
  · simp [hp, hd, hi]

theorem serverResult_of_result_rejected {Raw α ρ : Type}
    (pre : List (Event Raw) × Option Error) (dec : List (Event Raw) × Except Error α)
    (impl : α → ρ × Option Error) (implEvent : α → Event Raw)
    (check : ρ → List (Event Raw) × Option Error) (box : ρ → Iface) (a : α) (r : ρ)
    (err : Error) (hp : pre.2 = none) (hd : dec.2 = .ok a) (hi : impl a = (r, none))
    (hr : (check r).2 = some err) :
    (serverResult pre dec impl implEvent check box).out = .returned (none, some err) := by
  simp [serverResult, hp, hd, hi, hr]

theorem clientNoResult_out_eq_none_iff {Raw : Type} (c : _Client Raw) (ctx : Context)
    (cmd : Command Raw) (pre : List (Event Raw) × Option Error) :
    (clientNoResult c ctx cmd pre).out = .returned none ↔
      pre.2 = none ∧ ∃ resp, c.i.Call ctx c.addr cmd = (some resp, none) ∧ resp.Status = 0 := by
  unfold clientNoResult
  rcases hp : pre.2 with _ | err
  · rcases hc : c.i.Call ctx c.addr cmd with ⟨_ | resp, _ | cerr⟩
    · simp
    · simp
    · by_cases hs : resp.Status = 0 <;> simp [hs]
    · simp
  · simp

theorem clientNoResult_payload {Raw : Type} (c c2 : _Client Raw) (ctx : Context)
    (cmd : Command Raw) (pre : List (Event Raw) × Option Error) (ha : c2.addr = c.addr)
    (h : SameUpToPayload (c2.i.Call ctx c.addr cmd) (c.i.Call ctx c.addr cmd)) :
    clientNoResult c2 ctx cmd pre = clientNoResult c ctx cmd pre := by
  unfold clientNoResult SameUpToPayload at *
  rw [ha]
  rcases hp : pre.2 with _ | err
  · rcases hc : c.i.Call ctx c.addr cmd with ⟨_ | resp, _ | cerr⟩ <;>
      rcases hc2 : c2.i.Call ctx c.addr cmd with ⟨_ | resp2, _ | cerr2⟩ <;>
      simp_all
  · simp

theorem clientNoResult_trace_mem {Raw : Type} (c : _Client Raw) (ctx : Context)
    (cmd : Command Raw) (pre : List (Event Raw) × Option Error) (ev : Event Raw)
    (h : ev ∈ (clientNoResult c ctx cmd pre).trace) :
    ev ∈ pre.1 ∨ ev = .Call ctx c.addr cmd := by
  unfold clientNoResult at h
  rcases hp : pre.2 with _ | err
  · rcases hc : c.i.Call ctx c.addr cmd with ⟨_ | resp, _ | cerr⟩
    · simpa [hp, hc] using h
    · simpa [hp, hc] using h
    · by_cases hs : resp.Status = 0 <;> simpa [hp, hc, hs] using h
    · simpa [hp, hc] using h
  · left
    simpa [hp] using h

theorem clientNoResult_call_mem {Raw : Type} (c : _Client Raw) (ctx : Context)
    (cmd : Command Raw) (pre : List (Event Raw) × Option Error) (hp : pre.2 = none) :
    Event.Call ctx c.addr cmd ∈ (clientNoResult c ctx cmd pre).trace := by
  unfold clientNoResult
  rcases hc : c.i.Call ctx c.addr cmd with ⟨_ | resp, _ | cerr⟩
  · simp [hp]
  · simp [hp]
  · by_cases hs : resp.Status = 0 <;> simp [hp, hs]
  · simp [hp]

theorem clientNoResult_out_congr {Raw : Type} (c c2 : _Client Raw) (ctx ctx2 : Context)
    (cmd cmd2 : Command Raw) (pre pre2 : List (Event Raw) × Option Error)
    (hp : pre.2 = none) (hp2 : pre2.2 = none)
    (hc : c2.i.Call ctx2 c2.addr cmd2 = c.i.Call ctx c.addr cmd) :
    (clientNoResult c2 ctx2 cmd2 pre2).out = (clientNoResult c ctx cmd pre).out := by
  unfold clientNoResult
  rw [hc]
  rcases hcall : c.i.Call ctx c.addr cmd with ⟨_ | resp, _ | cerr⟩
  · simp [hp, hp2]
  · simp [hp, hp2]
  · by_cases hs : resp.Status = 0 <;> simp [hp, hp2, hs]
  · simp [hp, hp2]

theorem argsCheck_marshal {Raw : Type} (D : Deps Raw) (val : Validator)
    (which : ValidatorName) (m : Raw) (parseFmt warnFmt msg : String) (m2 : Raw)
    (h : Event.MarshalJSON m2 ∈ (argsCheck D val which m parseFmt warnFmt msg).1) :
    m2 = m := by
  unfold argsCheck at h
  rcases h1 : D.MarshalJSON m with e1 | b
  · simpa [h1] using h
  · rcases h2 : D.Parse b with e2 | v2
    · simpa [h1, h2] using h
    · rcases h3 : val.Validate v2 with _ | e3 <;> simpa [h1, h2, h3] using h

theorem clientNoResult_success {Raw : Type} (D : Deps Raw) (val : Validator)
    (which : ValidatorName) (m : Raw) (parseFmt warnFmt msg : String) (c : _Client Raw)
    (ctx : Context) (cmd : Command Raw) :
    ((clientNoResult c ctx cmd (argsCheck D val which m parseFmt warnFmt msg)).out =
        .returned none ↔
      (¬ ∃ e, Rejects D val m e) ∧
        ∃ resp, c.i.Call ctx c.addr cmd = (some resp, none) ∧ resp.Status = 0) ∧
    (∀ c2 : _Client Raw, c2.addr = c.addr →
      SameUpToPayload (c2.i.Call ctx c.addr cmd) (c.i.Call ctx c.addr cmd) →
      clientNoResult c2 ctx cmd (argsCheck D val which m parseFmt warnFmt msg) =
        clientNoResult c ctx cmd (argsCheck D val which m parseFmt warnFmt msg)) ∧
    (∀ ev ∈ (clientNoResult c ctx cmd (argsCheck D val which m parseFmt warnFmt msg)).trace,
      ev.isUnmarshalInto = false) ∧
    (∀ w v, Event.Validate w v ∈
      (clientNoResult c ctx cmd (argsCheck D val which m parseFmt warnFmt msg)).trace →
      w = which) ∧
    ∀ m2, Event.MarshalJSON m2 ∈
      (clientNoResult c ctx cmd (argsCheck D val which m parseFmt warnFmt msg)).trace →
      m2 = m := by
  refine ⟨?_, ?_, ?_, ?_, ?_⟩
  · rw [clientNoResult_out_eq_none_iff, argsCheck_snd_eq_none]
  · intro c2 ha h
    exact clientNoResult_payload c c2 ctx cmd _ ha h
  · intro ev hev
    rcases clientNoResult_trace_mem c ctx cmd _ ev hev with h | h
    · exact (argsCheck_trace D val which m parseFmt warnFmt msg ev h).2.1
    · rw [h]
      rfl
  · intro w v hv
    rcases clientNoResult_trace_mem c ctx cmd _ _ hv with h | h
    · exact argsCheck_validate D val which m parseFmt warnFmt msg w v h
    · cases h
  · intro m2 hm
    rcases clientNoResult_trace_mem c ctx cmd _ _ hm with h | h
    · exact argsCheck_marshal D val which m parseFmt warnFmt msg m2 h
    · cases h

theorem responseCheck_validate {Raw : Type} (D : Deps Raw) (val : Validator)
    (which : ValidatorName) (warnFmt msg : String) (m : Raw) (w : ValidatorName)
    (v : UclValue) (h : Event.Validate w v ∈ (responseCheck D val which warnFmt msg m).1) :
    w = which := by
  unfold responseCheck at h
  rcases h1 : D.MarshalJSON m with e1 | b
  · simp [h1] at h
  · rcases h2 : D.Parse b with e2 | v2
    · simp [h1, h2] at h
    · rcases h3 : val.Validate v2 with _ | e3 <;> simp [h1, h2, h3] at h <;> exact h.1

theorem clientResult_trace_mem {Raw ρ : Type} (c : _Client Raw) (ctx : Context)
    (cmd : Command Raw) (pre : List (Event Raw) × Option Error)
    (check : Raw → List (Event Raw) × Option Error) (t : GoType)
    (decode : Raw → Except Error (Option ρ)) (ev : Event Raw)
    (h : ev ∈ (clientResult c ctx cmd pre check t decode).trace) :
    ev ∈ pre.1 ∨ ev = .Call ctx c.addr cmd ∨ (∃ m, ev ∈ (check m).1) ∨
      ∃ m, ev = .UnmarshalInto m t := by
  unfold clientResult at h
  rcases hp : pre.2 with _ | err
  · rcases hc : c.i.Call ctx c.addr cmd with ⟨_ | resp, _ | cerr⟩
    · simp only [hp, hc, List.mem_append, List.mem_singleton] at h
      tauto
    · simp only [hp, hc, List.mem_append, List.mem_singleton] at h
      tauto
    · by_cases hs : resp.Status = 0
      · rcases hr : (check resp.Response).2 with _ | rerr
        · rcases hd : decode resp.Response with derr | r
          · simp only [hp, hc, hs, hr, hd, ne_eq, not_true_eq_false, if_false,
              List.mem_append, List.mem_singleton] at h
            rcases h with ((h | h) | h) | h
            · exact Or.inl h
            · exact Or.inr (Or.inl h)
            · exact Or.inr (Or.inr (Or.inl ⟨_, h⟩))
            · exact Or.inr (Or.inr (Or.inr ⟨_, h⟩))
          · simp only [hp, hc, hs, hr, hd, ne_eq, not_true_eq_false, if_false,
              List.mem_append, List.mem_singleton] at h
            rcases h with ((h | h) | h) | h
            · exact Or.inl h
            · exact Or.inr (Or.inl h)
            · exact Or.inr (Or.inr (Or.inl ⟨_, h⟩))
            · exact Or.inr (Or.inr (Or.inr ⟨_, h⟩))
        · simp only [hp, hc, hs, hr, ne_eq, not_true_eq_false, if_false,
            List.mem_append, List.mem_singleton] at h
          rcases h with (h | h) | h
          · exact Or.inl h
          · exact Or.inr (Or.inl h)
          · exact Or.inr (Or.inr (Or.inl ⟨_, h⟩))
      · simp only [hp, hc, hs, ne_eq, not_false_eq_true, if_true,
          List.mem_append, List.mem_singleton] at h
        tauto
    · simp only [hp, hc, List.mem_append, List.mem_singleton] at h
      tauto
  · simp only [hp] at h
    exact Or.inl h

theorem clientResult_call_mem {Raw ρ : Type} (c : _Client Raw) (ctx : Context)
    (cmd : Command Raw) (pre : List (Event Raw) × Option Error)
    (check : Raw → List (Event Raw) × Option Error) (t : GoType)
    (decode : Raw → Except Error (Option ρ)) (hp : pre.2 = none) :
    Event.Call ctx c.addr cmd ∈ (clientResult c ctx cmd pre check t decode).trace := by
  unfold clientResult
  rcases hc : c.i.Call ctx c.addr cmd with ⟨_ | resp, _ | cerr⟩
  · simp [hp]
  · simp [hp]
  · by_cases hs : resp.Status = 0
    · rcases hr : (check resp.Response).2 with _ | rerr
      · rcases hd : decode resp.Response with derr | r <;> simp [hp, hs, hr, hd]
      · simp [hp, hs, hr]
    · simp [hp, hs]
  · simp [hp]

theorem clientResult_out_congr {Raw ρ : Type} (c c2 : _Client Raw) (ctx ctx2 : Context)
    (cmd cmd2 : Command Raw) (pre pre2 : List (Event Raw) × Option Error)
    (check : Raw → List (Event Raw) × Option Error) (t : GoType)
    (decode : Raw → Except Error (Option ρ)) (hp : pre.2 = none) (hp2 : pre2.2 = none)
    (hc : c2.i.Call ctx2 c2.addr cmd2 = c.i.Call ctx c.addr cmd) :
    (clientResult c2 ctx2 cmd2 pre2 check t decode).out =
      (clientResult c ctx cmd pre check t decode).out := by
  unfold clientResult
  rw [hc]
  rcases hcall : c.i.Call ctx c.addr cmd with ⟨_ | resp, _ | cerr⟩
  · simp [hp, hp2]
  · simp [hp, hp2]
  · by_cases hs : resp.Status = 0
    · rcases hr : (check resp.Response).2 with _ | rerr
      · rcases hd : decode resp.Response with derr | r <;> simp [hp, hp2, hs, hr, hd]
      · simp [hp, hp2, hs, hr]
    · simp [hp, hp2, hs]
  · simp [hp, hp2]

theorem clientResult_out_eq_ok_iff {Raw ρ : Type} (c : _Client Raw) (ctx : Context)
    (cmd : Command Raw) (pre : List (Event Raw) × Option Error)
    (check : Raw → List (Event Raw) × Option Error) (t : GoType)
    (decode : Raw → Except Error (Option ρ)) (r : Option ρ) :
    (clientResult c ctx cmd pre check t decode).out = .returned (r, none) ↔
      pre.2 = none ∧ ∃ resp, c.i.Call ctx c.addr cmd = (some resp, none) ∧ resp.Status = 0 ∧
        (check resp.Response).2 = none ∧ decode resp.Response = .ok r := by
  unfold clientResult
  rcases hp : pre.2 with _ | err
  · rcases hc : c.i.Call ctx c.addr cmd with ⟨_ | resp, _ | cerr⟩
    · simp
    · simp
    · by_cases hs : resp.Status = 0
      · rcases hr : (check resp.Response).2 with _ | rerr
        · rcases hd : decode resp.Response with derr | r2
          · simp [hs, hr, hd]
          · simp [hs, hr, hd]
        · simp [hs, hr]
      · simp [hs]
    · simp
  · simp

theorem clientResult_of_decode_error {Raw ρ : Type} (c : _Client Raw) (ctx : Context)
    (cmd : Command Raw) (pre : List (Event Raw) × Option Error)
    (check : Raw → List (Event Raw) × Option Error) (t : GoType)
    (decode : Raw → Except Error (Option ρ)) (resp : Response Raw) (err : Error)
    (hp : pre.2 = none) (hc : c.i.Call ctx c.addr cmd = (some resp, none))
    (hs : resp.Status = 0) (hr : (check resp.Response).2 = none)
    (hd : decode resp.Response = .error err) :
    (clientResult c ctx cmd pre check t decode).out =
      .returned (none, some (.Annotatef err "unmarshaling response")) := by
  simp [clientResult, hp, hc, hs, hr, hd]

theorem clientResult_encodingFails {Raw ρ : Type} (D : Deps Raw) (val : Validator)
    (which : ValidatorName) (m : Raw) (parseFmt warnFmt msg : String) (c : _Client Raw)
    (ctx : Context) (cmd : Command Raw) (rval : Validator) (rwhich : ValidatorName)
    (rwarnFmt rmsg : String) (t : GoType) (decode : Raw → Except Error (Option ρ))
    (hne : rwhich ≠ which) (h : EncodingFails D m) :
    (∀ v, Event.Validate which v ∉ (clientResult c ctx cmd
      (argsCheck D val which m parseFmt warnFmt msg)
      (responseCheck D rval rwhich rwarnFmt rmsg) t decode).trace) ∧
    Event.Call ctx c.addr cmd ∈ (clientResult c ctx cmd
      (argsCheck D val which m parseFmt warnFmt msg)
      (responseCheck D rval rwhich rwarnFmt rmsg) t decode).trace := by
  obtain ⟨hp, hv⟩ := argsCheck_of_encodingFails D val which m parseFmt warnFmt msg h
  refine ⟨?_, clientResult_call_mem c ctx cmd _ _ t decode hp⟩
  intro v hmem
  rcases clientResult_trace_mem c ctx cmd _ _ t decode _ hmem with h1 | h1 | ⟨m2, h1⟩ | ⟨m2, h1⟩
  · have := hv _ h1
    cases this
  · cases h1
  · exact hne (responseCheck_validate D rval rwhich rwarnFmt rmsg m2 which v h1).symm
  · cases h1

theorem clientNoResult_encodingFails {Raw : Type} (D : Deps Raw) (val : Validator)
    (which : ValidatorName) (m : Raw) (parseFmt warnFmt msg : String) (c : _Client Raw)
    (ctx : Context) (cmd : Command Raw) (h : EncodingFails D m) :
    (∀ ev ∈ (clientNoResult c ctx cmd (argsCheck D val which m parseFmt warnFmt msg)).trace,
      ev.isValidate = false) ∧
    Event.Call ctx c.addr cmd ∈
      (clientNoResult c ctx cmd (argsCheck D val which m parseFmt warnFmt msg)).trace := by
  obtain ⟨hp, hv⟩ := argsCheck_of_encodingFails D val which m parseFmt warnFmt msg h
  refine ⟨?_, clientNoResult_call_mem c ctx cmd _ hp⟩
  intro ev hmem
  rcases clientNoResult_trace_mem c ctx cmd _ _ hmem with h1 | h1
  · exact hv _ h1
  · rw [h1]
    rfl

theorem resultCheck_validate {Raw : Type} (D : Deps Raw) (val : Validator)
    (which : ValidatorName) (warnFmt msg : String) (t : GoType) (r : t.denote)
    (w : ValidatorName) (v : UclValue)
    (h : Event.Validate w v ∈
      (resultCheck D val which warnFmt msg t r : List (Event Raw) × Option Error).1) :
    w = which := by
  unfold resultCheck at h
  rcases h1 : D.Marshal t r with e1 | b
  · simp [h1] at h
  · rcases h2 : D.Parse b with e2 | v2
    · simp [h1, h2] at h
    · rcases h3 : val.Validate v2 with _ | e3 <;> simp [h1, h2, h3] at h <;> exact h.1

theorem serverScan_trace {Raw ρ : Type} (impl : Unit → ρ × Option Error)
    (implEvent : Event Raw) (check : ρ → List (Event Raw) × Option Error) (box : ρ → Iface) :
    (serverResult ([], none) ([], .ok ()) impl (fun _ => implEvent) check box).trace.head? =
        some implEvent ∧
      ∀ ev ∈ (serverResult ([], none) ([], .ok ()) impl (fun _ => implEvent) check box).trace,
        ev = implEvent ∨ ∃ r, ev ∈ (check r).1 := by
  unfold serverResult
  rcases hi : impl () with ⟨r, _ | err⟩
  · rcases hr : (check r).2 with _ | rerr
    · simp only [hi, hr, List.nil_append, List.singleton_append, List.head?_cons,
        List.mem_cons, true_and]
      intro ev hev
      rcases hev with hev | hev
      · exact Or.inl hev
      · exact Or.inr ⟨r, hev⟩
    · simp only [hi, hr, List.nil_append, List.singleton_append, List.head?_cons,
        List.mem_cons, true_and]
      intro ev hev
      rcases hev with hev | hev
      · exact Or.inl hev
      · exact Or.inr ⟨r, hev⟩
  · simp [hi]

theorem clientScan_head {Raw ρ : Type} (c : _Client Raw) (ctx : Context) (cmd : Command Raw)
    (check : Raw → List (Event Raw) × Option Error) (t : GoType)
    (decode : Raw → Except Error (Option ρ)) :
    (clientResult c ctx cmd ([], none) check t decode).trace.head? =
      some (.Call ctx c.addr cmd) := by
  unfold clientResult
  rcases hc : c.i.Call ctx c.addr cmd with ⟨_ | resp, _ | cerr⟩
  · simp
  · simp
  · by_cases hs : resp.Status = 0
    · rcases hr : (check resp.Response).2 with _ | rerr
      · rcases hd : decode resp.Response with derr | r <;> simp [hs, hr, hd]
      · simp [hs, hr]
    · simp [hs]
  · simp

/-! ## Facts about the patch-up -/

theorem Lookup_nil_of_not_found (l : List (Key × UclValue)) (key : String)
    (h : (Lookup l key).2 = false) : (Lookup l key).1 = .Nil := by
  induction l with
  | nil => rfl
  | cons kv rest ih =>
    obtain ⟨k, v⟩ := kv
    by_cases hk : k.Value = key
    · simp [Lookup, hk] at h
    · simp only [Lookup, hk, if_false] at h ⊢
      exact ih h

theorem Lookup_cons (kv : Key × UclValue) (rest : List (Key × UclValue)) (key : String) :
    Lookup (kv :: rest) key = if kv.1.Value = key then (kv.2, true) else Lookup rest key := by
  obtain ⟨k, v⟩ := kv
  rfl

theorem Lookup_map_result (W : UclValue) (l : List (Key × UclValue)) (key : String) :
    Lookup (l.map fun kv => if kv.1.Value = "result" then (kv.1, W) else kv) key =
      if key = "result" then (if (Lookup l key).2 then (W, true) else (.Nil, false))
      else Lookup l key := by
  induction l with
  | nil => simp [Lookup]
  | cons kv rest ih =>
    obtain ⟨k, v⟩ := kv
    rw [List.map_cons, Lookup_cons, Lookup_cons (k, v), ih]
    by_cases hk : k.Value = "result"
    · by_cases hkey : key = "result"
      · have h1 : k.Value = key := hk.trans hkey.symm
        simp [h1, hkey]
      · have h1 : ¬ k.Value = key := fun h => hkey (h.symm.trans hk)
        have h2 : ¬ "result" = key := fun h => hkey h.symm
        simp [hk, h1, h2, hkey]
    · by_cases hkey : k.Value = key
      · have hne : ¬ (key = "result") := fun h => hk (hkey.trans h)
        simp [hk, hkey, hne]
      · simp [hk, hkey]

theorem Lookup_update (l : List (Key × UclValue)) (k : String) (w : UclValue)
    (key : String) :
    Lookup (update l k w) key =
      if key = k then (if (Lookup l k).2 then (w, true) else (.Nil, false))
      else Lookup l key := by
  induction l with
  | nil => simp [Lookup, update]
  | cons kv rest ih =>
    obtain ⟨k1, v1⟩ := kv
    by_cases h1 : k1.Value = k
    · by_cases hkey : key = k
      · simp [Lookup, update, h1, hkey]
      · have hne : ¬ (k = key) := fun h => hkey h.symm
        simp [Lookup, update, h1, hkey, hne]
    · by_cases hkey : key = k
      · have hne : ¬ (k1.Value = key) := fun h => h1 (h.trans hkey)
        simp only [update, h1, if_false, Lookup, hne, hkey, if_true] at ih ⊢
        rw [← hkey] at ih ⊢
        simpa using ih
      · simp only [update, h1, if_false, Lookup, hkey] at ih ⊢
        by_cases h2 : k1.Value = key
        · simp [h2]
        · simp only [h2, if_false]
          exact ih

theorem patchResult_lookup (m : List (Key × UclValue)) (key : String)
    (hkey : key ≠ "result") : Lookup (patchResult m) key = Lookup m key := by
  unfold patchResult
  split
  · rw [Lookup_map_result, if_neg hkey]
  · rfl

theorem patchResult_find_result (m : List (Key × UclValue)) :
    Find (patchResult m) "result" = wrapShorthand (Find m "result") := by
  unfold patchResult
  split
  · rename_i s hs
    have hfound : (Lookup m "result").2 = true := by
      by_contra hnot
      have := Lookup_nil_of_not_found m "result" (by simpa using hnot)
      unfold Find at hs
      rw [hs] at this
      cases this
    unfold Find at hs ⊢
    rw [Lookup_map_result, if_pos rfl, hfound, hs]
    rfl
  · rename_i hne
    unfold wrapShorthand
    split
    · rename_i s hs
      exact absurd hs (hne s)
    · rfl

theorem patchArgs_eq (a : List (Key × UclValue)) :
    patchArgs a = a.map fun kv => (kv.1, wrapShorthand kv.2) := by
  unfold patchArgs
  apply List.map_congr_left
  intro kv _
  obtain ⟨k, v⟩ := kv
  cases v <;> rfl

theorem patchMethod_spec (m : List (Key × UclValue))
    (hargs : Find m "args" = .Nil ∨ ∃ a, Find m "args" = .Object a) :
    ∃ m1, patchMethod (.Object m) = some (.Object m1) ∧
      Find m1 "result" = wrapShorthand (Find m "result") ∧
      (∀ a, Find m "args" = .Object a →
        Find m1 "args" = .Object (a.map fun kv => (kv.1, wrapShorthand kv.2))) ∧
      Lookup m1 "required_args" = Lookup m "required_args" := by
  have hA : Find (patchResult m) "args" = Find m "args" := by
    unfold Find
    rw [patchResult_lookup m "args" (by decide)]
  rcases hargs with hnil | ⟨a, ha⟩
  · refine ⟨patchResult m, ?_, patchResult_find_result m, ?_,
      patchResult_lookup m "required_args" (by decide)⟩
    · simp only [patchMethod, hA, hnil]
    · intro a ha
      rw [hnil] at ha
      cases ha
  · have hfound : (Lookup (patchResult m) "args").2 = true := by
      by_contra hnot
      have := Lookup_nil_of_not_found (patchResult m) "args" (by simpa using hnot)
      unfold Find at hA ha
      rw [hA, ha] at this
      cases this
    refine ⟨update (patchResult m) "args" (.Object (patchArgs a)), ?_, ?_, ?_, ?_⟩
    · simp only [patchMethod, hA, ha]
    · unfold Find
      rw [Lookup_update, if_neg (by decide)]
      exact patchResult_find_result m
    · intro a2 ha2
      rw [ha] at ha2
      cases ha2
      unfold Find
      rw [Lookup_update, if_pos rfl, hfound, patchArgs_eq]
      rfl
    · rw [Lookup_update, if_neg (by decide)]
      exact patchResult_lookup m "required_args" (by decide)

theorem patchMethods_spec (ms : List (Key × UclValue))
    (hobj : ∀ kv ∈ ms, ∃ m, kv.2 = .Object m ∧
      (Find m "args" = .Nil ∨ ∃ a, Find m "args" = .Object a)) :
    ∃ ms1, patchMethods ms = some ms1 ∧
      ∀ name m, Find ms name = .Object m →
        ∃ m1, Find ms1 name = .Object m1 ∧ patchMethod (.Object m) = some (.Object m1) := by
  induction ms with
  | nil =>
    refine ⟨[], rfl, ?_⟩
    intro name m h
    cases h
  | cons kv rest ih =>
    obtain ⟨k, v⟩ := kv
    obtain ⟨m0, hv, hargs⟩ := hobj (k, v) (List.mem_cons_self _ _)
    simp only at hv
    subst hv
    obtain ⟨m01, hp, -⟩ := patchMethod_spec m0 hargs
    obtain ⟨rest1, hrest, hfind⟩ := ih (fun kv hkv => hobj kv (List.mem_cons_of_mem _ hkv))
    refine ⟨(k, .Object m01) :: rest1, ?_, ?_⟩
    · simp only [patchMethods, hp, hrest]
    · intro name m h
      unfold Find at h ⊢
      rw [Lookup_cons] at h ⊢
      by_cases hk : k.Value = name
      · simp only [hk, if_true] at h ⊢
        cases h
        exact ⟨m01, rfl, hp⟩
      · simp only [hk, if_false] at h ⊢
        exact hfind name m h

theorem isShorthand_wrapShorthand (v : UclValue) : isShorthand (wrapShorthand v) = false := by
  cases v <;> rfl

theorem methodOf_patched (sv ms ms1 : List (Key × UclValue)) (name : String)
    (m1 : List (Key × UclValue)) (hm : Find sv "methods" = .Object ms)
    (h1 : Find ms1 name = .Object m1) :
    methodOf (.Object (update sv "methods" (.Object ms1))) name = some m1 := by
  have hfound : (Lookup sv "methods").2 = true := by
    by_contra hnot
    have := Lookup_nil_of_not_found sv "methods" (by simpa using hnot)
    unfold Find at hm
    rw [hm] at this
    cases this
  have h2 : Find (update sv "methods" (.Object ms1)) "methods" = .Object ms1 := by
    unfold Find
    rw [Lookup_update, if_pos rfl, hfound]
    rfl
  simp only [methodOf, h2, h1]

/-! ## Claims -/

/-- C1: when encoding the args and re-parsing the bytes succeed and the args validator of
the method rejects the parsed value, each of the client methods Read, ReadRegB, ReadRegW,
Write and WriteRegB returns no result and the error "invalid args for <Method>" wrapped
around the violation, and its run holds no call to the transport. -/
theorem client_invalid_args_abort {Raw : Type} (D : Deps Raw) (V : _validators)
    (c : _Client Raw) (ctx : Context) (e : Error) :
    (∀ args, Rejects D V.ReadArgs (D.DelayMarshaling (.Ptr .ReadArgs) args) e →
      (_Client.Read D V c ctx args).out =
          .returned (none, some (.Annotatef e "invalid args for Read")) ∧
        ∀ ev ∈ (_Client.Read D V c ctx args).trace, ev.isCall = false) ∧
    (∀ args, Rejects D V.ReadRegBArgs (D.DelayMarshaling (.Ptr .ReadRegBArgs) args) e →
      (_Client.ReadRegB D V c ctx args).out =
          .returned (none, some (.Annotatef e "invalid args for ReadRegB")) ∧
        ∀ ev ∈ (_Client.ReadRegB D V c ctx args).trace, ev.isCall = false) ∧
    (∀ args, Rejects D V.ReadRegWArgs (D.DelayMarshaling (.Ptr .ReadRegWArgs) args) e →
      (_Client.ReadRegW D V c ctx args).out =
          .returned (none, some (.Annotatef e "invalid args for ReadRegW")) ∧
        ∀ ev ∈ (_Client.ReadRegW D V c ctx args).trace, ev.isCall = false) ∧
    (∀ args, Rejects D V.WriteArgs (D.DelayMarshaling (.Ptr .WriteArgs) args) e →
      (_Client.Write D V c ctx args).out =
          .returned (some (.Annotatef e "invalid args for Write")) ∧
        ∀ ev ∈ (_Client.Write D V c ctx args).trace, ev.isCall = false) ∧
    (∀ args, Rejects D V.WriteRegBArgs (D.DelayMarshaling (.Ptr .WriteRegBArgs) args) e →
      (_Client.WriteRegB D V c ctx args).out =
          .returned (some (.Annotatef e "invalid args for WriteRegB")) ∧
        ∀ ev ∈ (_Client.WriteRegB D V c ctx args).trace, ev.isCall = false) := by
  refine ⟨?_, ?_, ?_, ?_, ?_⟩ <;> intro args h
  · rw [client_Read_eq, clientResult_of_pre_some _ _ _ _ _ _ _ _
      (argsCheck_of_rejects _ _ _ _ _ _ _ e h)]
    exact ⟨rfl, fun ev hev => (argsCheck_trace _ _ _ _ _ _ _ ev hev).1⟩
  · rw [client_ReadRegB_eq, clientResult_of_pre_some _ _ _ _ _ _ _ _
      (argsCheck_of_rejects _ _ _ _ _ _ _ e h)]
    exact ⟨rfl, fun ev hev => (argsCheck_trace _ _ _ _ _ _ _ ev hev).1⟩
  · rw [client_ReadRegW_eq, clientResult_of_pre_some _ _ _ _ _ _ _ _
      (argsCheck_of_rejects _ _ _ _ _ _ _ e h)]
    exact ⟨rfl, fun ev hev => (argsCheck_trace _ _ _ _ _ _ _ ev hev).1⟩
  · rw [client_Write_eq, clientNoResult_of_pre_some _ _ _ _ _
      (argsCheck_of_rejects _ _ _ _ _ _ _ e h)]
    exact ⟨rfl, fun ev hev => (argsCheck_trace _ _ _ _ _ _ _ ev hev).1⟩
  · rw [client_WriteRegB_eq, clientNoResult_of_pre_some _ _ _ _ _
      (argsCheck_of_rejects _ _ _ _ _ _ _ e h)]
    exact ⟨rfl, fun ev hev => (argsCheck_trace _ _ _ _ _ _ _ ev hev).1⟩

/-- C1 at the stand-in environment: a nil args pointer encodes as `null`, which is not an
object. -/
theorem client_invalid_args_abort_witness :
    Rejects demoDeps demoValidators.ReadArgs
        (demoDeps.DelayMarshaling (.Ptr .ReadArgs) none) (.external "not an object") ∧
      ((_Client.Read demoDeps demoValidators (demoClient ⟨0, "", ""⟩) demoCtx none).out =
          .returned (none, some (.Annotatef (.external "not an object") "invalid args for Read")) ∧
        ∀ ev ∈ (_Client.Read demoDeps demoValidators (demoClient ⟨0, "", ""⟩) demoCtx none).trace,
          ev.isCall = false) :=
  ⟨⟨"null", .Null, rfl, rfl, rfl⟩,
   (client_invalid_args_abort demoDeps demoValidators (demoClient ⟨0, "", ""⟩) demoCtx
      (.external "not an object")).1 none ⟨"null", .Null, rfl, rfl, rfl⟩⟩

/-- C2: when the inbound args of a command fail validation (encoding and re-parsing them
succeed and the args validator of the method rejects the parsed value), each of the
dispatcher methods Read, ReadRegB, ReadRegW, Write and WriteRegB returns a nil result and
the error "invalid args for <Method>" wrapped around the violation, and its run holds no
call to the implementation. -/
theorem server_invalid_args_reject {Raw : Type} (D : Deps Raw) (V : _validators)
    (s : _Server) (ctx : Context) (src : String) (e : Error) :
    (∀ cmd, Rejects D V.ReadArgs cmd.Args e →
      (_Server.Read D V s ctx src cmd).out =
          .returned (none, some (.Annotatef e "invalid args for Read")) ∧
        ∀ ev ∈ (_Server.Read D V s ctx src cmd).trace, ev.isImpl = false) ∧
    (∀ cmd, Rejects D V.ReadRegBArgs cmd.Args e →
      (_Server.ReadRegB D V s ctx src cmd).out =
          .returned (none, some (.Annotatef e "invalid args for ReadRegB")) ∧
        ∀ ev ∈ (_Server.ReadRegB D V s ctx src cmd).trace, ev.isImpl = false) ∧
    (∀ cmd, Rejects D V.ReadRegWArgs cmd.Args e →
      (_Server.ReadRegW D V s ctx src cmd).out =
          .returned (none, some (.Annotatef e "invalid args for ReadRegW")) ∧
        ∀ ev ∈ (_Server.ReadRegW D V s ctx src cmd).trace, ev.isImpl = false) ∧
    (∀ cmd, Rejects D V.WriteArgs cmd.Args e →
      (_Server.Write D V s ctx src cmd).out =
          .returned (none, some (.Annotatef e "invalid args for Write")) ∧
        ∀ ev ∈ (_Server.Write D V s ctx src cmd).trace, ev.isImpl = false) ∧
    (∀ cmd, Rejects D V.WriteRegBArgs cmd.Args e →
      (_Server.WriteRegB D V s ctx src cmd).out =
          .returned (none, some (.Annotatef e "invalid args for WriteRegB")) ∧
        ∀ ev ∈ (_Server.WriteRegB D V s ctx src cmd).trace, ev.isImpl = false) := by
  refine ⟨?_, ?_, ?_, ?_, ?_⟩ <;> intro cmd h
  · rw [server_Read_eq, serverResult_of_pre_some _ _ _ _ _ _ _
      (argsCheck_of_rejects _ _ _ _ _ _ _ e h)]
    exact ⟨rfl, fun ev hev => (argsCheck_trace _ _ _ _ _ _ _ ev hev).2.2⟩
  · rw [server_ReadRegB_eq, serverResult_of_pre_some _ _ _ _ _ _ _
      (argsCheck_of_rejects _ _ _ _ _ _ _ e h)]
    exact ⟨rfl, fun ev hev => (argsCheck_trace _ _ _ _ _ _ _ ev hev).2.2⟩
  · rw [server_ReadRegW_eq, serverResult_of_pre_some _ _ _ _ _ _ _
      (argsCheck_of_rejects _ _ _ _ _ _ _ e h)]
    exact ⟨rfl, fun ev hev => (argsCheck_trace _ _ _ _ _ _ _ ev hev).2.2⟩
  · rw [server_Write_eq, serverNoResult_of_pre_some _ _ _ _ _
      (argsCheck_of_rejects _ _ _ _ _ _ _ e h)]
    exact ⟨rfl, fun ev hev => (argsCheck_trace _ _ _ _ _ _ _ ev hev).2.2⟩
  · rw [server_WriteRegB_eq, serverNoResult_of_pre_some _ _ _ _ _
      (argsCheck_of_rejects _ _ _ _ _ _ _ e h)]
    exact ⟨rfl, fun ev hev => (argsCheck_trace _ _ _ _ _ _ _ ev hev).2.2⟩

/-- C2 at the stand-in environment: an inbound Read whose args are an array, not an
object. -/
theorem server_invalid_args_reject_witness :
    Rejects demoDeps demoValidators.ReadArgs
        (⟨"I2C.Read", "[]"⟩ : Command String).Args (.external "not an object") ∧
      ((_Server.Read demoDeps demoValidators demoServer demoCtx "peer" ⟨"I2C.Read", "[]"⟩).out =
          .returned (none, some (.Annotatef (.external "not an object") "invalid args for Read")) ∧
        ∀ ev ∈ (_Server.Read demoDeps demoValidators demoServer demoCtx "peer"
          ⟨"I2C.Read", "[]"⟩).trace, ev.isImpl = false) :=
  ⟨⟨"[]", .Array [], rfl, rfl, rfl⟩,
   (server_invalid_args_reject demoDeps demoValidators demoServer demoCtx "peer"
      (.external "not an object")).1 ⟨"I2C.Read", "[]"⟩ ⟨"[]", .Array [], rfl, rfl, rfl⟩⟩

/-- C3: whenever the args validation of a client method did not reject the request and
the transport answers the command of the method with a response, no transport error and a
status other than 0, the method returns no result and the error `ErrorResponse` carrying
the status and the status message of that response (under the `errors.Trace` wrapper);
the method did call the transport, that call is the last event of the run, and the run
neither validates the payload against the result validator nor decodes it. -/
theorem client_remote_error {Raw : Type} [Inhabited Raw] (D : Deps Raw) (V : _validators)
    (c : _Client Raw) (ctx : Context) :
    (∀ args resp, (¬ ∃ e, Rejects D V.ReadArgs (D.DelayMarshaling (.Ptr .ReadArgs) args) e) →
      c.i.Call ctx c.addr ⟨"I2C.Read", D.DelayMarshaling (.Ptr .ReadArgs) args⟩ = (some resp, none) →
      resp.Status ≠ 0 →
      (_Client.Read D V c ctx args).out =
          .returned (none, some (.Trace (.ErrorResponse resp.Status resp.StatusMsg))) ∧
        Event.Call ctx c.addr ⟨"I2C.Read", D.DelayMarshaling (.Ptr .ReadArgs) args⟩ ∈
          (_Client.Read D V c ctx args).trace ∧
        (_Client.Read D V c ctx args).trace.getLast? =
          some (.Call ctx c.addr ⟨"I2C.Read", D.DelayMarshaling (.Ptr .ReadArgs) args⟩) ∧
        (∀ ev ∈ (_Client.Read D V c ctx args).trace, ev.isUnmarshalInto = false) ∧
        ∀ v, Event.Validate .ReadResult v ∉ (_Client.Read D V c ctx args).trace) ∧
    (∀ args resp, (¬ ∃ e, Rejects D V.ReadRegBArgs (D.DelayMarshaling (.Ptr .ReadRegBArgs) args) e) →
      c.i.Call ctx c.addr ⟨"I2C.ReadRegB", D.DelayMarshaling (.Ptr .ReadRegBArgs) args⟩ = (some resp, none) →
      resp.Status ≠ 0 →
      (_Client.ReadRegB D V c ctx args).out =
          .returned (none, some (.Trace (.ErrorResponse resp.Status resp.StatusMsg))) ∧
        Event.Call ctx c.addr ⟨"I2C.ReadRegB", D.DelayMarshaling (.Ptr .ReadRegBArgs) args⟩ ∈
          (_Client.ReadRegB D V c ctx args).trace ∧
        (_Client.ReadRegB D V c ctx args).trace.getLast? =
          some (.Call ctx c.addr ⟨"I2C.ReadRegB", D.DelayMarshaling (.Ptr .ReadRegBArgs) args⟩) ∧
        (∀ ev ∈ (_Client.ReadRegB D V c ctx args).trace, ev.isUnmarshalInto = false) ∧
        ∀ v, Event.Validate .ReadRegBResult v ∉ (_Client.ReadRegB D V c ctx args).trace) ∧
    (∀ args resp, (¬ ∃ e, Rejects D V.ReadRegWArgs (D.DelayMarshaling (.Ptr .ReadRegWArgs) args) e) →
      c.i.Call ctx c.addr ⟨"I2C.ReadRegW", D.DelayMarshaling (.Ptr .ReadRegWArgs) args⟩ = (some resp, none) →
      resp.Status ≠ 0 →
      (_Client.ReadRegW D V c ctx args).out =
          .returned (none, some (.Trace (.ErrorResponse resp.Status resp.StatusMsg))) ∧
        Event.Call ctx c.addr ⟨"I2C.ReadRegW", D.DelayMarshaling (.Ptr .ReadRegWArgs) args⟩ ∈
          (_Client.ReadRegW D V c ctx args).trace ∧
        (_Client.ReadRegW D V c ctx args).trace.getLast? =
          some (.Call ctx c.addr ⟨"I2C.ReadRegW", D.DelayMarshaling (.Ptr .ReadRegWArgs) args⟩) ∧
        (∀ ev ∈ (_Client.ReadRegW D V c ctx args).trace, ev.isUnmarshalInto = false) ∧
        ∀ v, Event.Validate .ReadRegWResult v ∉ (_Client.ReadRegW D V c ctx args).trace) ∧
    (∀ resp, c.i.Call ctx c.addr ⟨"I2C.Scan", default⟩ = (some resp, none) →
      resp.Status ≠ 0 →
      (_Client.Scan D V c ctx).out =
          .returned (none, some (.Trace (.ErrorResponse resp.Status resp.StatusMsg))) ∧
        Event.Call ctx c.addr ⟨"I2C.Scan", default⟩ ∈ (_Client.Scan D V c ctx).trace ∧
        (_Client.Scan D V c ctx).trace.getLast? =
          some (.Call ctx c.addr ⟨"I2C.Scan", default⟩) ∧
        (∀ ev ∈ (_Client.Scan D V c ctx).trace, ev.isUnmarshalInto = false) ∧
        ∀ v, Event.Validate .ScanResult v ∉ (_Client.Scan D V c ctx).trace) ∧
    (∀ args resp, (¬ ∃ e, Rejects D V.WriteArgs (D.DelayMarshaling (.Ptr .WriteArgs) args) e) →
      c.i.Call ctx c.addr ⟨"I2C.Write", D.DelayMarshaling (.Ptr .WriteArgs) args⟩ = (some resp, none) →
      resp.Status ≠ 0 →
      (_Client.Write D V c ctx args).out =
          .returned (some (.Trace (.ErrorResponse resp.Status resp.StatusMsg))) ∧
        Event.Call ctx c.addr ⟨"I2C.Write", D.DelayMarshaling (.Ptr .WriteArgs) args⟩ ∈
          (_Client.Write D V c ctx args).trace ∧
        (_Client.Write D V c ctx args).trace.getLast? =
          some (.Call ctx c.addr ⟨"I2C.Write", D.DelayMarshaling (.Ptr .WriteArgs) args⟩) ∧
        (∀ ev ∈ (_Client.Write D V c ctx args).trace, ev.isUnmarshalInto = false) ∧
        ∀ w v, Event.Validate w v ∈ (_Client.Write D V c ctx args).trace → w = .WriteArgs) ∧
    (∀ args resp, (¬ ∃ e, Rejects D V.WriteRegBArgs (D.DelayMarshaling (.Ptr .WriteRegBArgs) args) e) →
      c.i.Call ctx c.addr ⟨"I2C.WriteRegB", D.DelayMarshaling (.Ptr .WriteRegBArgs) args⟩ = (some resp, none) →
      resp.Status ≠ 0 →
      (_Client.WriteRegB D V c ctx args).out =
          .returned (some (.Trace (.ErrorResponse resp.Status resp.StatusMsg))) ∧
        Event.Call ctx c.addr ⟨"I2C.WriteRegB", D.DelayMarshaling (.Ptr .WriteRegBArgs) args⟩ ∈
          (_Client.WriteRegB D V c ctx args).trace ∧
        (_Client.WriteRegB D V c ctx args).trace.getLast? =
          some (.Call ctx c.addr ⟨"I2C.WriteRegB", D.DelayMarshaling (.Ptr .WriteRegBArgs) args⟩) ∧
        (∀ ev ∈ (_Client.WriteRegB D V c ctx args).trace, ev.isUnmarshalInto = false) ∧
        ∀ w v, Event.Validate w v ∈ (_Client.WriteRegB D V c ctx args).trace → w = .WriteRegBArgs) := by
  refine ⟨?_, ?_, ?_, ?_, ?_, ?_⟩
  · intro args resp hn hc hs
    rw [client_Read_eq]
    exact clientResult_remote_error _ _ _ _ _ _ _ _ _ _ _ _ _ _ _ (by decide) hn hc hs
  · intro args resp hn hc hs
    rw [client_ReadRegB_eq]
    exact clientResult_remote_error _ _ _ _ _ _ _ _ _ _ _ _ _ _ _ (by decide) hn hc hs
  · intro args resp hn hc hs
    rw [client_ReadRegW_eq]
    exact clientResult_remote_error _ _ _ _ _ _ _ _ _ _ _ _ _ _ _ (by decide) hn hc hs
  · intro resp hc hs
    rw [client_Scan_eq, clientResult_of_status _ _ _ _ _ _ _ resp rfl hc hs]
    simp [Event.isUnmarshalInto]
  · intro args resp hn hc hs
    rw [client_Write_eq]
    exact clientNoResult_remote_error _ _ _ _ _ _ _ _ _ _ _ hn hc hs
  · intro args resp hn hc hs
    rw [client_WriteRegB_eq]
    exact clientNoResult_remote_error _ _ _ _ _ _ _ _ _ _ _ hn hc hs

/-- C3 at the scenario of the specification: WriteRegB with `addr: 80, reg: 1, value: 255`,
which the args validator accepts, against a transport that answers status 5,
"bus timeout". -/
theorem client_remote_error_witness :
    (¬ ∃ e, Rejects demoDeps demoValidators.WriteRegBArgs
        (demoDeps.DelayMarshaling (.Ptr .WriteRegBArgs) (some ⟨some 80, some 1, some 255⟩)) e) ∧
      (_Client.WriteRegB demoDeps demoValidators (demoClient ⟨5, "bus timeout", ""⟩)
        demoCtx (some ⟨some 80, some 1, some 255⟩)).out =
          .returned (some (.Trace (.ErrorResponse 5 "bus timeout"))) ∧
      Event.Call demoCtx "device" ⟨"I2C.WriteRegB", demoWriteRegBText⟩ ∈
        (_Client.WriteRegB demoDeps demoValidators (demoClient ⟨5, "bus timeout", ""⟩)
          demoCtx (some ⟨some 80, some 1, some 255⟩)).trace :=
  have hn : ¬ ∃ e, Rejects demoDeps demoValidators.WriteRegBArgs
      (demoDeps.DelayMarshaling (.Ptr .WriteRegBArgs) (some ⟨some 80, some 1, some 255⟩)) e :=
    (argsCheck_snd_eq_none demoDeps demoValidators.WriteRegBArgs .WriteRegBArgs _ "" "" "").1
      rfl
  have h := (client_remote_error demoDeps demoValidators (demoClient ⟨5, "bus timeout", ""⟩)
    demoCtx).2.2.2.2.2 (some ⟨some 80, some 1, some 255⟩) ⟨5, "bus timeout", ""⟩ hn rfl
    (by decide)
  ⟨hn, h.1, h.2.1⟩

/-- C4: when the args validation of a client method with a result (Read, ReadRegB,
ReadRegW, Scan) did not reject the request, the transport answers the command of the
method with a response, no error and status 0, and the payload of the response, once
re-parsed, is rejected by the result validator of the method, the method returns a nil
result and the error "invalid response for <Method>" wrapped around the violation; the
method did call the transport, and its run never decodes the payload. -/
theorem client_invalid_response {Raw : Type} [Inhabited Raw] (D : Deps Raw)
    (V : _validators) (c : _Client Raw) (ctx : Context) :
    (∀ args resp e, (¬ ∃ e2, Rejects D V.ReadArgs (D.DelayMarshaling (.Ptr .ReadArgs) args) e2) →
      c.i.Call ctx c.addr ⟨"I2C.Read", D.DelayMarshaling (.Ptr .ReadArgs) args⟩ = (some resp, none) →
      resp.Status = 0 → Rejects D V.ReadResult resp.Response e →
      (_Client.Read D V c ctx args).out =
          .returned (none, some (.Annotatef e "invalid response for Read")) ∧
        Event.Call ctx c.addr ⟨"I2C.Read", D.DelayMarshaling (.Ptr .ReadArgs) args⟩ ∈
          (_Client.Read D V c ctx args).trace ∧
        ∀ ev ∈ (_Client.Read D V c ctx args).trace, ev.isUnmarshalInto = false) ∧
    (∀ args resp e, (¬ ∃ e2, Rejects D V.ReadRegBArgs (D.DelayMarshaling (.Ptr .ReadRegBArgs) args) e2) →
      c.i.Call ctx c.addr ⟨"I2C.ReadRegB", D.DelayMarshaling (.Ptr .ReadRegBArgs) args⟩ = (some resp, none) →
      resp.Status = 0 → Rejects D V.ReadRegBResult resp.Response e →
      (_Client.ReadRegB D V c ctx args).out =
          .returned (none, some (.Annotatef e "invalid response for ReadRegB")) ∧
        Event.Call ctx c.addr ⟨"I2C.ReadRegB", D.DelayMarshaling (.Ptr .ReadRegBArgs) args⟩ ∈
          (_Client.ReadRegB D V c ctx args).trace ∧
        ∀ ev ∈ (_Client.ReadRegB D V c ctx args).trace, ev.isUnmarshalInto = false) ∧
    (∀ args resp e, (¬ ∃ e2, Rejects D V.ReadRegWArgs (D.DelayMarshaling (.Ptr .ReadRegWArgs) args) e2) →
      c.i.Call ctx c.addr ⟨"I2C.ReadRegW", D.DelayMarshaling (.Ptr .ReadRegWArgs) args⟩ = (some resp, none) →
      resp.Status = 0 → Rejects D V.ReadRegWResult resp.Response e →
      (_Client.ReadRegW D V c ctx args).out =
          .returned (none, some (.Annotatef e "invalid response for ReadRegW")) ∧
        Event.Call ctx c.addr ⟨"I2C.ReadRegW", D.DelayMarshaling (.Ptr .ReadRegWArgs) args⟩ ∈
          (_Client.ReadRegW D V c ctx args).trace ∧
        ∀ ev ∈ (_Client.ReadRegW D V c ctx args).trace, ev.isUnmarshalInto = false) ∧
    (∀ resp e, c.i.Call ctx c.addr ⟨"I2C.Scan", default⟩ = (some resp, none) →
      resp.Status = 0 → Rejects D V.ScanResult resp.Response e →
      (_Client.Scan D V c ctx).out =
          .returned (none, some (.Annotatef e "invalid response for Scan")) ∧
        Event.Call ctx c.addr ⟨"I2C.Scan", default⟩ ∈ (_Client.Scan D V c ctx).trace ∧
        ∀ ev ∈ (_Client.Scan D V c ctx).trace, ev.isUnmarshalInto = false) := by
  refine ⟨?_, ?_, ?_, ?_⟩
  · intro args resp e hn hc hs hr
    rw [client_Read_eq]
    exact clientResult_invalid_response _ _ _ _ _ _ _ _ _ _ _ _ _ _ _ _ resp e hn hc hs hr
  · intro args resp e hn hc hs hr
    rw [client_ReadRegB_eq]
    exact clientResult_invalid_response _ _ _ _ _ _ _ _ _ _ _ _ _ _ _ _ resp e hn hc hs hr
  · intro args resp e hn hc hs hr
    rw [client_ReadRegW_eq]
    exact clientResult_invalid_response _ _ _ _ _ _ _ _ _ _ _ _ _ _ _ _ resp e hn hc hs hr
  · intro resp e hc hs hr
    rw [client_Scan_eq, clientResult_of_response_rejected _ _ _ _ _ _ _ resp _ rfl hc hs
      ((responseCheck_snd_eq_some _ _ _ _ _ resp.Response _).2 ⟨e, hr, rfl⟩)]
    refine ⟨rfl, by simp, ?_⟩
    intro ev hev
    rcases List.mem_append.1 hev with hev | hev
    · rw [List.mem_singleton.1 hev]
      rfl
    · exact (responseCheck_trace _ _ _ _ _ resp.Response ev hev).2.1

/-- C4 at the scenario of the specification, Scan against a transport that answers
status 0 with the payload "not-an-array"; and at Read with args that the args validator
accepts, against a transport that answers status 0 with an array where an object is
declared. -/
theorem client_invalid_response_witness :
    (Rejects demoDeps demoValidators.ScanResult "\"not-an-array\"" (.external "not an array") ∧
      (_Client.Scan demoDeps demoValidators (demoClient ⟨0, "", "\"not-an-array\""⟩)
          demoCtx).out =
        .returned (none, some (.Annotatef (.external "not an array")
          "invalid response for Scan"))) ∧
    ((¬ ∃ e, Rejects demoDeps demoValidators.ReadArgs
        (demoDeps.DelayMarshaling (.Ptr .ReadArgs) (some ⟨some 80, some 4⟩)) e) ∧
      Rejects demoDeps demoValidators.ReadResult "[]" (.external "not an object") ∧
      (_Client.Read demoDeps demoValidators (demoClient ⟨0, "", "[]"⟩) demoCtx
          (some ⟨some 80, some 4⟩)).out =
        .returned (none, some (.Annotatef (.external "not an object")
          "invalid response for Read")) ∧
      ∀ ev ∈ (_Client.Read demoDeps demoValidators (demoClient ⟨0, "", "[]"⟩) demoCtx
          (some ⟨some 80, some 4⟩)).trace, ev.isUnmarshalInto = false) :=
  have hn : ¬ ∃ e, Rejects demoDeps demoValidators.ReadArgs
      (demoDeps.DelayMarshaling (.Ptr .ReadArgs) (some ⟨some 80, some 4⟩)) e :=
    (argsCheck_snd_eq_none demoDeps demoValidators.ReadArgs .ReadArgs _ "" "" "").1 rfl
  have h := (client_invalid_response demoDeps demoValidators (demoClient ⟨0, "", "[]"⟩)
    demoCtx).1 (some ⟨some 80, some 4⟩) ⟨0, "", "[]"⟩ (.external "not an object") hn rfl rfl
    ⟨"[]", .Array [], rfl, rfl, rfl⟩
  ⟨⟨⟨"\"not-an-array\"", .String "not-an-array", rfl, rfl, rfl⟩,
    ((client_invalid_response demoDeps demoValidators
      (demoClient ⟨0, "", "\"not-an-array\""⟩) demoCtx).2.2.2
      ⟨0, "", "\"not-an-array\""⟩ (.external "not an array") rfl rfl
      ⟨"\"not-an-array\"", .String "not-an-array", rfl, rfl, rfl⟩).1⟩,
   ⟨hn, ⟨"[]", .Array [], rfl, rfl, rfl⟩, h.1, h.2.2⟩⟩

/-- C5: when the args validation of a dispatcher method with a result (Read, ReadRegB,
ReadRegW, Scan) did not reject the inbound args, the args decode, the implementation
returns a result without error on the decoded args, and that result, once encoded and
re-parsed, is rejected by the result validator of the method, the dispatcher did call the
implementation, and it returns a nil result and the error
"server generated invalid responce for <Method>" wrapped around the violation. -/
theorem server_invalid_result {Raw : Type} (D : Deps Raw) (V : _validators) (s : _Server)
    (ctx : Context) (src : String) :
    (∀ cmd args r e, (¬ ∃ e2, Rejects D V.ReadArgs cmd.Args e2) →
      DecodesTo D cmd.Args .ReadArgs (⟨none, none⟩ : ReadArgs) args →
      s.impl.Read ctx (some args) = (r, none) →
      RejectsResult D V.ReadResult (.Ptr .ReadResult) r e →
      (_Server.Read D V s ctx src cmd).out =
          .returned (none,
            some (.Annotatef e "server generated invalid responce for Read")) ∧
        Event.Impl "Read" ctx (some ⟨.Ptr .ReadArgs, some args⟩) ∈
          (_Server.Read D V s ctx src cmd).trace) ∧
    (∀ cmd args r e, (¬ ∃ e2, Rejects D V.ReadRegBArgs cmd.Args e2) →
      DecodesTo D cmd.Args .ReadRegBArgs (⟨none, none⟩ : ReadRegBArgs) args →
      s.impl.ReadRegB ctx (some args) = (r, none) →
      RejectsResult D V.ReadRegBResult (.Ptr .ReadRegBResult) r e →
      (_Server.ReadRegB D V s ctx src cmd).out =
          .returned (none,
            some (.Annotatef e "server generated invalid responce for ReadRegB")) ∧
        Event.Impl "ReadRegB" ctx (some ⟨.Ptr .ReadRegBArgs, some args⟩) ∈
          (_Server.ReadRegB D V s ctx src cmd).trace) ∧
    (∀ cmd args r e, (¬ ∃ e2, Rejects D V.ReadRegWArgs cmd.Args e2) →
      DecodesTo D cmd.Args .ReadRegWArgs (⟨none, none⟩ : ReadRegWArgs) args →
      s.impl.ReadRegW ctx (some args) = (r, none) →
      RejectsResult D V.ReadRegWResult (.Ptr .ReadRegWResult) r e →
      (_Server.ReadRegW D V s ctx src cmd).out =
          .returned (none,
            some (.Annotatef e "server generated invalid responce for ReadRegW")) ∧
        Event.Impl "ReadRegW" ctx (some ⟨.Ptr .ReadRegWArgs, some args⟩) ∈
          (_Server.ReadRegW D V s ctx src cmd).trace) ∧
    (∀ cmd r e, s.impl.Scan ctx = (r, none) →
      RejectsResult D V.ScanResult .Int64Slice r e →
      (_Server.Scan D V s ctx src cmd).out =
          .returned (none,
            some (.Annotatef e "server generated invalid responce for Scan")) ∧
        Event.Impl "Scan" ctx none ∈ (_Server.Scan D V s ctx src cmd).trace) := by
  refine ⟨?_, ?_, ?_, ?_⟩
  · intro cmd args r e hn hdec hi hr
    rw [server_Read_eq]
    have hp := (argsCheck_snd_eq_none D V.ReadArgs .ReadArgs cmd.Args
      "Failed to parse valid JSON value %q: %+v" "Got invalid args for Read: %+v"
      "invalid args for Read").2 hn
    have hd := argsDecode_of_decodesTo D cmd.Args .ReadArgs _ args hdec
    exact ⟨serverResult_of_result_rejected _ _ _ _ _ _ args r _ hp hd hi
        ((resultCheck_snd_eq_some _ _ _ _ _ (.Ptr .ReadResult) r _).2 ⟨e, hr, rfl⟩),
      serverResult_impl_mem _ _ _ _ _ _ args hp hd⟩
  · intro cmd args r e hn hdec hi hr
    rw [server_ReadRegB_eq]
    have hp := (argsCheck_snd_eq_none D V.ReadRegBArgs .ReadRegBArgs cmd.Args
      "Failed to parse valid JSON value %q: %+v" "Got invalid args for ReadRegB: %+v"
      "invalid args for ReadRegB").2 hn
    have hd := argsDecode_of_decodesTo D cmd.Args .ReadRegBArgs _ args hdec
    exact ⟨serverResult_of_result_rejected _ _ _ _ _ _ args r _ hp hd hi
        ((resultCheck_snd_eq_some _ _ _ _ _ (.Ptr .ReadRegBResult) r _).2 ⟨e, hr, rfl⟩),
      serverResult_impl_mem _ _ _ _ _ _ args hp hd⟩
  · intro cmd args r e hn hdec hi hr
    rw [server_ReadRegW_eq]
    have hp := (argsCheck_snd_eq_none D V.ReadRegWArgs .ReadRegWArgs cmd.Args
      "Failed to parse valid JSON value %q: %+v" "Got invalid args for ReadRegW: %+v"
      "invalid args for ReadRegW").2 hn
    have hd := argsDecode_of_decodesTo D cmd.Args .ReadRegWArgs _ args hdec
    exact ⟨serverResult_of_result_rejected _ _ _ _ _ _ args r _ hp hd hi
        ((resultCheck_snd_eq_some _ _ _ _ _ (.Ptr .ReadRegWResult) r _).2 ⟨e, hr, rfl⟩),
      serverResult_impl_mem _ _ _ _ _ _ args hp hd⟩
  · intro cmd r e hi hr
    rw [server_Scan_eq]
    exact ⟨serverResult_of_result_rejected _ _ _ _ _ _ () r _ rfl rfl hi
        ((resultCheck_snd_eq_some _ _ _ _ _ .Int64Slice r _).2 ⟨e, hr, rfl⟩),
      serverResult_impl_mem _ _ _ _ _ _ () rfl rfl⟩

/-- C5 at the stand-in environment: the inbound args of Read are the empty object, which
is accepted and decodes; the implementation returns a nil result and no error; the nil
result encodes as `null`, which is not an object. -/
theorem server_invalid_result_witness :
    (¬ ∃ e, Rejects demoDeps demoValidators.ReadArgs
        (⟨"I2C.Read", "\x7b\x7d"⟩ : Command String).Args e) ∧
      DecodesTo demoDeps (⟨"I2C.Read", "\x7b\x7d"⟩ : Command String).Args .ReadArgs
        (⟨none, none⟩ : ReadArgs) ⟨none, none⟩ ∧
      RejectsResult demoDeps demoValidators.ReadResult (.Ptr .ReadResult) none
        (.external "not an object") ∧
      (_Server.Read demoDeps demoValidators demoServer demoCtx "peer"
          ⟨"I2C.Read", "\x7b\x7d"⟩).out =
        .returned (none, some (.Annotatef (.external "not an object")
          "server generated invalid responce for Read")) ∧
      Event.Impl "Read" demoCtx (some ⟨.Ptr .ReadArgs, some ⟨none, none⟩⟩) ∈
        (_Server.Read demoDeps demoValidators demoServer demoCtx "peer"
          ⟨"I2C.Read", "\x7b\x7d"⟩).trace :=
  have hn : ¬ ∃ e, Rejects demoDeps demoValidators.ReadArgs
      (⟨"I2C.Read", "\x7b\x7d"⟩ : Command String).Args e :=
    (argsCheck_snd_eq_none demoDeps demoValidators.ReadArgs .ReadArgs _ "" "" "").1 rfl
  have hd : DecodesTo demoDeps (⟨"I2C.Read", "\x7b\x7d"⟩ : Command String).Args .ReadArgs
      (⟨none, none⟩ : ReadArgs) ⟨none, none⟩ := Or.inr ⟨by decide, rfl⟩
  have h := (server_invalid_result demoDeps demoValidators demoServer demoCtx "peer").1
    ⟨"I2C.Read", "\x7b\x7d"⟩ ⟨none, none⟩ none (.external "not an object") hn hd rfl
    ⟨"null", .Null, rfl, rfl, rfl⟩
  ⟨hn, hd, ⟨"null", .Null, rfl, rfl, rfl⟩, h.1, h.2⟩

/-- C6: a client method without a result (Write, WriteRegB) returns a nil error exactly
when the args validation did not reject the request and the transport answered with a
response, no error and status 0.  The run is the same, trace and outcome, against any
transport whose answer differs at most in the payload of the response; it never decodes,
consults no validator but the args validator of the method and encodes no message but
the args. -/
theorem client_no_result_success {Raw : Type} (D : Deps Raw) (V : _validators)
    (c : _Client Raw) (ctx : Context) :
    (∀ args,
      ((_Client.Write D V c ctx args).out = .returned none ↔
        (¬ ∃ e, Rejects D V.WriteArgs (D.DelayMarshaling (.Ptr .WriteArgs) args) e) ∧
          ∃ resp, c.i.Call ctx c.addr ⟨"I2C.Write", D.DelayMarshaling (.Ptr .WriteArgs) args⟩ =
            (some resp, none) ∧ resp.Status = 0) ∧
      (∀ c2 : _Client Raw, c2.addr = c.addr →
        SameUpToPayload
          (c2.i.Call ctx c.addr ⟨"I2C.Write", D.DelayMarshaling (.Ptr .WriteArgs) args⟩)
          (c.i.Call ctx c.addr ⟨"I2C.Write", D.DelayMarshaling (.Ptr .WriteArgs) args⟩) →
        _Client.Write D V c2 ctx args = _Client.Write D V c ctx args) ∧
      (∀ ev ∈ (_Client.Write D V c ctx args).trace, ev.isUnmarshalInto = false) ∧
      (∀ w v, Event.Validate w v ∈ (_Client.Write D V c ctx args).trace → w = .WriteArgs) ∧
      ∀ m, Event.MarshalJSON m ∈ (_Client.Write D V c ctx args).trace →
        m = D.DelayMarshaling (.Ptr .WriteArgs) args) ∧
    (∀ args,
      ((_Client.WriteRegB D V c ctx args).out = .returned none ↔
        (¬ ∃ e, Rejects D V.WriteRegBArgs (D.DelayMarshaling (.Ptr .WriteRegBArgs) args) e) ∧
          ∃ resp, c.i.Call ctx c.addr ⟨"I2C.WriteRegB", D.DelayMarshaling (.Ptr .WriteRegBArgs) args⟩ =
            (some resp, none) ∧ resp.Status = 0) ∧
      (∀ c2 : _Client Raw, c2.addr = c.addr →
        SameUpToPayload
          (c2.i.Call ctx c.addr ⟨"I2C.WriteRegB", D.DelayMarshaling (.Ptr .WriteRegBArgs) args⟩)
          (c.i.Call ctx c.addr ⟨"I2C.WriteRegB", D.DelayMarshaling (.Ptr .WriteRegBArgs) args⟩) →
        _Client.WriteRegB D V c2 ctx args = _Client.WriteRegB D V c ctx args) ∧
      (∀ ev ∈ (_Client.WriteRegB D V c ctx args).trace, ev.isUnmarshalInto = false) ∧
      (∀ w v, Event.Validate w v ∈ (_Client.WriteRegB D V c ctx args).trace → w = .WriteRegBArgs) ∧
      ∀ m, Event.MarshalJSON m ∈ (_Client.WriteRegB D V c ctx args).trace →
        m = D.DelayMarshaling (.Ptr .WriteRegBArgs) args) := by
  refine ⟨?_, ?_⟩ <;> intro args
  · have h := clientNoResult_success D V.WriteArgs .WriteArgs
      (D.DelayMarshaling (.Ptr .WriteArgs) args)
      "Failed to parse just serialized JSON value %q: %+v"
      "Sending invalid args for Write: %+v" "invalid args for Write" c ctx
      ⟨"I2C.Write", D.DelayMarshaling (.Ptr .WriteArgs) args⟩
    refine ⟨?_, ?_, ?_, ?_, ?_⟩
    · rw [client_Write_eq]
      exact h.1
    · intro c2 ha hs
      rw [client_Write_eq, client_Write_eq]
      exact h.2.1 c2 ha hs
    · rw [client_Write_eq]
      exact h.2.2.1
    · rw [client_Write_eq]
      exact h.2.2.2.1
    · rw [client_Write_eq]
      exact h.2.2.2.2
  · have h := clientNoResult_success D V.WriteRegBArgs .WriteRegBArgs
      (D.DelayMarshaling (.Ptr .WriteRegBArgs) args)
      "Failed to parse just serialized JSON value %q: %+v"
      "Sending invalid args for WriteRegB: %+v" "invalid args for WriteRegB" c ctx
      ⟨"I2C.WriteRegB", D.DelayMarshaling (.Ptr .WriteRegBArgs) args⟩
    refine ⟨?_, ?_, ?_, ?_, ?_⟩
    · rw [client_WriteRegB_eq]
      exact h.1
    · intro c2 ha hs
      rw [client_WriteRegB_eq, client_WriteRegB_eq]
      exact h.2.1 c2 ha hs
    · rw [client_WriteRegB_eq]
      exact h.2.2.1
    · rw [client_WriteRegB_eq]
      exact h.2.2.2.1
    · rw [client_WriteRegB_eq]
      exact h.2.2.2.2

/-- C6 at the stand-in environment: a Write whose args are accepted, against a transport
that answers status 0, succeeds; and it succeeds all the same whatever payload the
response carries. -/
theorem client_no_result_success_witness :
    (_Client.Write demoDeps demoValidators (demoClient ⟨0, "", ""⟩) demoCtx
        (some ⟨some 80, some "00"⟩)).out = .returned none ∧
      _Client.Write demoDeps demoValidators (demoClient ⟨0, "", "\"not-an-array\""⟩) demoCtx
          (some ⟨some 80, some "00"⟩) =
        _Client.Write demoDeps demoValidators (demoClient ⟨0, "", ""⟩) demoCtx
          (some ⟨some 80, some "00"⟩) :=
  ⟨((client_no_result_success demoDeps demoValidators (demoClient ⟨0, "", ""⟩) demoCtx).1
      (some ⟨some 80, some "00"⟩)).1.2
      ⟨(argsCheck_snd_eq_none demoDeps demoValidators.WriteArgs .WriteArgs _ "" "" "").1 rfl,
       ⟨0, "", ""⟩, rfl, rfl⟩,
   ((client_no_result_success demoDeps demoValidators (demoClient ⟨0, "", ""⟩) demoCtx).1
      (some ⟨some 80, some "00"⟩)).2.1 (demoClient ⟨0, "", "\"not-an-array\""⟩) rfl
      ⟨rfl, rfl⟩⟩

/-- C7: when encoding the args fails, or re-parsing the encoded bytes fails, a client
method with args (Read, ReadRegB, ReadRegW, Write, WriteRegB) does not consult its args
validator and still calls the transport with the command; its outcome is then the same
as that of any other such run, under any args validator, to which the transport gives the
same answer. -/
theorem client_encoding_failure_skips_validation {Raw : Type} (D : Deps Raw)
    (V : _validators) (c : _Client Raw) (ctx : Context) :
    (∀ args, EncodingFails D (D.DelayMarshaling (.Ptr .ReadArgs) args) →
      (∀ v, Event.Validate .ReadArgs v ∉ (_Client.Read D V c ctx args).trace) ∧
      Event.Call ctx c.addr ⟨"I2C.Read", D.DelayMarshaling (.Ptr .ReadArgs) args⟩ ∈
        (_Client.Read D V c ctx args).trace ∧
      ∀ (V2 : _validators) (c2 : _Client Raw) (ctx2 : Context) (args2 : Option ReadArgs),
        V2.ReadResult = V.ReadResult →
        EncodingFails D (D.DelayMarshaling (.Ptr .ReadArgs) args2) →
        c2.i.Call ctx2 c2.addr ⟨"I2C.Read", D.DelayMarshaling (.Ptr .ReadArgs) args2⟩ =
          c.i.Call ctx c.addr ⟨"I2C.Read", D.DelayMarshaling (.Ptr .ReadArgs) args⟩ →
        (_Client.Read D V2 c2 ctx2 args2).out = (_Client.Read D V c ctx args).out) ∧
    (∀ args, EncodingFails D (D.DelayMarshaling (.Ptr .ReadRegBArgs) args) →
      (∀ v, Event.Validate .ReadRegBArgs v ∉ (_Client.ReadRegB D V c ctx args).trace) ∧
      Event.Call ctx c.addr ⟨"I2C.ReadRegB", D.DelayMarshaling (.Ptr .ReadRegBArgs) args⟩ ∈
        (_Client.ReadRegB D V c ctx args).trace ∧
      ∀ (V2 : _validators) (c2 : _Client Raw) (ctx2 : Context) (args2 : Option ReadRegBArgs),
        V2.ReadRegBResult = V.ReadRegBResult →
        EncodingFails D (D.DelayMarshaling (.Ptr .ReadRegBArgs) args2) →
        c2.i.Call ctx2 c2.addr ⟨"I2C.ReadRegB", D.DelayMarshaling (.Ptr .ReadRegBArgs) args2⟩ =
          c.i.Call ctx c.addr ⟨"I2C.ReadRegB", D.DelayMarshaling (.Ptr .ReadRegBArgs) args⟩ →
        (_Client.ReadRegB D V2 c2 ctx2 args2).out = (_Client.ReadRegB D V c ctx args).out) ∧
    (∀ args, EncodingFails D (D.DelayMarshaling (.Ptr .ReadRegWArgs) args) →
      (∀ v, Event.Validate .ReadRegWArgs v ∉ (_Client.ReadRegW D V c ctx args).trace) ∧
      Event.Call ctx c.addr ⟨"I2C.ReadRegW", D.DelayMarshaling (.Ptr .ReadRegWArgs) args⟩ ∈
        (_Client.ReadRegW D V c ctx args).trace ∧
      ∀ (V2 : _validators) (c2 : _Client Raw) (ctx2 : Context) (args2 : Option ReadRegWArgs),
        V2.ReadRegWResult = V.ReadRegWResult →
        EncodingFails D (D.DelayMarshaling (.Ptr .ReadRegWArgs) args2) →
        c2.i.Call ctx2 c2.addr ⟨"I2C.ReadRegW", D.DelayMarshaling (.Ptr .ReadRegWArgs) args2⟩ =
          c.i.Call ctx c.addr ⟨"I2C.ReadRegW", D.DelayMarshaling (.Ptr .ReadRegWArgs) args⟩ →
        (_Client.ReadRegW D V2 c2 ctx2 args2).out = (_Client.ReadRegW D V c ctx args).out) ∧
    (∀ args, EncodingFails D (D.DelayMarshaling (.Ptr .WriteArgs) args) →
      (∀ ev ∈ (_Client.Write D V c ctx args).trace, ev.isValidate = false) ∧
      Event.Call ctx c.addr ⟨"I2C.Write", D.DelayMarshaling (.Ptr .WriteArgs) args⟩ ∈
        (_Client.Write D V c ctx args).trace ∧
      ∀ (V2 : _validators) (c2 : _Client Raw) (ctx2 : Context) (args2 : Option WriteArgs),
        EncodingFails D (D.DelayMarshaling (.Ptr .WriteArgs) args2) →
        c2.i.Call ctx2 c2.addr ⟨"I2C.Write", D.DelayMarshaling (.Ptr .WriteArgs) args2⟩ =
          c.i.Call ctx c.addr ⟨"I2C.Write", D.DelayMarshaling (.Ptr .WriteArgs) args⟩ →
        (_Client.Write D V2 c2 ctx2 args2).out = (_Client.Write D V c ctx args).out) ∧
    (∀ args, EncodingFails D (D.DelayMarshaling (.Ptr .WriteRegBArgs) args) →
      (∀ ev ∈ (_Client.WriteRegB D V c ctx args).trace, ev.isValidate = false) ∧
      Event.Call ctx c.addr ⟨"I2C.WriteRegB", D.DelayMarshaling (.Ptr .WriteRegBArgs) args⟩ ∈
        (_Client.WriteRegB D V c ctx args).trace ∧
      ∀ (V2 : _validators) (c2 : _Client Raw) (ctx2 : Context) (args2 : Option WriteRegBArgs),
        EncodingFails D (D.DelayMarshaling (.Ptr .WriteRegBArgs) args2) →
        c2.i.Call ctx2 c2.addr ⟨"I2C.WriteRegB", D.DelayMarshaling (.Ptr .WriteRegBArgs) args2⟩ =
          c.i.Call ctx c.addr ⟨"I2C.WriteRegB", D.DelayMarshaling (.Ptr .WriteRegBArgs) args⟩ →
        (_Client.WriteRegB D V2 c2 ctx2 args2).out = (_Client.WriteRegB D V c ctx args).out) := by
  refine ⟨?_, ?_, ?_, ?_, ?_⟩
  · intro args h
    have key := clientResult_encodingFails D V.ReadArgs .ReadArgs
      (D.DelayMarshaling (.Ptr .ReadArgs) args)
      "Failed to parse just serialized JSON value %q: %+v"
      "Sending invalid args for Read: %+v" "invalid args for Read" c ctx
      ⟨"I2C.Read", D.DelayMarshaling (.Ptr .ReadArgs) args⟩ V.ReadResult .ReadResult
      "Got invalid result for Read: %+v" "invalid response for Read" (.Ptr .ReadResult)
      (fun m => D.UnmarshalInto m (.Ptr .ReadResult)) (by decide) h
    refine ⟨?_, ?_, ?_⟩
    · rw [client_Read_eq]
      exact key.1
    · rw [client_Read_eq]
      exact key.2
    · intro V2 c2 ctx2 args2 hV h2 hc
      rw [client_Read_eq, client_Read_eq, hV]
      exact clientResult_out_congr c c2 ctx ctx2 _ _ _ _ _ _ _
        (argsCheck_of_encodingFails _ _ _ _ _ _ _ h).1
        (argsCheck_of_encodingFails _ _ _ _ _ _ _ h2).1 hc
  · intro args h
    have key := clientResult_encodingFails D V.ReadRegBArgs .ReadRegBArgs
      (D.DelayMarshaling (.Ptr .ReadRegBArgs) args)
      "Failed to parse just serialized JSON value %q: %+v"
      "Sending invalid args for ReadRegB: %+v" "invalid args for ReadRegB" c ctx
      ⟨"I2C.ReadRegB", D.DelayMarshaling (.Ptr .ReadRegBArgs) args⟩ V.ReadRegBResult .ReadRegBResult
      "Got invalid result for ReadRegB: %+v" "invalid response for ReadRegB" (.Ptr .ReadRegBResult)
      (fun m => D.UnmarshalInto m (.Ptr .ReadRegBResult)) (by decide) h
    refine ⟨?_, ?_, ?_⟩
    · rw [client_ReadRegB_eq]
      exact key.1
    · rw [client_ReadRegB_eq]
      exact key.2
    · intro V2 c2 ctx2 args2 hV h2 hc
      rw [client_ReadRegB_eq, client_ReadRegB_eq, hV]
      exact clientResult_out_congr c c2 ctx ctx2 _ _ _ _ _ _ _
        (argsCheck_of_encodingFails _ _ _ _ _ _ _ h).1
        (argsCheck_of_encodingFails _ _ _ _ _ _ _ h2).1 hc
  · intro args h
    have key := clientResult_encodingFails D V.ReadRegWArgs .ReadRegWArgs
      (D.DelayMarshaling (.Ptr .ReadRegWArgs) args)
      "Failed to parse just serialized JSON value %q: %+v"
      "Sending invalid args for ReadRegW: %+v" "invalid args for ReadRegW" c ctx
      ⟨"I2C.ReadRegW", D.DelayMarshaling (.Ptr .ReadRegWArgs) args⟩ V.ReadRegWResult .ReadRegWResult
      "Got invalid result for ReadRegW: %+v" "invalid response for ReadRegW" (.Ptr .ReadRegWResult)
      (fun m => D.UnmarshalInto m (.Ptr .ReadRegWResult)) (by decide) h
    refine ⟨?_, ?_, ?_⟩
    · rw [client_ReadRegW_eq]
      exact key.1
    · rw [client_ReadRegW_eq]
      exact key.2
    · intro V2 c2 ctx2 args2 hV h2 hc
      rw [client_ReadRegW_eq, client_ReadRegW_eq, hV]
      exact clientResult_out_congr c c2 ctx ctx2 _ _ _ _ _ _ _
        (argsCheck_of_encodingFails _ _ _ _ _ _ _ h).1
        (argsCheck_of_encodingFails _ _ _ _ _ _ _ h2).1 hc
  · intro args h
    have key := clientNoResult_encodingFails D V.WriteArgs .WriteArgs
      (D.DelayMarshaling (.Ptr .WriteArgs) args)
      "Failed to parse just serialized JSON value %q: %+v"
      "Sending invalid args for Write: %+v" "invalid args for Write" c ctx
      ⟨"I2C.Write", D.DelayMarshaling (.Ptr .WriteArgs) args⟩ h
    refine ⟨?_, ?_, ?_⟩
    · rw [client_Write_eq]
      exact key.1
    · rw [client_Write_eq]
      exact key.2
    · intro V2 c2 ctx2 args2 h2 hc
      rw [client_Write_eq, client_Write_eq]
      exact clientNoResult_out_congr c c2 ctx ctx2 _ _ _ _
        (argsCheck_of_encodingFails _ _ _ _ _ _ _ h).1
        (argsCheck_of_encodingFails _ _ _ _ _ _ _ h2).1 hc
  · intro args h
    have key := clientNoResult_encodingFails D V.WriteRegBArgs .WriteRegBArgs
      (D.DelayMarshaling (.Ptr .WriteRegBArgs) args)
      "Failed to parse just serialized JSON value %q: %+v"
      "Sending invalid args for WriteRegB: %+v" "invalid args for WriteRegB" c ctx
      ⟨"I2C.WriteRegB", D.DelayMarshaling (.Ptr .WriteRegBArgs) args⟩ h
    refine ⟨?_, ?_, ?_⟩
    · rw [client_WriteRegB_eq]
      exact key.1
    · rw [client_WriteRegB_eq]
      exact key.2
    · intro V2 c2 ctx2 args2 h2 hc
      rw [client_WriteRegB_eq, client_WriteRegB_eq]
      exact clientNoResult_out_congr c c2 ctx ctx2 _ _ _ _
        (argsCheck_of_encodingFails _ _ _ _ _ _ _ h).1
        (argsCheck_of_encodingFails _ _ _ _ _ _ _ h2).1 hc

/-- C7 at the stand-in environment whose encoder fails: Write makes no validation and
calls the transport. -/
theorem client_encoding_failure_skips_validation_witness :
    EncodingFails demoBrokenDeps
        (demoBrokenDeps.DelayMarshaling (.Ptr .WriteArgs) (some ⟨some 80, some "00"⟩)) ∧
      (∀ ev ∈ (_Client.Write demoBrokenDeps demoValidators (demoClient ⟨0, "", ""⟩) demoCtx
          (some ⟨some 80, some "00"⟩)).trace, ev.isValidate = false) ∧
      Event.Call demoCtx "device" ⟨"I2C.Write", "\x7b\x7d"⟩ ∈
        (_Client.Write demoBrokenDeps demoValidators (demoClient ⟨0, "", ""⟩) demoCtx
          (some ⟨some 80, some "00"⟩)).trace :=
  have h := (client_encoding_failure_skips_validation demoBrokenDeps demoValidators
    (demoClient ⟨0, "", ""⟩) demoCtx).2.2.2.1 (some ⟨some 80, some "00"⟩)
    (Or.inl ⟨.external "cannot marshal", rfl⟩)
  ⟨Or.inl ⟨.external "cannot marshal", rfl⟩, h.1, h.2.1⟩

/-- C8: a client method with a result (Read, ReadRegB, ReadRegW, Scan) returns the value
`r` and a nil error exactly when the args validation did not reject the request, the
transport answered with a response, no error and status 0, the result validator did not
reject the re-parsed payload, and decoding the payload succeeded with `r`; and when all
of this holds but for the decoding, which fails, the error is "unmarshaling response"
wrapped around the decoding error. -/
theorem client_result_success {Raw : Type} [Inhabited Raw] (D : Deps Raw) (V : _validators)
    (c : _Client Raw) (ctx : Context) :
    (∀ args,
      (∀ r, (_Client.Read D V c ctx args).out = .returned (r, none) ↔
        (¬ ∃ e, Rejects D V.ReadArgs (D.DelayMarshaling (.Ptr .ReadArgs) args) e) ∧
          ∃ resp, c.i.Call ctx c.addr ⟨"I2C.Read", D.DelayMarshaling (.Ptr .ReadArgs) args⟩ =
              (some resp, none) ∧ resp.Status = 0 ∧
            (¬ ∃ e, Rejects D V.ReadResult resp.Response e) ∧
            D.UnmarshalInto resp.Response (.Ptr .ReadResult) = .ok r) ∧
      ∀ resp err, (¬ ∃ e, Rejects D V.ReadArgs (D.DelayMarshaling (.Ptr .ReadArgs) args) e) →
        c.i.Call ctx c.addr ⟨"I2C.Read", D.DelayMarshaling (.Ptr .ReadArgs) args⟩ = (some resp, none) →
        resp.Status = 0 → (¬ ∃ e, Rejects D V.ReadResult resp.Response e) →
        D.UnmarshalInto resp.Response (.Ptr .ReadResult) = .error err →
        (_Client.Read D V c ctx args).out =
          .returned (none, some (.Annotatef err "unmarshaling response"))) ∧
    (∀ args,
      (∀ r, (_Client.ReadRegB D V c ctx args).out = .returned (r, none) ↔
        (¬ ∃ e, Rejects D V.ReadRegBArgs (D.DelayMarshaling (.Ptr .ReadRegBArgs) args) e) ∧
          ∃ resp, c.i.Call ctx c.addr ⟨"I2C.ReadRegB", D.DelayMarshaling (.Ptr .ReadRegBArgs) args⟩ =
              (some resp, none) ∧ resp.Status = 0 ∧
            (¬ ∃ e, Rejects D V.ReadRegBResult resp.Response e) ∧
            D.UnmarshalInto resp.Response (.Ptr .ReadRegBResult) = .ok r) ∧
      ∀ resp err, (¬ ∃ e, Rejects D V.ReadRegBArgs (D.DelayMarshaling (.Ptr .ReadRegBArgs) args) e) →
        c.i.Call ctx c.addr ⟨"I2C.ReadRegB", D.DelayMarshaling (.Ptr .ReadRegBArgs) args⟩ = (some resp, none) →
        resp.Status = 0 → (¬ ∃ e, Rejects D V.ReadRegBResult resp.Response e) →
        D.UnmarshalInto resp.Response (.Ptr .ReadRegBResult) = .error err →
        (_Client.ReadRegB D V c ctx args).out =
          .returned (none, some (.Annotatef err "unmarshaling response"))) ∧
    (∀ args,
      (∀ r, (_Client.ReadRegW D V c ctx args).out = .returned (r, none) ↔
        (¬ ∃ e, Rejects D V.ReadRegWArgs (D.DelayMarshaling (.Ptr .ReadRegWArgs) args) e) ∧
          ∃ resp, c.i.Call ctx c.addr ⟨"I2C.ReadRegW", D.DelayMarshaling (.Ptr .ReadRegWArgs) args⟩ =
              (some resp, none) ∧ resp.Status = 0 ∧
            (¬ ∃ e, Rejects D V.ReadRegWResult resp.Response e) ∧
            D.UnmarshalInto resp.Response (.Ptr .ReadRegWResult) = .ok r) ∧
      ∀ resp err, (¬ ∃ e, Rejects D V.ReadRegWArgs (D.DelayMarshaling (.Ptr .ReadRegWArgs) args) e) →
        c.i.Call ctx c.addr ⟨"I2C.ReadRegW", D.DelayMarshaling (.Ptr .ReadRegWArgs) args⟩ = (some resp, none) →
        resp.Status = 0 → (¬ ∃ e, Rejects D V.ReadRegWResult resp.Response e) →
        D.UnmarshalInto resp.Response (.Ptr .ReadRegWResult) = .error err →
        (_Client.ReadRegW D V c ctx args).out =
          .returned (none, some (.Annotatef err "unmarshaling response"))) ∧
    ((∀ r, (_Client.Scan D V c ctx).out = .returned (r, none) ↔
        ∃ resp, c.i.Call ctx c.addr ⟨"I2C.Scan", default⟩ = (some resp, none) ∧
          resp.Status = 0 ∧ (¬ ∃ e, Rejects D V.ScanResult resp.Response e) ∧
          D.UnmarshalInto resp.Response .Int64Slice = .ok r) ∧
      ∀ resp err, c.i.Call ctx c.addr ⟨"I2C.Scan", default⟩ = (some resp, none) →
        resp.Status = 0 → (¬ ∃ e, Rejects D V.ScanResult resp.Response e) →
        D.UnmarshalInto resp.Response .Int64Slice = .error err →
        (_Client.Scan D V c ctx).out =
          .returned (none, some (.Annotatef err "unmarshaling response"))) := by
  refine ⟨?_, ?_, ?_, ?_⟩
  · intro args
    refine ⟨?_, ?_⟩
    · intro r
      rw [client_Read_eq, clientResult_out_eq_ok_iff, argsCheck_snd_eq_none]
      simp only [responseCheck_snd_eq_none]
    · intro resp err ha hc hs hr hd
      rw [client_Read_eq]
      exact clientResult_of_decode_error c ctx _ _ _ _ _ resp err
        ((argsCheck_snd_eq_none _ _ _ _ _ _ _).2 ha) hc hs
        ((responseCheck_snd_eq_none _ _ _ _ _ _).2 hr) hd
  · intro args
    refine ⟨?_, ?_⟩
    · intro r
      rw [client_ReadRegB_eq, clientResult_out_eq_ok_iff, argsCheck_snd_eq_none]
      simp only [responseCheck_snd_eq_none]
    · intro resp err ha hc hs hr hd
      rw [client_ReadRegB_eq]
      exact clientResult_of_decode_error c ctx _ _ _ _ _ resp err
        ((argsCheck_snd_eq_none _ _ _ _ _ _ _).2 ha) hc hs
        ((responseCheck_snd_eq_none _ _ _ _ _ _).2 hr) hd
  · intro args
    refine ⟨?_, ?_⟩
    · intro r
      rw [client_ReadRegW_eq, clientResult_out_eq_ok_iff, argsCheck_snd_eq_none]
      simp only [responseCheck_snd_eq_none]
    · intro resp err ha hc hs hr hd
      rw [client_ReadRegW_eq]
      exact clientResult_of_decode_error c ctx _ _ _ _ _ resp err
        ((argsCheck_snd_eq_none _ _ _ _ _ _ _).2 ha) hc hs
        ((responseCheck_snd_eq_none _ _ _ _ _ _).2 hr) hd
  · refine ⟨?_, ?_⟩
    · intro r
      rw [client_Scan_eq, clientResult_out_eq_ok_iff]
      simp only [responseCheck_snd_eq_none, true_and]
    · intro resp err hc hs hr hd
      rw [client_Scan_eq]
      exact clientResult_of_decode_error c ctx _ _ _ _ _ resp err rfl hc hs
        ((responseCheck_snd_eq_none _ _ _ _ _ _).2 hr) hd

/-- C8 at the scenario of the specification: Scan against a transport that answers
status 0 with the payload `[80,96]` returns the two addresses; with the payload `[]`,
which the stand-in decoder does not know, it returns the decoding error. -/
theorem client_result_success_witness :
    (_Client.Scan demoDeps demoValidators (demoClient ⟨0, "", "[80,96]"⟩) demoCtx).out =
        .returned (some [80, 96], none) ∧
      (_Client.Scan demoDeps demoValidators (demoClient ⟨0, "", "[]"⟩) demoCtx).out =
        .returned (none, some (.Annotatef (.external "cannot unmarshal into []int64")
          "unmarshaling response")) :=
  ⟨((client_result_success demoDeps demoValidators (demoClient ⟨0, "", "[80,96]"⟩)
      demoCtx).2.2.2.1 (some [80, 96])).2
      ⟨⟨0, "", "[80,96]"⟩, rfl, rfl,
       (responseCheck_snd_eq_none demoDeps demoValidators.ScanResult .ScanResult "" ""
         "[80,96]").1 rfl, rfl⟩,
   (client_result_success demoDeps demoValidators (demoClient ⟨0, "", "[]"⟩)
      demoCtx).2.2.2.2 ⟨0, "", "[]"⟩ (.external "cannot unmarshal into []int64") rfl rfl
      ((responseCheck_snd_eq_none demoDeps demoValidators.ScanResult .ScanResult "" ""
         "[]").1 rfl) rfl⟩

/-- C9: for a service definition that is an object whose `methods` is an object, whose
methods are objects and whose `args`, when present, are objects, the patch-up of
`initValidators` completes, and for every method of the definition: when the method has
args, the args schema handed to the validator constructor is the object with `properties`
the args map in which every bare string `s` is replaced by `type: s` and every other
entry is unchanged, with `type` "object", and with `required` present exactly when the
method declares `required_args` and then equal to it; the result schema is the result of
the method with a bare string `s` replaced by `type: s`.  No entry of the args and no
result is a bare string afterwards, whether or not the method has args. -/
theorem patchUp_normalizes (sv ms : List (Key × UclValue))
    (hm : Find sv "methods" = .Object ms)
    (hobj : ∀ kv ∈ ms, ∃ m, kv.2 = .Object m ∧
      (Find m "args" = .Nil ∨ ∃ a, Find m "args" = .Object a)) :
    ∃ service, patchUp (.Object sv) = some service ∧
      ∀ name m, Find ms name = .Object m →
        (∀ a, Find m "args" = .Object a →
          argsSchema service name = some (.Object (
            [(⟨"properties"⟩, .Object (a.map fun kv => (kv.1, wrapShorthand kv.2))),
             (⟨"type"⟩, .String "object")] ++
            if (Lookup m "required_args").2 then [(⟨"required"⟩, (Lookup m "required_args").1)]
            else [])) ∧
          ∀ kv ∈ a.map (fun kv => (kv.1, wrapShorthand kv.2)), isShorthand kv.2 = false) ∧
        resultSchema service name = some (wrapShorthand (Find m "result")) ∧
        isShorthand (wrapShorthand (Find m "result")) = false := by
  obtain ⟨ms1, hms1, hfind⟩ := patchMethods_spec ms hobj
  refine ⟨.Object (update sv "methods" (.Object ms1)), ?_, ?_⟩
  · simp only [patchUp, hm, hms1]
  · intro name m hname
    obtain ⟨m1, hm1, hp⟩ := hfind name m hname
    have hmeth := methodOf_patched sv ms ms1 name m1 hm hm1
    have hargs : Find m "args" = .Nil ∨ ∃ a, Find m "args" = .Object a := by
      have hmem : ∃ kv ∈ ms, kv.2 = .Object m := by
        clear hfind hms1 hm1 hmeth hobj hm
        induction ms with
        | nil => cases hname
        | cons kv rest ih =>
          unfold Find at hname
          rw [Lookup_cons] at hname
          by_cases hk : kv.1.Value = name
          · simp only [hk, if_true] at hname
            exact ⟨kv, List.mem_cons_self _ _, hname⟩
          · simp only [hk, if_false] at hname
            obtain ⟨kv2, hkv2, h2⟩ := ih hname
            exact ⟨kv2, List.mem_cons_of_mem _ hkv2, h2⟩
      obtain ⟨kv, hkv, hkv2⟩ := hmem
      obtain ⟨m0, h0, hargs0⟩ := hobj kv hkv
      rw [hkv2] at h0
      cases h0
      exact hargs0
    obtain ⟨m2, hp2, hres, hargs2, hreq⟩ := patchMethod_spec m hargs
    rw [hp] at hp2
    cases hp2
    refine ⟨?_, ?_, isShorthand_wrapShorthand _⟩
    · intro a ha
      refine ⟨?_, ?_⟩
      · simp only [argsSchema, hmeth, hargs2 a ha, hreq]
        rcases hl : Lookup m "required_args" with ⟨req, _ | _⟩ <;> simp
      · intro kv hkv
        obtain ⟨kv0, -, rfl⟩ := List.mem_map.1 hkv
        exact isShorthand_wrapShorthand _
    · simp only [resultSchema, hmeth, hres]

/-- C9 at a small definition: `Get` has the shorthand result "integer" and no args, `Put`
has args with the shorthand entry "string" and declares its required args. -/
theorem patchUp_normalizes_witness :
    Find demoDefinition "methods" = .Object demoMethods ∧
      ∃ service, patchUp (.Object demoDefinition) = some service ∧
        resultSchema service "Get" = some (.Object [(⟨"type"⟩, .String "integer")]) ∧
        argsSchema service "Put" = some (.Object [
          (⟨"properties"⟩, .Object [
            (⟨"key"⟩, .Object [(⟨"type"⟩, .String "string")]),
            (⟨"value"⟩, .Object [(⟨"type"⟩, .String "integer")])]),
          (⟨"type"⟩, .String "object"),
          (⟨"required"⟩, .Array [.String "key"])]) := by
  refine ⟨rfl, ?_⟩
  obtain ⟨service, h1, h2⟩ := patchUp_normalizes demoDefinition demoMethods rfl (by
    intro kv hkv
    simp only [demoMethods, List.mem_cons, List.mem_singleton, List.not_mem_nil, or_false] at hkv
    rcases hkv with rfl | rfl
    · exact ⟨_, rfl, Or.inl rfl⟩
    · exact ⟨_, rfl, Or.inr ⟨_, rfl⟩⟩)
  exact ⟨service, h1, (h2 "Get" _ rfl).2.1, ((h2 "Put" _ rfl).1 _ rfl).1⟩

/-- C10: the client method Scan first of all calls the transport, with the command
"I2C.Scan" whose args are the zero value, and consults no validator but the result
validator of Scan.  The dispatcher method Scan runs the same, trace and outcome,
whatever the inbound command and its source are; it first of all calls the
implementation, never encodes or decodes a raw message, consults no validator but the
result validator of Scan, and its outcome is the same for any implementation that
returns the same value. -/
theorem scan_takes_no_args {Raw : Type} [Inhabited Raw] (D : Deps Raw) (V : _validators)
    (c : _Client Raw) (s : _Server) (ctx : Context) :
    ((_Client.Scan D V c ctx).trace.head? = some (.Call ctx c.addr ⟨"I2C.Scan", default⟩) ∧
      ∀ w v, Event.Validate w v ∈ (_Client.Scan D V c ctx).trace → w = .ScanResult) ∧
    (∀ (src src2 : String) (cmd cmd2 : Command Raw),
      _Server.Scan D V s ctx src cmd = _Server.Scan D V s ctx src2 cmd2) ∧
    (∀ (src : String) (cmd : Command Raw),
      (_Server.Scan D V s ctx src cmd).trace.head? = some (.Impl "Scan" ctx none) ∧
      (∀ ev ∈ (_Server.Scan D V s ctx src cmd).trace,
        ev.isMarshalJSON = false ∧ ev.isUnmarshalInto = false) ∧
      (∀ w v, Event.Validate w v ∈ (_Server.Scan D V s ctx src cmd).trace → w = .ScanResult) ∧
      ∀ (V2 : _validators) (s2 : _Server) (ctx2 : Context) (src2 : String)
        (cmd2 : Command Raw),
        V2.ScanResult = V.ScanResult → s2.impl.Scan ctx2 = s.impl.Scan ctx →
        (_Server.Scan D V2 s2 ctx2 src2 cmd2).out = (_Server.Scan D V s ctx src cmd).out) := by
  refine ⟨⟨?_, ?_⟩, ?_, ?_⟩
  · rw [client_Scan_eq]
    exact clientScan_head c ctx _ _ _ _
  · intro w v hv
    rw [client_Scan_eq] at hv
    rcases clientResult_trace_mem c ctx _ _ _ _ _ _ hv with h | h | ⟨m, h⟩ | ⟨m, h⟩
    · cases h
    · cases h
    · exact responseCheck_validate D _ _ _ _ m w v h
    · cases h
  · intro src src2 cmd cmd2
    rfl
  · intro src cmd
    rw [server_Scan_eq]
    have key := serverScan_trace (fun _ => s.impl.Scan ctx) (Event.Impl "Scan" ctx none)
      (resultCheck D V.ScanResult .ScanResult "Returned invalid response for Scan: %+v"
        "server generated invalid responce for Scan" .Int64Slice)
      (fun r => (⟨.Int64Slice, r⟩ : Iface))
    refine ⟨key.1, ?_, ?_, ?_⟩
    · intro ev hev
      rcases key.2 ev hev with h | ⟨r, h⟩
      · rw [h]
        exact ⟨rfl, rfl⟩
      · have := resultCheck_trace D _ _ _ _ .Int64Slice r ev h
        exact ⟨this.2.2.2, this.2.1⟩
    · intro w v hv
      rcases key.2 _ hv with h | ⟨r, h⟩
      · cases h
      · exact resultCheck_validate D _ _ _ _ .Int64Slice r w v h
    · intro V2 s2 ctx2 src2 cmd2 hV hi
      rw [server_Scan_eq]
      unfold serverResult
      rw [hV, hi]
      rcases s.impl.Scan ctx with ⟨r, _ | err⟩
      · rcases hr : (resultCheck D V.ScanResult .ScanResult
          "Returned invalid response for Scan: %+v"
          "server generated invalid responce for Scan" .Int64Slice r :
            List (Event Raw) × Option Error).2 with _ | rerr <;> simp [hr]
      · simp

/-- C10 at the stand-in environment: the dispatcher runs Scan the same on a command with
an arbitrary payload as on one with an empty payload. -/
theorem scan_takes_no_args_witness :
    (_Server.Scan demoDeps demoValidators demoServer demoCtx "other"
        ⟨"I2C.Scan", "arbitrary bytes"⟩).out =
      (_Server.Scan demoDeps demoValidators demoServer demoCtx "peer" ⟨"I2C.Scan", ""⟩).out :=
  ((scan_takes_no_args demoDeps demoValidators (demoClient ⟨0, "", ""⟩) demoServer
    demoCtx).2.2 "peer" ⟨"I2C.Scan", ""⟩).2.2.2 demoValidators demoServer demoCtx "other"
    ⟨"I2C.Scan", "arbitrary bytes"⟩ rfl rfl

/-! ## The typed structs against the embedded definition -/

theorem fieldsAgree_of_lists (fields : List StructField) (kvs : List (Key × UclValue))
    (hnames : fields.map (fun f => f.json) = kvs.map (fun kv => kv.1.Value))
    (hfields : fields.all (fun f => f.pointer && f.omitempty &&
      (declaredType (Find kvs f.json) == some f.elem.schemaType)) = true) :
    FieldsAgree fields (.Object kvs) := by
  refine ⟨?_, ?_⟩
  · intro n
    simp only [propertyNames]
    rw [hnames]
  · intro f hf
    have := List.all_eq_true.1 hfields f hf
    simp only [Bool.and_eq_true, beq_iff_eq] at this
    exact ⟨this.1.1, this.1.2, this.2⟩

/-- C11: the methods of the interface `Service` are the methods of the embedded service
definition, and for each of them the typed structs agree with the declared schema: the
`json` names of the fields of the args struct are the names of the properties of the
`args` map, the `json` names of the fields of the result struct are the names of the
properties of the `result` schema, every field is a pointer tagged `omitempty`, the type
of every field goes with the declared type (`int64` with "integer", `string` with
"string"), and the `[]int64` of Scan goes with an array of integer; a method without an
args struct declares no `args`, a method without a result declares no `result`. -/
theorem structs_agree_with_definition :
    (∀ n, n ∈ serviceMethods.map (fun sig => sig.name) ↔
      n ∈ propertyNames (property _ServiceDefinition "methods")) ∧
    ∀ sig ∈ serviceMethods, ∃ m, methodOf _ServiceDefinition sig.name = some m ∧
      ArgsAgree m sig.args ∧ ResultAgrees m sig.result := by
  refine ⟨?_, ?_⟩
  · intro n
    have h : serviceMethods.map (fun sig => sig.name) =
        propertyNames (property _ServiceDefinition "methods") := rfl
    rw [h]
  · intro sig hsig
    simp only [serviceMethods, List.mem_cons, List.mem_singleton, List.not_mem_nil,
      or_false] at hsig
    rcases hsig with rfl | rfl | rfl | rfl | rfl | rfl
    · exact ⟨_, rfl, fieldsAgree_of_lists _ _ rfl rfl,
        rfl, fieldsAgree_of_lists _ _ rfl rfl⟩
    · exact ⟨_, rfl, fieldsAgree_of_lists _ _ rfl rfl,
        rfl, fieldsAgree_of_lists _ _ rfl rfl⟩
    · exact ⟨_, rfl, fieldsAgree_of_lists _ _ rfl rfl,
        rfl, fieldsAgree_of_lists _ _ rfl rfl⟩
    · exact ⟨_, rfl, rfl, rfl, rfl⟩
    · exact ⟨_, rfl, fieldsAgree_of_lists _ _ rfl rfl, rfl⟩
    · exact ⟨_, rfl, fieldsAgree_of_lists _ _ rfl rfl, rfl⟩

/-- C11 at the method Read: its args struct and its result struct agree with the
definition. -/
theorem structs_agree_with_definition_witness :
    (⟨"Read", some ReadArgs.decl, .struct ReadResult.decl⟩ : MethodSig) ∈ serviceMethods ∧
      ∃ m, methodOf _ServiceDefinition "Read" = some m ∧
        ArgsAgree m (some ReadArgs.decl) ∧ ResultAgrees m (.struct ReadResult.decl) :=
  ⟨List.mem_cons_self _ _,
   structs_agree_with_definition.2 ⟨"Read", some ReadArgs.decl, .struct ReadResult.decl⟩
     (List.mem_cons_self _ _)⟩

/-! ## Facts about the construction of the validator set -/

theorem mustValidator_eq_some (NewValidator : UclValue → Except Error Validator)
    (schema : Option UclValue) (v : Validator) :
    mustValidator NewValidator schema = some v ↔
      ∃ s, schema = some s ∧ NewValidator s = .ok v := by
  unfold mustValidator
  rcases schema with _ | s
  · simp
  · rcases h : NewValidator s with e | v2
    · simp [h]
    · simp [h]

theorem mustValidator_eq_none_of_error (NewValidator : UclValue → Except Error Validator)
    (schema : Option UclValue) (s : UclValue) (e : Error) (hs : schema = some s)
    (he : NewValidator s = .error e) : mustValidator NewValidator schema = none := by
  subst hs
  simp [mustValidator, he]

theorem patchMethod_some_object (v v1 : UclValue) (h : patchMethod v = some v1) :
    ∃ m m1, v = .Object m ∧ v1 = .Object m1 := by
  unfold patchMethod at h
  split at h
  · rename_i mv
    split at h
    · cases h
      exact ⟨mv, _, rfl, rfl⟩
    · cases h
      exact ⟨mv, _, rfl, rfl⟩
    · cases h
  · cases h

theorem patchMethods_find_back (ms ms1 : List (Key × UclValue))
    (h : patchMethods ms = some ms1) (name : String) (m1 : List (Key × UclValue))
    (hfind : Find ms1 name = .Object m1) : ∃ m, Find ms name = .Object m := by
  induction ms generalizing ms1 with
  | nil =>
    simp only [patchMethods, Option.some.injEq] at h
    subst h
    cases hfind
  | cons kv rest ih =>
    obtain ⟨k, v⟩ := kv
    unfold patchMethods at h
    rcases hv : patchMethod v with _ | v1
    · simp [hv] at h
    · rcases hr : patchMethods rest with _ | rest1
      · simp [hv, hr] at h
      · simp only [hv, hr, Option.some.injEq] at h
        subst h
        obtain ⟨m, m01, rfl, rfl⟩ := patchMethod_some_object v v1 hv
        unfold Find at hfind ⊢
        rw [Lookup_cons] at hfind ⊢
        by_cases hk : k.Value = name
        · simp only [hk, if_true]
          exact ⟨m, rfl⟩
        · simp only [hk, if_false] at hfind ⊢
          exact ih rest1 hr hfind

theorem patchUp_eq_some (service0 service : UclValue) (h : patchUp service0 = some service) :
    ∃ sv ms ms1, service0 = .Object sv ∧ Find sv "methods" = .Object ms ∧
      patchMethods ms = some ms1 ∧ service = .Object (update sv "methods" (.Object ms1)) := by
  unfold patchUp at h
  split at h
  · rename_i sv
    split at h
    · rename_i ms hms
      rcases hp : patchMethods ms with _ | ms1
      · simp [hp] at h
      · simp only [hp, Option.some.injEq] at h
        exact ⟨sv, ms, ms1, rfl, hms, hp, h.symm⟩
    · cases h
  · cases h

theorem methodOf_original (sv ms ms1 : List (Key × UclValue)) (name : String)
    (m1 : List (Key × UclValue)) (hm : Find sv "methods" = .Object ms)
    (hp : patchMethods ms = some ms1)
    (h : methodOf (.Object (update sv "methods" (.Object ms1))) name = some m1) :
    ∃ m, Find ms name = .Object m := by
  have hfound : (Lookup sv "methods").2 = true := by
    by_contra hnot
    have := Lookup_nil_of_not_found sv "methods" (by simpa using hnot)
    unfold Find at hm
    rw [hm] at this
    cases this
  have h2 : Find (update sv "methods" (.Object ms1)) "methods" = .Object ms1 := by
    unfold Find
    rw [Lookup_update, if_pos rfl, hfound]
    rfl
  simp only [methodOf, h2] at h
  split at h
  · rename_i m hm1
    exact patchMethods_find_back ms ms1 hp name m hm1
  · cases h

theorem methodOf_of_argsSchema (service : UclValue) (name : String) (s : UclValue)
    (h : argsSchema service name = some s) : ∃ m, methodOf service name = some m := by
  unfold argsSchema at h
  rcases hm : methodOf service name with _ | m
  · simp [hm] at h
  · exact ⟨m, rfl⟩

theorem methodOf_of_resultSchema (service : UclValue) (name : String) (s : UclValue)
    (h : resultSchema service name = some s) : ∃ m, methodOf service name = some m := by
  unfold resultSchema at h
  rcases hm : methodOf service name with _ | m
  · simp [hm] at h
  · exact ⟨m, rfl⟩

theorem initValidators_eq_some (parsed : Except Error UclValue)
    (NewValidator : UclValue → Except Error Validator) (V : _validators) :
    initValidators parsed NewValidator = some V ↔
      ∃ service0 service, parsed = .ok service0 ∧ patchUp service0 = some service ∧
        (validatorSchemas service).map (mustValidator NewValidator) =
          [some V.ReadArgs, some V.ReadResult, some V.ReadRegBArgs, some V.ReadRegBResult,
           some V.ReadRegWArgs, some V.ReadRegWResult, some V.ScanResult, some V.WriteArgs,
           some V.WriteRegBArgs] := by
  unfold initValidators validatorSchemas
  rcases parsed with e | service0
  · simp
  · rcases hp : patchUp service0 with _ | service
    · simp [hp]
    · obtain ⟨a, b, c, d, e, f, g, h, i⟩ := V
      simp only [hp, Option.bind_eq_some, Option.some.injEq, _validators.mk.injEq,
        Except.ok.injEq, exists_and_left, List.map_cons, List.map_nil, List.cons.injEq,
        and_true, exists_eq_left']
      constructor
      · rintro ⟨a1, ha, b1, hb, c1, hc, d1, hd, e1, he, f1, hf, g1, hg, h1, hh, i1, hi, h9⟩
        obtain ⟨rfl, rfl, rfl, rfl, rfl, rfl, rfl, rfl, rfl⟩ := h9
        exact ⟨ha, hb, hc, hd, he, hf, hg, hh, hi⟩
      · rintro ⟨ha, hb, hc, hd, he, hf, hg, hh, hi⟩
        exact ⟨a, ha, b, hb, c, hc, d, hd, e, he, f, hf, g, hg, h, hh, i, hi,
          rfl, rfl, rfl, rfl, rfl, rfl, rfl, rfl, rfl⟩

theorem validators_all_built (NewValidator : UclValue → Except Error Validator)
    (service : UclValue) (V : _validators)
    (hmap : (validatorSchemas service).map (mustValidator NewValidator) =
      [some V.ReadArgs, some V.ReadResult, some V.ReadRegBArgs, some V.ReadRegBResult,
       some V.ReadRegWArgs, some V.ReadRegWResult, some V.ScanResult, some V.WriteArgs,
       some V.WriteRegBArgs]) :
    ∀ schema ∈ validatorSchemas service, ∃ s v, schema = some s ∧ NewValidator s = .ok v := by
  intro schema hs
  have hmem : mustValidator NewValidator schema ∈
      (validatorSchemas service).map (mustValidator NewValidator) := List.mem_map_of_mem _ hs
  rw [hmap] at hmem
  simp only [List.mem_cons, List.mem_singleton, List.not_mem_nil, or_false] at hmem
  rcases hmem with h | h | h | h | h | h | h | h | h <;>
    exact (let ⟨s, hs1, hs2⟩ := (mustValidator_eq_some NewValidator schema _).1 h
      ⟨s, _, hs1, hs2⟩)

/-- C12: `initValidators` completes only if the definition parses to an object with a
`methods` object that holds each of the six methods as an object, the patch-up
completes, and `schema.NewValidator` succeeds on each of the nine schemas, giving the
nine validators of the set.  It panics when parsing fails, when the parsed document is
not an object with a `methods` object, and when `schema.NewValidator` fails on any one of
the nine schemas.  `NewClient` panics exactly when `initValidators` panics, and returns
a client exactly when `initValidators` completes. -/
theorem initValidators_fail_fast {Raw : Type} (parsed : Except Error UclValue)
    (NewValidator : UclValue → Except Error Validator) (i : Instance Raw) (addr : String) :
    (∀ V, initValidators parsed NewValidator = some V →
      ∃ sv ms service, parsed = .ok (.Object sv) ∧ Find sv "methods" = .Object ms ∧
        (∀ name ∈ ["Read", "ReadRegB", "ReadRegW", "Scan", "Write", "WriteRegB"],
          ∃ m, Find ms name = .Object m) ∧
        patchUp (.Object sv) = some service ∧
        (∀ schema ∈ validatorSchemas service,
          ∃ s v, schema = some s ∧ NewValidator s = .ok v) ∧
        (validatorSchemas service).map (mustValidator NewValidator) =
          [some V.ReadArgs, some V.ReadResult, some V.ReadRegBArgs, some V.ReadRegBResult,
           some V.ReadRegWArgs, some V.ReadRegWResult, some V.ScanResult, some V.WriteArgs,
           some V.WriteRegBArgs]) ∧
    (∀ e, parsed = .error e → initValidators parsed NewValidator = none) ∧
    (∀ service0, parsed = .ok service0 →
      (¬ ∃ sv ms, service0 = .Object sv ∧ Find sv "methods" = .Object ms) →
      initValidators parsed NewValidator = none) ∧
    (∀ service0 service, parsed = .ok service0 → patchUp service0 = some service →
      (∃ schema ∈ validatorSchemas service, ∃ s e,
        schema = some s ∧ NewValidator s = .error e) →
      initValidators parsed NewValidator = none) ∧
    (NewClient parsed NewValidator i addr = .panicked ↔
      initValidators parsed NewValidator = none) ∧
    ∀ V c, NewClient parsed NewValidator i addr = .returned (V, c) ↔
      initValidators parsed NewValidator = some V ∧ c = ⟨i, addr⟩ := by
  refine ⟨?_, ?_, ?_, ?_, ?_, ?_⟩
  · intro V hV
    obtain ⟨service0, service, hparsed, hpatch, hmap⟩ :=
      (initValidators_eq_some parsed NewValidator V).1 hV
    obtain ⟨sv, ms, ms1, rfl, hm, hpm, rfl⟩ := patchUp_eq_some service0 service hpatch
    have hall := validators_all_built NewValidator _ V hmap
    have hargs : ∀ name, argsSchema (.Object (update sv "methods" (.Object ms1))) name ∈
        validatorSchemas (.Object (update sv "methods" (.Object ms1))) →
        ∃ m, Find ms name = .Object m := by
      intro name hmem
      obtain ⟨s, v, hs, -⟩ := hall _ hmem
      obtain ⟨m1, hm1⟩ := methodOf_of_argsSchema _ name s hs
      exact methodOf_original sv ms ms1 name m1 hm hpm hm1
    have hres : ∀ name, resultSchema (.Object (update sv "methods" (.Object ms1))) name ∈
        validatorSchemas (.Object (update sv "methods" (.Object ms1))) →
        ∃ m, Find ms name = .Object m := by
      intro name hmem
      obtain ⟨s, v, hs, -⟩ := hall _ hmem
      obtain ⟨m1, hm1⟩ := methodOf_of_resultSchema _ name s hs
      exact methodOf_original sv ms ms1 name m1 hm hpm hm1
    refine ⟨sv, ms, _, hparsed, hm, ?_, hpatch, hall, hmap⟩
    intro name hname
    simp only [List.mem_cons, List.mem_singleton, List.not_mem_nil, or_false] at hname
    rcases hname with rfl | rfl | rfl | rfl | rfl | rfl
    · exact hargs "Read" (by simp [validatorSchemas])
    · exact hargs "ReadRegB" (by simp [validatorSchemas])
    · exact hargs "ReadRegW" (by simp [validatorSchemas])
    · exact hres "Scan" (by simp [validatorSchemas])
    · exact hargs "Write" (by simp [validatorSchemas])
    · exact hargs "WriteRegB" (by simp [validatorSchemas])
  · intro e he
    subst he
    rfl
  · intro service0 hparsed hnot
    rcases h : initValidators parsed NewValidator with _ | V
    · rfl
    · exfalso
      obtain ⟨service1, service, hparsed1, hpatch, -⟩ :=
        (initValidators_eq_some parsed NewValidator V).1 h
      rw [hparsed] at hparsed1
      cases hparsed1
      obtain ⟨sv, ms, ms1, hobj, hm, -, -⟩ := patchUp_eq_some service0 service hpatch
      exact hnot ⟨sv, ms, hobj, hm⟩
  · intro service0 service hparsed hpatch hfail
    rcases h : initValidators parsed NewValidator with _ | V
    · rfl
    · exfalso
      obtain ⟨service1, service2, hparsed1, hpatch1, hmap⟩ :=
        (initValidators_eq_some parsed NewValidator V).1 h
      rw [hparsed] at hparsed1
      cases hparsed1
      rw [hpatch] at hpatch1
      cases hpatch1
      obtain ⟨schema, hmem, s, e, hs, he⟩ := hfail
      obtain ⟨s2, v, hs2, hv⟩ := validators_all_built NewValidator service V hmap schema hmem
      rw [hs] at hs2
      cases hs2
      rw [he] at hv
      cases hv
  · unfold NewClient
    rcases h : initValidators parsed NewValidator with _ | V <;> simp
  · intro V c
    unfold NewClient
    rcases h : initValidators parsed NewValidator with _ | V2
    · simp
    · simp only [Outcome.returned.injEq, Prod.mk.injEq, Option.some.injEq]
      constructor
      · rintro ⟨h1, h2⟩
        exact ⟨h1, h2.symm⟩
      · rintro ⟨h1, h2⟩
        exact ⟨h1, h2.symm⟩

/-- C12 at the embedded definition with the stand-in constructor: `initValidators`
completes with the stand-in validator set and `NewClient` returns the client; and when
the parse fails, `NewClient` panics. -/
theorem initValidators_fail_fast_witness :
    initValidators (.ok _ServiceDefinition) demoNewValidator = some demoValidators ∧
      NewClient (.ok _ServiceDefinition) demoNewValidator (demoInstance ⟨0, "", ""⟩) "device" =
        .returned (demoValidators, demoClient ⟨0, "", ""⟩) ∧
      NewClient (.error (.external "parse error")) demoNewValidator
        (demoInstance ⟨0, "", ""⟩) "device" = .panicked :=
  ⟨rfl,
   ((initValidators_fail_fast (.ok _ServiceDefinition) demoNewValidator
      (demoInstance ⟨0, "", ""⟩) "device").2.2.2.2.2 demoValidators
      (demoClient ⟨0, "", ""⟩)).2 ⟨rfl, rfl⟩,
   (initValidators_fail_fast (.error (.external "parse error")) demoNewValidator
      (demoInstance ⟨0, "", ""⟩) "device").2.2.2.2.1.2
      ((initValidators_fail_fast (.error (.external "parse error")) demoNewValidator
        (demoInstance ⟨0, "", ""⟩) "device").2.1 (.external "parse error") rfl)⟩

end I2C
